import Mathlib

/-!
Verification of the time-converter web application (`src/app.js`).

The embedding models text as `List Char`. JavaScript semantics are made
explicit: `%` on numbers is the truncated remainder (`Int.tmod`),
`Math.floor(a/b)` for a positive constant divisor `b` is Euclidean division
(`Int.ediv`, written `/`), `new Date(ms)` clips to the representable range
±8,640,000,000,000,000 ms and otherwise yields an invalid (NaN) date, and
`parseInt(s, 10)` reads an optional sign and a leading digit run (exact here;
JavaScript loses precision only above 2^53, far beyond every value these
theorems evaluate).

`new Date(string)` on non-ISO text (RFC 2822 and named-month forms) is
implementation-defined in ECMAScript; it is therefore a parameter
(`lp : LooseParse`) of the detection pipeline.  ISO-format parsing is
specified by ECMAScript and modelled concretely (`readISO`), including
real-calendar day validation and the `Z` / `±hh:mm` offset suffixes.

Each regular-expression recognizer from the `FORMATS` table is compiled to a
matcher over a token stream (maximal runs of digits / letters / whitespace,
and single symbol characters).  Every one of those regexes is token-aligned:
adjacent regex atoms draw from disjoint character classes, so the greedy
run-based matcher accepts exactly the regex's language.
-/

namespace App

/-! ### Definitions: the shallow embedding of `src/app.js` -/

/-- Program text: a list of characters. -/
abbrev Str := List Char

/-- ASCII decimal digit (regex `\d`). -/
def isDigitChar (c : Char) : Bool := 48 ≤ c.toNat && c.toNat ≤ 57

/-- ASCII letter (regex `[A-Za-z]`). -/
def isAlphaChar (c : Char) : Bool :=
  (65 ≤ c.toNat && c.toNat ≤ 90) || (97 ≤ c.toNat && c.toNat ≤ 122)

/-- ASCII uppercase letter (regex `[A-Z]`). -/
def isUpperChar (c : Char) : Bool := 65 ≤ c.toNat && c.toNat ≤ 90

/-- Whitespace as used by regex `\s`, `String.prototype.trim` (ASCII part). -/
def isWsChar (c : Char) : Bool :=
  c == ' ' || c == '\t' || c == '\n' || c == '\r' ||
  c == Char.ofNat 11 || c == Char.ofNat 12

/-- `String.prototype.toLowerCase` on ASCII. -/
def toLowerChar (c : Char) : Char :=
  if 65 ≤ c.toNat ∧ c.toNat ≤ 90 then Char.ofNat (c.toNat + 32) else c

/-- `String.prototype.toUpperCase` on ASCII. -/
def toUpperChar (c : Char) : Char :=
  if 97 ≤ c.toNat ∧ c.toNat ≤ 122 then Char.ofNat (c.toNat - 32) else c

/-- `String.prototype.trim`. -/
def jsTrim (s : Str) : Str :=
  ((s.dropWhile isWsChar).reverse.dropWhile isWsChar).reverse

/-- Token stream cell: a maximal digit run, letter run, whitespace run,
or a single non-alphanumeric symbol character. -/
inductive Tok where
  | digits (ds : Str)
  | letters (ws : Str)
  | ws (s : Str)
  | sym (c : Char)
deriving DecidableEq, Repr

/-- Prepend one character to a token stream, merging it into a following
run of the same class so that runs stay maximal. -/
def consTok (c : Char) (ts : List Tok) : List Tok :=
  if isDigitChar c then
    match ts with
    | .digits ds :: r => .digits (c :: ds) :: r
    | _ => .digits [c] :: ts
  else if isAlphaChar c then
    match ts with
    | .letters ws :: r => .letters (c :: ws) :: r
    | _ => .letters [c] :: ts
  else if isWsChar c then
    match ts with
    | .ws ws :: r => .ws (c :: ws) :: r
    | _ => .ws [c] :: ts
  else
    .sym c :: ts

/-- Split text into maximal runs; the basis of every regex recognizer below. -/
def tokenize : Str → List Tok
  | [] => []
  | c :: cs => consTok c (tokenize cs)

/-- `/^(now|today|yesterday|tomorrow)$/i` -/
def testRelative (s : Str) : Bool :=
  let l := s.map toLowerChar
  l == "now".toList || l == "today".toList ||
  l == "yesterday".toList || l == "tomorrow".toList

/-- `/^-?\d{13,}$/` -/
def shapeUnixMs : List Tok → Bool
  | [.digits ds] => 13 ≤ ds.length
  | [.sym '-', .digits ds] => 13 ≤ ds.length
  | _ => false

/-- `/^-?\d{1,12}$/` -/
def shapeUnixS : List Tok → Bool
  | [.digits ds] => 1 ≤ ds.length && ds.length ≤ 12
  | [.sym '-', .digits ds] => 1 ≤ ds.length && ds.length ≤ 12
  | _ => false

/-- `(Z|[+-]\d{2}:\d{2})?$` with `/i`. -/
def shapeISOZone : List Tok → Bool
  | [] => true
  | [.letters z] => z.map toLowerChar == ['z']
  | [.sym c, .digits a, .sym ':', .digits b] =>
      (c == '+' || c == '-') && a.length == 2 && b.length == 2
  | _ => false

/-- `(\.\d+)?` then the zone suffix. -/
def shapeISOFrac : List Tok → Bool
  | .sym '.' :: .digits _ :: r => shapeISOZone r
  | r => shapeISOZone r

/-- `(:\d{2}(\.\d+)?)?` then the zone suffix. -/
def shapeISOSec : List Tok → Bool
  | .sym ':' :: .digits s :: r => s.length == 2 && shapeISOFrac r
  | r => shapeISOZone r

/-- `/^\d{4}-\d{2}-\d{2}T\d{2}:\d{2}(:\d{2}(\.\d+)?)?(Z|[+-]\d{2}:\d{2})?$/i` -/
def shapeISO : List Tok → Bool
  | .digits y :: .sym '-' :: .digits mo :: .sym '-' :: .digits d :: .letters t ::
      .digits h :: .sym ':' :: .digits mi :: r =>
      y.length == 4 && mo.length == 2 && d.length == 2 &&
      t.map toLowerChar == ['t'] && h.length == 2 && mi.length == 2 && shapeISOSec r
  | _ => false

/-- `/^\d{8}T\d{6}$/` -/
def shapeCompactISO : List Tok → Bool
  | [.digits a, .letters t, .digits b] => a.length == 8 && t == ['T'] && b.length == 6
  | _ => false

/-- `([+-]\d{4}|[A-Z]{2,4})?$` -/
def shapeRFCZone : List Tok → Bool
  | [] => true
  | [.sym c, .digits a] => (c == '+' || c == '-') && a.length == 4
  | [.letters z] => 2 ≤ z.length && z.length ≤ 4 && z.all isUpperChar
  | _ => false

/-- `\s*` then the RFC zone suffix. -/
def shapeRFCZoneWs : List Tok → Bool
  | .ws _ :: r => shapeRFCZone r
  | r => shapeRFCZone r

/-- `(:\d{2})?` then `\s*` and the RFC zone suffix. -/
def shapeRFCSec : List Tok → Bool
  | .sym ':' :: .digits s :: r => s.length == 2 && shapeRFCZoneWs r
  | r => shapeRFCZoneWs r

/-- `\d{1,2}\s+[A-Za-z]{3}\s+\d{4}\s+\d{2}:\d{2}` and the RFC tail. -/
def shapeRFCBody : List Tok → Bool
  | .digits d :: .ws _ :: .letters mon :: .ws _ :: .digits y :: .ws _ ::
      .digits h :: .sym ':' :: .digits mi :: r =>
      1 ≤ d.length && d.length ≤ 2 && mon.length == 3 && y.length == 4 &&
      h.length == 2 && mi.length == 2 && shapeRFCSec r
  | _ => false

/-- `/^[A-Za-z]{3},?\s+\d{1,2}\s+[A-Za-z]{3}\s+\d{4}\s+\d{2}:\d{2}(:\d{2})?\s*([+-]\d{4}|[A-Z]{2,4})?$/` -/
def shapeRFC : List Tok → Bool
  | .letters dow :: .sym ',' :: .ws _ :: r => dow.length == 3 && shapeRFCBody r
  | .letters dow :: .ws _ :: r => dow.length == 3 && shapeRFCBody r
  | _ => false

/-- `([.,]\d+)?$` -/
def shapeSQLFrac : List Tok → Bool
  | [] => true
  | [.sym c, .digits _] => c == '.' || c == ','
  | _ => false

/-- `(:\d{2}([.,]\d+)?)?$` -/
def shapeSQLSec : List Tok → Bool
  | [] => true
  | .sym ':' :: .digits s :: r => s.length == 2 && shapeSQLFrac r
  | _ => false

/-- `/^\d{4}-\d{2}-\d{2}\s+\d{2}:\d{2}(:\d{2}([.,]\d+)?)?$/` -/
def shapeSQL : List Tok → Bool
  | .digits y :: .sym '-' :: .digits mo :: .sym '-' :: .digits d :: .ws _ ::
      .digits h :: .sym ':' :: .digits mi :: r =>
      y.length == 4 && mo.length == 2 && d.length == 2 &&
      h.length == 2 && mi.length == 2 && shapeSQLSec r
  | _ => false

/-- `/^\d{4}-\d{2}-\d{2}$/` -/
def shapeDateISO : List Tok → Bool
  | [.digits y, .sym '-', .digits mo, .sym '-', .digits d] =>
      y.length == 4 && mo.length == 2 && d.length == 2
  | _ => false

/-- `/^\d{8}$/` -/
def shapeCompactDate : List Tok → Bool
  | [.digits ds] => ds.length == 8
  | _ => false

/-- `/^\d{1,2}\/\d{1,2}\/\d{4}$/` -/
def shapeSlashDate : List Tok → Bool
  | [.digits a, .sym '/', .digits b, .sym '/', .digits y] =>
      1 ≤ a.length && a.length ≤ 2 && 1 ≤ b.length && b.length ≤ 2 && y.length == 4
  | _ => false

/-- `(:\d{2})?$` -/
def shapeOptSec : List Tok → Bool
  | [] => true
  | [.sym ':', .digits s] => s.length == 2
  | _ => false

/-- `/^\d{1,2}\/\d{1,2}\/\d{4}\s+\d{1,2}:\d{2}(:\d{2})?$/` -/
def shapeSlashDateTime : List Tok → Bool
  | .digits a :: .sym '/' :: .digits b :: .sym '/' :: .digits y :: .ws _ ::
      .digits h :: .sym ':' :: .digits mi :: r =>
      1 ≤ a.length && a.length ≤ 2 && 1 ≤ b.length && b.length ≤ 2 &&
      y.length == 4 && 1 ≤ h.length && h.length ≤ 2 && mi.length == 2 && shapeOptSec r
  | _ => false

/-- `(\s+\d{1,2}:\d{2}(:\d{2})?)?$` -/
def shapeOptTime : List Tok → Bool
  | [] => true
  | .ws _ :: .digits h :: .sym ':' :: .digits mi :: r =>
      1 ≤ h.length && h.length ≤ 2 && mi.length == 2 && shapeOptSec r
  | _ => false

/-- `/^\d{4}\/\d{1,2}\/\d{1,2}(\s+\d{1,2}:\d{2}(:\d{2})?)?$/` -/
def shapeSlashYMD : List Tok → Bool
  | .digits y :: .sym '/' :: .digits a :: .sym '/' :: .digits b :: r =>
      y.length == 4 && 1 ≤ a.length && a.length ≤ 2 &&
      1 ≤ b.length && b.length ≤ 2 && shapeOptTime r
  | _ => false

/-- `/^\d{1,2}\.\d{1,2}\.\d{4}(\s+\d{1,2}:\d{2}(:\d{2})?)?$/` -/
def shapeDotDate : List Tok → Bool
  | .digits a :: .sym '.' :: .digits b :: .sym '.' :: .digits y :: r =>
      1 ≤ a.length && a.length ≤ 2 && 1 ≤ b.length && b.length ≤ 2 &&
      y.length == 4 && shapeOptTime r
  | _ => false

/-- `/^\d{1,2}-\d{1,2}-\d{4}(\s+\d{1,2}:\d{2}(:\d{2})?)?$/` -/
def shapeDashDMY : List Tok → Bool
  | .digits a :: .sym '-' :: .digits b :: .sym '-' :: .digits y :: r =>
      1 ≤ a.length && a.length ≤ 2 && 1 ≤ b.length && b.length ≤ 2 &&
      y.length == 4 && shapeOptTime r
  | _ => false

/-- `/^\d{1,2}\s+[A-Za-z]{3,}\s+\d{4}$/` -/
def shapeDayMonYear : List Tok → Bool
  | [.digits d, .ws _, .letters mon, .ws _, .digits y] =>
      1 ≤ d.length && d.length ≤ 2 && 3 ≤ mon.length && y.length == 4
  | _ => false

/-- `\s*(AM|PM)?$` with `/i`. -/
def shapeAmPm : List Tok → Bool
  | [] => true
  | [.ws _] => true
  | [.letters w] => w.map toLowerChar == "am".toList || w.map toLowerChar == "pm".toList
  | [.ws _, .letters w] => w.map toLowerChar == "am".toList || w.map toLowerChar == "pm".toList
  | _ => false

/-- `(:\d{2})?\s*(AM|PM)?$` with `/i`. -/
def shapeSecAmPm : List Tok → Bool
  | .sym ':' :: .digits s :: r => s.length == 2 && shapeAmPm r
  | r => shapeAmPm r

/-- `(\s+\d{1,2}:\d{2}(:\d{2})?\s*(AM|PM)?)?$` with `/i`. -/
def shapeMonDDTime : List Tok → Bool
  | [] => true
  | .ws _ :: .digits h :: .sym ':' :: .digits mi :: r =>
      1 ≤ h.length && h.length ≤ 2 && mi.length == 2 && shapeSecAmPm r
  | _ => false

/-- `,?\s+\d{4}` then the optional time tail. -/
def shapeMonDDYear : List Tok → Bool
  | .sym ',' :: .ws _ :: .digits y :: r => y.length == 4 && shapeMonDDTime r
  | .ws _ :: .digits y :: r => y.length == 4 && shapeMonDDTime r
  | _ => false

/-- `/^[A-Za-z]{3,}\s+\d{1,2},?\s+\d{4}(\s+\d{1,2}:\d{2}(:\d{2})?\s*(AM|PM)?)?$/i` -/
def shapeMonDD : List Tok → Bool
  | .letters mon :: .ws _ :: .digits d :: r =>
      3 ≤ mon.length && 1 ≤ d.length && d.length ≤ 2 && shapeMonDDYear r
  | _ => false

/-- `/^\d{1,2}:\d{2}(:\d{2})?\s*(AM|PM)?$/i` -/
def shapeTimeOnly : List Tok → Bool
  | .digits h :: .sym ':' :: .digits mi :: r =>
      1 ≤ h.length && h.length ≤ 2 && mi.length == 2 && shapeSecAmPm r
  | _ => false

def testUnixMs (s : Str) : Bool := shapeUnixMs (tokenize s)

def testUnixS (s : Str) : Bool := shapeUnixS (tokenize s)

def testISO (s : Str) : Bool := shapeISO (tokenize s)

def testCompactISO (s : Str) : Bool := shapeCompactISO (tokenize s)

def testRFC (s : Str) : Bool := shapeRFC (tokenize s)

def testSQL (s : Str) : Bool := shapeSQL (tokenize s)

def testDateISO (s : Str) : Bool := shapeDateISO (tokenize s)

def testCompactDate (s : Str) : Bool := shapeCompactDate (tokenize s)

def testSlashDate (s : Str) : Bool := shapeSlashDate (tokenize s)

def testSlashDateTime (s : Str) : Bool := shapeSlashDateTime (tokenize s)

def testSlashYMD (s : Str) : Bool := shapeSlashYMD (tokenize s)

def testDotDate (s : Str) : Bool := shapeDotDate (tokenize s)

def testDashDMY (s : Str) : Bool := shapeDashDMY (tokenize s)

def testDayMonYear (s : Str) : Bool := shapeDayMonYear (tokenize s)

def testMonDD (s : Str) : Bool := shapeMonDD (tokenize s)

def testTimeOnly (s : Str) : Bool := shapeTimeOnly (tokenize s)

/-- Value of a digit character. -/
def digitVal (c : Char) : Nat := c.toNat - 48

/-- Value of the leading digit run; `none` when there is no leading digit
(the NaN case of `parseInt`). -/
def digitsVal (s : Str) : Option Nat :=
  let ds := s.takeWhile isDigitChar
  if ds.isEmpty then none else some (ds.foldl (fun a c => a * 10 + digitVal c) 0)

/-- Value of an all-digit list (total form used to state theorems). -/
def digitsValD (s : Str) : Nat := s.foldl (fun a c => a * 10 + digitVal c) 0

/-- `parseInt(s, 10)`: skip whitespace, optional sign, leading digit run;
`none` is NaN.  Exact integer semantics (JavaScript rounds only above 2^53,
beyond every value evaluated here). -/
def jsParseInt (s : Str) : Option Int :=
  let s := s.dropWhile isWsChar
  match s with
  | '-' :: r => (digitsVal r).map (fun n => -(n : Int))
  | '+' :: r => (digitsVal r).map (fun n => (n : Int))
  | r => (digitsVal r).map (fun n => (n : Int))

/-- Decimal digits, most significant first; structural recursion on a fuel
bound so that the definition evaluates by kernel reduction. -/
def natToStringAux : Nat → Nat → Str
  | 0, _ => []
  | fuel + 1, n =>
    if n < 10 then [Char.ofNat (48 + n)]
    else natToStringAux fuel (n / 10) ++ [Char.ofNat (48 + n % 10)]

/-- Decimal digits of a natural number, most significant first. -/
def natToString (n : Nat) : Str := natToStringAux (n + 1) n

/-- `String(n)` for an integer. -/
def jsIntToString (i : Int) : Str :=
  if i < 0 then '-' :: natToString (-i).toNat else natToString i.toNat

/-- `String.prototype.padStart(n, c)`. -/
def padStart (n : Nat) (c : Char) (s : Str) : Str :=
  List.replicate (n - s.length) c ++ s

/-- `String.prototype.split(sep)` for a single-character separator. -/
def splitOnChar (sep : Char) : Str → List Str
  | [] => [[]]
  | c :: cs =>
    if c == sep then [] :: splitOnChar sep cs
    else
      match splitOnChar sep cs with
      | [] => [[c]]
      | p :: ps => (c :: p) :: ps

/-- Replace the first occurrence of a character (`String.prototype.replace`
with a one-character pattern). -/
def replaceFirst (from_ to_ : Char) : Str → Str
  | [] => []
  | c :: cs => if c == from_ then to_ :: cs else c :: replaceFirst from_ to_ cs

/-- Last representable millisecond offset: ±8.64e15 (`TimeClip`). -/
def maxTimeValue : Int := 8640000000000000

/-- `TimeClip`: a time value, or `none` (NaN) outside the supported range. -/
def timeClip (t : Int) : Option Int :=
  if t.natAbs ≤ maxTimeValue.toNat then some t else none

/-- Days from the epoch of a civil date (Gregorian, month 1–12; day may
exceed the month length, adding overflow days exactly like `MakeDay`). -/
def daysFromCivil (y m d : Int) : Int :=
  let yAdj := if m ≤ 2 then y - 1 else y
  let era := yAdj / 400
  let yoe := yAdj - era * 400
  let mp := (m + 9) % 12
  let doy := (153 * mp + 2) / 5 + d - 1
  let doe := yoe * 365 + yoe / 4 - yoe / 100 + doy
  era * 146097 + doe - 719468

/-- Milliseconds since the epoch of civil fields interpreted as UTC. -/
def utcMsOfFields (y m d h mi s ms : Int) : Int :=
  daysFromCivil y m d * 86400000 + h * 3600000 + mi * 60000 + s * 1000 + ms

/-- `MakeFullYear`: `Date.UTC` maps two-digit years into 19xx. -/
def makeFullYear (y : Int) : Int := if 0 ≤ y ∧ y ≤ 99 then y + 1900 else y

/-- `Date.UTC(y, monthIndex, d, h, mi, s)`: two-digit-year adjustment,
month-index normalization, then `TimeClip`. -/
def jsDateUTC (y monthIndex d h mi s : Int) : Option Int :=
  let ym := makeFullYear y + monthIndex / 12
  let mn := monthIndex % 12
  timeClip (utcMsOfFields ym (mn + 1) d h mi s 0)

/-- Civil date (year, month 1–12, day 1–31) of a day number. -/
def civilFromDays (z : Int) : Int × Int × Int :=
  let z2 := z + 719468
  let era := z2 / 146097
  let doe := z2 - era * 146097
  let yoe := (doe - doe / 1460 + doe / 36524 - doe / 146096) / 365
  let y := yoe + era * 400
  let doy := doe - (365 * yoe + yoe / 4 - yoe / 100)
  let mp := (5 * doy + 2) / 153
  let d := doy - (153 * mp + 2) / 5 + 1
  let m := if mp < 10 then mp + 3 else mp - 9
  (if m ≤ 2 then y + 1 else y, m, d)

/-- Civil calendar fields of an instant in one timezone (§3 of the spec). -/
structure CalendarFields where
  year : Int
  month : Int
  day : Int
  hour : Int
  minute : Int
  second : Int
deriving DecidableEq, Repr

/-- UTC calendar fields of a time value (the `getUTC*` accessors). -/
def utcFieldsOfTime (t : Int) : CalendarFields :=
  let day := (t - t % 86400000) / 86400000
  let rem := t % 86400000
  let c := civilFromDays day
  { year := c.1, month := c.2.1, day := c.2.2
    hour := rem / 3600000, minute := rem % 3600000 / 60000, second := rem % 60000 / 1000 }

/-- Gregorian leap year. -/
def isLeapYear (y : Int) : Bool := (y % 4 == 0 && y % 100 != 0) || y % 400 == 0

/-- Length of a month. -/
def daysInMonth (y m : Int) : Int :=
  if m = 2 then (if isLeapYear y then 29 else 28)
  else if m = 4 ∨ m = 6 ∨ m = 9 ∨ m = 11 then 30
  else 31

/-- Millisecond value of a fraction digit run: first three digits,
right-padded with zeros. -/
def fracMs (ds : Str) : Nat := digitsValD ((ds ++ ['0', '0', '0']).take 3)

def isoFieldsValid (y mo d h mi s ms : Int) : Bool :=
  1 ≤ mo && mo ≤ 12 && 1 ≤ d && d ≤ daysInMonth y mo &&
  0 ≤ mi && mi ≤ 59 && 0 ≤ s && s ≤ 59 && 0 ≤ ms && ms ≤ 999 &&
  0 ≤ h && (h ≤ 23 || (h == 24 && mi == 0 && s == 0 && ms == 0))

def mkISOTime (y mo d h mi s ms offMin : Int) : Option Int :=
  if isoFieldsValid y mo d h mi s ms then
    timeClip (utcMsOfFields y mo d h mi s ms - offMin * 60000)
  else none

def readISOZoneEnd (y mo d h mi s ms : Int) : List Tok → Option Int
  | [.letters z] =>
      if z.map toLowerChar = ['z'] then mkISOTime y mo d h mi s ms 0 else none
  | [.sym c, .digits a, .sym ':', .digits b] =>
      if (c = '+' ∨ c = '-') ∧ a.length = 2 ∧ b.length = 2 ∧
          digitsValD a ≤ 23 ∧ digitsValD b ≤ 59 then
        mkISOTime y mo d h mi s ms
          ((if c = '+' then 1 else -1) * ((digitsValD a : Int) * 60 + digitsValD b))
      else none
  | _ => none

def readISOFracZone (y mo d h mi s : Int) : List Tok → Option Int
  | .sym '.' :: .digits f :: rest => readISOZoneEnd y mo d h mi s (fracMs f) rest
  | rest => readISOZoneEnd y mo d h mi s 0 rest

def readISOTail (y mo d h mi : Int) : List Tok → Option Int
  | .sym ':' :: .digits s :: rest =>
      if s.length = 2 then readISOFracZone y mo d h mi (digitsValD s) rest else none
  | rest => readISOZoneEnd y mo d h mi 0 0 rest

def readISO (s : Str) : Option Int :=
  match tokenize s with
  | .digits y :: .sym '-' :: .digits mo :: .sym '-' :: .digits d :: .letters t ::
      .digits h :: .sym ':' :: .digits mi :: rest =>
      if y.length = 4 ∧ mo.length = 2 ∧ d.length = 2 ∧ t.map toLowerChar = ['t'] ∧
          h.length = 2 ∧ mi.length = 2 then
        readISOTail (digitsValD y) (digitsValD mo) (digitsValD d)
          (digitsValD h) (digitsValD mi) rest
      else none
  | _ => none

/-- A JavaScript parser result: `null`, or a `Date` whose time value is
`none` when the date is invalid (NaN). -/
inductive JSVal where
  | null
  | date (t : Option Int)
deriving DecidableEq, Repr

/-- `isNaN(d.getTime()) ? null : d` applied to an ISO-parse outcome. -/
def looseToJSVal (r : Option Int) : JSVal :=
  match r with
  | some v => .date (some v)
  | none => .null

/-- The host's implementation-defined `new Date(string)` parser for
non-ISO text (RFC 2822 and named-month forms); `none` is an invalid date. -/
abbrev LooseParse := Str → Option Int

/-- The `dateFormat` setting (`'us'` or `'eu'`). -/
inductive DateMode where
  | us
  | eu
deriving DecidableEq, Repr

/-- `parseRelativeInput` (app.js 412–419). -/
def parseRelativeInput (now : Int) (s : Str) : JSVal :=
  let keyword := jsTrim (s.map toLowerChar)
  if keyword = "now".toList ∨ keyword = "today".toList then .date (some now)
  else if keyword = "yesterday".toList then .date (timeClip (now - 86400000))
  else if keyword = "tomorrow".toList then .date (timeClip (now + 86400000))
  else .null

/-- `/Z|[+-]\d{2}:\d{2}$/i` — the second alternative, anchored at the end. -/
def endsWithOffset (s : Str) : Bool :=
  match s.reverse with
  | b2 :: b1 :: c :: a2 :: a1 :: sg :: _ =>
      isDigitChar b2 && isDigitChar b1 && c == ':' && isDigitChar a2 &&
      isDigitChar a1 && (sg == '+' || sg == '-')
  | _ => false

/-- `parseISO` (app.js 421–427): append `Z` when no zone designator. -/
def parseISO (s : Str) : JSVal :=
  let hasOffset := s.any (fun c => c == 'Z' || c == 'z') || endsWithOffset s
  let str := if hasOffset then s else s ++ ['Z']
  looseToJSVal (readISO str)

/-- `parseCompactISO` (app.js 429–435): fixed-width slices re-assembled
into an ISO string. -/
def parseCompactISO (s : Str) : JSVal :=
  let iso := s.take 4 ++ '-' :: ((s.drop 4).take 2) ++ '-' :: ((s.drop 6).take 2) ++
    'T' :: ((s.drop 9).take 2) ++ ':' :: ((s.drop 11).take 2) ++
    ':' :: ((s.drop 13).take 2) ++ ['Z']
  looseToJSVal (readISO iso)

/-- `parseCompactDate` (app.js 437–442). -/
def parseCompactDate (s : Str) : JSVal :=
  let iso := s.take 4 ++ '-' :: ((s.drop 4).take 2) ++ '-' :: ((s.drop 6).take 2) ++
    "T00:00:00Z".toList
  looseToJSVal (readISO iso)

/-- `parseSQLDatetime` (app.js 444–449): first comma becomes a dot, first
space becomes `T`, then `Z` is appended. -/
def parseSQLDatetime (s : Str) : JSVal :=
  looseToJSVal (readISO (replaceFirst ' ' 'T' (replaceFirst ',' '.' s) ++ ['Z']))

/-- `parseRFC2822` (app.js 451–454): delegates to the host date parser. -/
def parseRFC2822 (lp : LooseParse) (s : Str) : JSVal := looseToJSVal (lp s)

/-- `parseLocaleDate` (app.js 472–476): host parse of `s + " UTC"`. -/
def parseLocaleDate (lp : LooseParse) (s : Str) : JSVal :=
  looseToJSVal (lp (s ++ " UTC".toList))

/-- The inline `DD Mon YYYY` parser (app.js 374–377): host parse of
`s + " UTC"`. -/
def parseDayMonYear (lp : LooseParse) (s : Str) : JSVal :=
  looseToJSVal (lp (s ++ " UTC".toList))

/-- Shared body of the day/month/year parsers: range check, `Date.UTC`,
`isNaN` check (app.js 467–469, 488–490, 503–505, 518–520, 539–541). -/
def dmyCore (month day year h mi sec : Int) : JSVal :=
  if month < 1 ∨ 12 < month ∨ day < 1 ∨ 31 < day then .null
  else
    match jsDateUTC year (month - 1) day h mi sec with
    | some v => .date (some v)
    | none => .null

/-- `parseSlashDate` (app.js 456–470). -/
def parseSlashDate (mode : DateMode) (s : Str) : JSVal :=
  let parts := splitOnChar '/' s
  let p0 := jsParseInt (parts.getD 0 [])
  let p1 := jsParseInt (parts.getD 1 [])
  let p2 := jsParseInt (parts.getD 2 [])
  let mOpt := if mode = .us then p0 else p1
  let dOpt := if mode = .us then p1 else p0
  match mOpt, dOpt, p2 with
  | some month, some day, some year => dmyCore month day year 0 0 0
  | _, _, _ => .null

/-- `parseSlashDateTime` (app.js 523–542); the `s.match(...)` capture
groups are read off the token stream. -/
def parseSlashDateTime (mode : DateMode) (s : Str) : JSVal :=
  match tokenize s with
  | [.digits a, .sym '/', .digits b, .sym '/', .digits y, .ws _,
      .digits h, .sym ':', .digits mi] =>
      if 1 ≤ a.length ∧ a.length ≤ 2 ∧ 1 ≤ b.length ∧ b.length ≤ 2 ∧ y.length = 4 ∧
          1 ≤ h.length ∧ h.length ≤ 2 ∧ mi.length = 2 then
        let mo : Int := if mode = .us then digitsValD a else digitsValD b
        let dy : Int := if mode = .us then digitsValD b else digitsValD a
        dmyCore mo dy (digitsValD y) (digitsValD h) (digitsValD mi) 0
      else .null
  | [.digits a, .sym '/', .digits b, .sym '/', .digits y, .ws _,
      .digits h, .sym ':', .digits mi, .sym ':', .digits sec] =>
      if 1 ≤ a.length ∧ a.length ≤ 2 ∧ 1 ≤ b.length ∧ b.length ≤ 2 ∧ y.length = 4 ∧
          1 ≤ h.length ∧ h.length ≤ 2 ∧ mi.length = 2 ∧ sec.length = 2 then
        let mo : Int := if mode = .us then digitsValD a else digitsValD b
        let dy : Int := if mode = .us then digitsValD b else digitsValD a
        dmyCore mo dy (digitsValD y) (digitsValD h) (digitsValD mi) (digitsValD sec)
      else .null
  | _ => .null

/-- `parseSlashYMD` (app.js 508–521). -/
def parseSlashYMD (s : Str) : JSVal :=
  match tokenize s with
  | [.digits y, .sym '/', .digits a, .sym '/', .digits b] =>
      if y.length = 4 ∧ 1 ≤ a.length ∧ a.length ≤ 2 ∧ 1 ≤ b.length ∧ b.length ≤ 2 then
        dmyCore (digitsValD a) (digitsValD b) (digitsValD y) 0 0 0
      else .null
  | [.digits y, .sym '/', .digits a, .sym '/', .digits b, .ws _,
      .digits h, .sym ':', .digits mi] =>
      if y.length = 4 ∧ 1 ≤ a.length ∧ a.length ≤ 2 ∧ 1 ≤ b.length ∧ b.length ≤ 2 ∧
          1 ≤ h.length ∧ h.length ≤ 2 ∧ mi.length = 2 then
        dmyCore (digitsValD a) (digitsValD b) (digitsValD y) (digitsValD h) (digitsValD mi) 0
      else .null
  | [.digits y, .sym '/', .digits a, .sym '/', .digits b, .ws _,
      .digits h, .sym ':', .digits mi, .sym ':', .digits sec] =>
      if y.length = 4 ∧ 1 ≤ a.length ∧ a.length ≤ 2 ∧ 1 ≤ b.length ∧ b.length ≤ 2 ∧
          1 ≤ h.length ∧ h.length ≤ 2 ∧ mi.length = 2 ∧ sec.length = 2 then
        dmyCore (digitsValD a) (digitsValD b) (digitsValD y) (digitsValD h) (digitsValD mi)
          (digitsValD sec)
      else .null
  | _ => .null

/-- `parseDotDate` (app.js 478–491), day-first. -/
def parseDotDate (s : Str) : JSVal :=
  match tokenize s with
  | [.digits a, .sym '.', .digits b, .sym '.', .digits y] =>
      if 1 ≤ a.length ∧ a.length ≤ 2 ∧ 1 ≤ b.length ∧ b.length ≤ 2 ∧ y.length = 4 then
        dmyCore (digitsValD b) (digitsValD a) (digitsValD y) 0 0 0
      else .null
  | [.digits a, .sym '.', .digits b, .sym '.', .digits y, .ws _,
      .digits h, .sym ':', .digits mi] =>
      if 1 ≤ a.length ∧ a.length ≤ 2 ∧ 1 ≤ b.length ∧ b.length ≤ 2 ∧ y.length = 4 ∧
          1 ≤ h.length ∧ h.length ≤ 2 ∧ mi.length = 2 then
        dmyCore (digitsValD b) (digitsValD a) (digitsValD y) (digitsValD h) (digitsValD mi) 0
      else .null
  | [.digits a, .sym '.', .digits b, .sym '.', .digits y, .ws _,
      .digits h, .sym ':', .digits mi, .sym ':', .digits sec] =>
      if 1 ≤ a.length ∧ a.length ≤ 2 ∧ 1 ≤ b.length ∧ b.length ≤ 2 ∧ y.length = 4 ∧
          1 ≤ h.length ∧ h.length ≤ 2 ∧ mi.length = 2 ∧ sec.length = 2 then
        dmyCore (digitsValD b) (digitsValD a) (digitsValD y) (digitsValD h) (digitsValD mi)
          (digitsValD sec)
      else .null
  | _ => .null

/-- `parseDashDMY` (app.js 493–506), day-first. -/
def parseDashDMY (s : Str) : JSVal :=
  match tokenize s with
  | [.digits a, .sym '-', .digits b, .sym '-', .digits y] =>
      if 1 ≤ a.length ∧ a.length ≤ 2 ∧ 1 ≤ b.length ∧ b.length ≤ 2 ∧ y.length = 4 then
        dmyCore (digitsValD b) (digitsValD a) (digitsValD y) 0 0 0
      else .null
  | [.digits a, .sym '-', .digits b, .sym '-', .digits y, .ws _,
      .digits h, .sym ':', .digits mi] =>
      if 1 ≤ a.length ∧ a.length ≤ 2 ∧ 1 ≤ b.length ∧ b.length ≤ 2 ∧ y.length = 4 ∧
          1 ≤ h.length ∧ h.length ≤ 2 ∧ mi.length = 2 then
        dmyCore (digitsValD b) (digitsValD a) (digitsValD y) (digitsValD h) (digitsValD mi) 0
      else .null
  | [.digits a, .sym '-', .digits b, .sym '-', .digits y, .ws _,
      .digits h, .sym ':', .digits mi, .sym ':', .digits sec] =>
      if 1 ≤ a.length ∧ a.length ≤ 2 ∧ 1 ≤ b.length ∧ b.length ≤ 2 ∧ y.length = 4 ∧
          1 ≤ h.length ∧ h.length ≤ 2 ∧ mi.length = 2 ∧ sec.length = 2 then
        dmyCore (digitsValD b) (digitsValD a) (digitsValD y) (digitsValD h) (digitsValD mi)
          (digitsValD sec)
      else .null
  | _ => .null

/-- Does `pat` occur as a contiguous substring of `s`? -/
def listStartsWith : Str → Str → Bool
  | [], _ => true
  | _ :: _, [] => false
  | p :: ps, c :: cs => p == c && listStartsWith ps cs

def hasSub (pat : Str) : Str → Bool
  | [] => pat.isEmpty
  | c :: cs => listStartsWith pat (c :: cs) || hasSub pat cs

/-- Leftmost match of `/\s*(AM|PM)\s*/i` starting exactly here: the
remainder after the matched span, or `none`. -/
def amPmAt (s : Str) : Option Str :=
  match s.dropWhile isWsChar with
  | a :: p :: r =>
      if (toLowerChar a == 'a' || toLowerChar a == 'p') && toLowerChar p == 'm' then
        some (r.dropWhile isWsChar)
      else none
  | _ => none

/-- `s.replace(/\s*(AM|PM)\s*/i, '')`: remove the leftmost match. -/
def removeAmPm : Str → Str
  | [] => []
  | c :: cs =>
    match amPmAt (c :: cs) with
    | some rest => rest
    | none => c :: removeAmPm cs

/-- `parseTimeOnly` (app.js 544–571): today's UTC date combined with the
given wall time; NaN fields short-circuit to `null`, which is also what the
source produces for them (NaN passes the range checks and then poisons the
assembled ISO string). -/
def timeOnlyFinish (dateStr : Str) (h m sec : Int) : JSVal :=
  if h < 0 ∨ 23 < h ∨ m < 0 ∨ 59 < m ∨ sec < 0 ∨ 59 < sec then .null
  else
    looseToJSVal (readISO (dateStr ++ 'T' :: padStart 2 '0' (jsIntToString h) ++
      ':' :: padStart 2 '0' (jsIntToString m) ++
      ':' :: padStart 2 '0' (jsIntToString sec) ++ ['Z']))

/-- The 12-hour-clock adjustment of `parseTimeOnly` (app.js 560–561). -/
def adjustAmPm (isAM isPM : Bool) (h0 : Int) : Int :=
  if isAM ∧ h0 = 12 then 0 else if isPM ∧ h0 ≠ 12 then h0 + 12 else h0

def parseTimeOnly (now : Int) (s : Str) : JSVal :=
  let nowF := utcFieldsOfTime now
  let dateStr := jsIntToString nowF.year ++ '-' :: padStart 2 '0' (jsIntToString nowF.month) ++
    '-' :: padStart 2 '0' (jsIntToString nowF.day)
  let upper := s.map toUpperChar
  let isPM := hasSub "PM".toList upper
  let isAM := hasSub "AM".toList upper
  let timePart := jsTrim (removeAmPm s)
  let parts := splitOnChar ':' timePart
  let hOpt := jsParseInt (parts.getD 0 [])
  let mOpt := jsParseInt (parts.getD 1 [])
  let secOpt :=
    match parts.get? 2 with
    | none => some (0 : Int)
    | some [] => some 0
    | some p => jsParseInt p
  match hOpt, mOpt, secOpt with
  | some h0, some m, some sec => timeOnlyFinish dateStr (adjustAmPm isAM isPM h0) m sec
  | _, _, _ => .null

/-- One entry of the `FORMATS` table (app.js 308–389). -/
structure FormatRule where
  name : String
  test : Str → Bool
  parse : Str → JSVal

/-- The `FORMATS` table, in source order.  The two slash-date labels are
mode-dependent (the source recomputes them from `dateFormat` on every
`parseTimestamp` run, lines 396–401). -/
def FORMATS (lp : LooseParse) (mode : DateMode) (now : Int) : List FormatRule :=
  [ { name := "Relative", test := testRelative, parse := parseRelativeInput now },
    { name := "Unix (ms)", test := testUnixMs,
      parse := fun s => .date ((jsParseInt s).bind timeClip) },
    { name := "Unix (s)", test := testUnixS,
      parse := fun s => .date (((jsParseInt s).map (· * 1000)).bind timeClip) },
    { name := "ISO 8601", test := testISO, parse := parseISO },
    { name := "Compact ISO 8601", test := testCompactISO, parse := parseCompactISO },
    { name := "RFC 2822", test := testRFC, parse := parseRFC2822 lp },
    { name := "SQL / Log datetime", test := testSQL, parse := parseSQLDatetime },
    { name := "Date (YYYY-MM-DD)", test := testDateISO,
      parse := fun s => .date (readISO (s ++ "T00:00:00Z".toList)) },
    { name := "Date (YYYYMMDD)", test := testCompactDate, parse := parseCompactDate },
    { name := if mode = .us then "Date (MM/DD/YYYY)" else "Date (DD/MM/YYYY)",
      test := testSlashDate, parse := parseSlashDate mode },
    { name := if mode = .us then "Datetime (MM/DD/YYYY HH:mm)" else "Datetime (DD/MM/YYYY HH:mm)",
      test := testSlashDateTime, parse := parseSlashDateTime mode },
    { name := "Date (YYYY/MM/DD)", test := testSlashYMD, parse := parseSlashYMD },
    { name := "Date (DD.MM.YYYY)", test := testDotDate, parse := parseDotDate },
    { name := "Date (DD-MM-YYYY)", test := testDashDMY, parse := parseDashDMY },
    { name := "Date (DD Mon YYYY)", test := testDayMonYear, parse := parseDayMonYear lp },
    { name := "Date (Mon DD, YYYY)", test := testMonDD, parse := parseLocaleDate lp },
    { name := "Time only", test := testTimeOnly, parse := parseTimeOnly now } ]

/-- The rule loop of `parseTimestamp` (app.js 395–408): a rule is used when
its recognizer accepts AND its parser returns a valid date; otherwise the
loop continues with the remaining rules. -/
def runFormats : List FormatRule → Str → Option (Int × String)
  | [], _ => none
  | f :: fs, t =>
    if f.test t then
      match f.parse t with
      | .date (some v) => some (v, f.name)
      | _ => runFormats fs t
    else runFormats fs t

/-- `parseTimestamp` (app.js 391–410): trim, reject empty input, then run
the rule list.  `none` is the `{ date: null, format: null }` NoMatch result. -/
def parseTimestamp (lp : LooseParse) (mode : DateMode) (now : Int) (input : Str) :
    Option (Int × String) :=
  let trimmed := jsTrim input
  if trimmed.isEmpty then none
  else runFormats (FORMATS lp mode now) trimmed

/-- The external Calendar Service: per-zone civil fields of an instant. -/
abbrev CalendarService := Int → String → CalendarFields

/-- `getPartsInTz` (app.js 575–598). -/
def getPartsInTz (svc : CalendarService) (date : Int) (tz : String) : CalendarFields :=
  let p := svc date tz
  { p with hour := p.hour % 24 }

/-- The Calendar Service instantiated at UTC (what `Intl` returns for the
`"UTC"` zone identifier). -/
def utcCalendarSvc : CalendarService := fun t _ => utcFieldsOfTime t

/-- `Math.round(a / b)` for integer `a` and positive integer `b`. -/
def roundDiv (a b : Int) : Int := (2 * a + b) / (2 * b)

/-- `getOffsetMinutes` (app.js 600–608): reinterpret the zone's civil
fields as UTC, subtract the second-truncated UTC instant, round to minutes.
`Date.UTC`'s two-digit-year mapping applies; its `TimeClip` is omitted
(irrelevant for fields of representable instants). -/
def getOffsetMinutes (svc : CalendarService) (date : Int) (tz : String) : Int :=
  let parts := getPartsInTz svc date tz
  let u := utcFieldsOfTime date
  let localMs := utcMsOfFields (makeFullYear parts.year + (parts.month - 1) / 12)
    ((parts.month - 1) % 12 + 1) parts.day parts.hour parts.minute parts.second 0
  let utcMs := utcMsOfFields (makeFullYear u.year + (u.month - 1) / 12)
    ((u.month - 1) % 12 + 1) u.day u.hour u.minute u.second 0
  roundDiv (localMs - utcMs) 60000

/-- `formatOffsetHHMM` (app.js 610–616). -/
def formatOffsetHHMM (minutes : Int) : Str :=
  let sign := if 0 ≤ minutes then '+' else '-'
  let abs : Int := |minutes|
  sign :: padStart 2 '0' (jsIntToString (abs / 60)) ++
    ':' :: padStart 2 '0' (jsIntToString (abs % 60))

/-- `formatISOWithOffset` (app.js 632–646).  The millisecond field is
`String(date.getTime() % 1000).padStart(3, '0')` with the JavaScript
truncated (sign-preserving) remainder. -/
def formatISOWithOffset (svc : CalendarService) (date : Int) (tz : String) : Str :=
  let parts := getPartsInTz svc date tz
  let ms := date.tmod 1000
  let offset := formatOffsetHHMM (getOffsetMinutes svc date tz)
  padStart 4 '0' (jsIntToString parts.year) ++
    '-' :: padStart 2 '0' (jsIntToString parts.month) ++
    '-' :: padStart 2 '0' (jsIntToString parts.day) ++
    'T' :: padStart 2 '0' (jsIntToString parts.hour) ++
    ':' :: padStart 2 '0' (jsIntToString parts.minute) ++
    ':' :: padStart 2 '0' (jsIntToString parts.second) ++
    '.' :: padStart 3 '0' (jsIntToString ms) ++ offset

/-- `formatSQL` (app.js 674–685): the fraction is appended only when
`date.getTime() % 1000 > 0` (truncated remainder). -/
def formatSQL (svc : CalendarService) (date : Int) (tz : String) : Str :=
  let parts := getPartsInTz svc date tz
  let ms := date.tmod 1000
  let str := padStart 4 '0' (jsIntToString parts.year) ++
    '-' :: padStart 2 '0' (jsIntToString parts.month) ++
    '-' :: padStart 2 '0' (jsIntToString parts.day) ++
    ' ' :: padStart 2 '0' (jsIntToString parts.hour) ++
    ':' :: padStart 2 '0' (jsIntToString parts.minute) ++
    ':' :: padStart 2 '0' (jsIntToString parts.second)
  if 0 < ms then str ++ '.' :: padStart 3 '0' (jsIntToString ms) else str

/-- `TZ_ABBREVS` (app.js 97–144), in source order. -/
def TZ_ABBREVS : List (String × List String) :=
  [ ("est", ["America/New_York"]), ("edt", ["America/New_York"]),
    ("cst", ["America/Chicago"]), ("cdt", ["America/Chicago"]),
    ("mst", ["America/Denver"]), ("mdt", ["America/Denver"]),
    ("pst", ["America/Los_Angeles"]), ("pdt", ["America/Los_Angeles"]),
    ("akst", ["America/Anchorage"]), ("akdt", ["America/Anchorage"]),
    ("hst", ["Pacific/Honolulu"]), ("hast", ["Pacific/Honolulu"]),
    ("ast", ["America/Halifax"]), ("adt", ["America/Halifax"]),
    ("nst", ["America/St_Johns"]), ("ndt", ["America/St_Johns"]),
    ("gmt", ["Europe/London"]), ("bst", ["Europe/London"]),
    ("utc", ["UTC"]),
    ("wet", ["Europe/Lisbon"]), ("west", ["Europe/Lisbon"]),
    ("cet", ["Europe/Berlin", "Europe/Paris", "Europe/Rome"]),
    ("cest", ["Europe/Berlin", "Europe/Paris", "Europe/Rome"]),
    ("eet", ["Europe/Helsinki", "Europe/Bucharest", "Europe/Athens"]),
    ("eest", ["Europe/Helsinki", "Europe/Bucharest", "Europe/Athens"]),
    ("msk", ["Europe/Moscow"]),
    ("ist", ["Asia/Kolkata"]),
    ("pkt", ["Asia/Karachi"]),
    ("bdt", ["Asia/Dhaka"]),
    ("ict", ["Asia/Bangkok"]),
    ("wib", ["Asia/Jakarta"]),
    ("wita", ["Asia/Makassar"]),
    ("wit", ["Asia/Jayapura"]),
    ("sgt", ["Asia/Singapore"]), ("myt", ["Asia/Kuala_Lumpur"]),
    ("hkt", ["Asia/Hong_Kong"]),
    ("cst_cn", ["Asia/Shanghai"]), ("ct", ["Asia/Shanghai"]),
    ("jst", ["Asia/Tokyo"]),
    ("kst", ["Asia/Seoul"]),
    ("awst", ["Australia/Perth"]),
    ("acst", ["Australia/Adelaide"]), ("acdt", ["Australia/Adelaide"]),
    ("aest", ["Australia/Sydney", "Australia/Melbourne", "Australia/Brisbane"]),
    ("aedt", ["Australia/Sydney", "Australia/Melbourne"]),
    ("nzst", ["Pacific/Auckland"]), ("nzdt", ["Pacific/Auckland"]),
    ("brt", ["America/Sao_Paulo"]), ("brst", ["America/Sao_Paulo"]),
    ("art", ["America/Argentina/Buenos_Aires"]),
    ("clt", ["America/Santiago"]), ("clst", ["America/Santiago"]),
    ("cat", ["Africa/Johannesburg"]),
    ("eat", ["Africa/Nairobi"]),
    ("wat", ["Africa/Lagos"]),
    ("sast", ["Africa/Johannesburg"]) ]

/-- `TZ_ABBREVS[q]` for an already lower-cased, trimmed query. -/
def lookupAbbrev (q : Str) : Option (List String) :=
  (TZ_ABBREVS.find? (fun p => p.1.toList == q)).map (fun p => p.2)

/-- The reverse table built at load time (app.js 147–153): abbreviations of
a zone, in `TZ_ABBREVS` iteration order. -/
def tzToAbbrevs (zone : String) : List String :=
  TZ_ABBREVS.filterMap (fun p => if p.2.contains zone then some p.1 else none)

/-- The scan loop of `fuzzyScore` (app.js 241–251): walk the candidate
text, consuming query characters greedily; `prevChar` is the character
before the current position (`none` at the start) and `prevMatched` records
whether the immediately preceding position matched. -/
def fuzzyGo : Str → Str → Option Char → Bool → Nat → (Str × Nat)
  | [], qs, _, _, score => (qs, score)
  | _ :: _, [], _, _, score => ([], score)
  | t :: ts, q :: qs, prevChar, prevMatched, score =>
    if t == q then
      fuzzyGo ts qs (some t) true
        (score + 1 + (if prevMatched then 3 else 0) +
          (if prevChar.elim true (fun c => c == '/' || c == '_' || c == ' ' || c == '-')
           then 5 else 0))
    else fuzzyGo ts (q :: qs) (some t) false score

/-- `fuzzyScore` (app.js 235–254). -/
def fuzzyScore (query text : Str) : Nat :=
  let q := query.map toLowerChar
  let t := text.map toLowerChar
  let r := fuzzyGo t q none false 0
  if r.1.isEmpty then r.2 else 0

/-- The per-zone score of `filterTimezones` (app.js 272–279): the zone
identifier and each of its abbreviations, taking the maximum. -/
def bestScoreFor (q : Str) (tz : String) : Nat :=
  (tzToAbbrevs tz).foldl (fun b a => max b (fuzzyScore q a.toList)) (fuzzyScore q tz.toList)

/-- Stable insert for the descending sort: `x` goes before the first
element whose score is strictly smaller. -/
def insertDesc (x : String × Nat) : List (String × Nat) → List (String × Nat)
  | [] => [x]
  | y :: ys => if y.2 ≤ x.2 then x :: y :: ys else y :: insertDesc x ys

/-- `scored.sort((a, b) => b.score - a.score)`: a stable descending sort
(ECMAScript `Array.prototype.sort` is stable). -/
def sortDesc : List (String × Nat) → List (String × Nat)
  | [] => []
  | x :: xs => insertDesc x (sortDesc xs)

/-- The final `best` value for one catalog zone inside the loop of
`filterTimezones` (app.js 272–282): the fuzzy score maximised over the
zone identifier and its abbreviations, plus the flat 50 boost when the
query is a known abbreviation key listing this zone. -/
def zoneScore (q : Str) (tz : String) : Nat :=
  bestScoreFor q tz +
    (match lookupAbbrev q with
     | some zs => if zs.contains tz then 50 else 0
     | none => 0)

/-- The scored candidate list of `filterTimezones` (app.js 270–283), in
catalog order: fuzzy score, abbreviation boost, zero-score exclusion. -/
def scoredZones (allTimezones : List String) (q : Str) : List (String × Nat) :=
  allTimezones.filterMap (fun tz =>
    if 0 < zoneScore q tz then some (tz, zoneScore q tz) else none)

/-- `filterTimezones` (app.js 256–292), returning the new
`filteredTimezones` list. -/
def filterTimezones (allTimezones : List String) (query : Str) : List String :=
  let q := jsTrim (query.map toLowerChar)
  if q.isEmpty then allTimezones
  else ((sortDesc (scoredZones allTimezones q)).map (fun p => p.1))

def tokHeadDigits : List Tok → Bool
  | .digits _ :: _ => true
  | _ => false

def tokHeadLetters : List Tok → Bool
  | .letters _ :: _ => true
  | _ => false

def tokHeadWs : List Tok → Bool
  | .ws _ :: _ => true
  | _ => false

/-- Named after the spec's words (§4.3 `sql`): the shape
`YYYY-MM-DD hh:mm:ss[.mmm]`, to be compared with what `formatSQL` emits. -/
def sqlShapeSpec (s : Str) : Bool :=
  match tokenize s with
  | [.digits y, .sym '-', .digits mo, .sym '-', .digits d, .ws w,
      .digits h, .sym ':', .digits mi, .sym ':', .digits sec] =>
      y.length == 4 && mo.length == 2 && d.length == 2 && w == [' '] &&
      h.length == 2 && mi.length == 2 && sec.length == 2
  | [.digits y, .sym '-', .digits mo, .sym '-', .digits d, .ws w,
      .digits h, .sym ':', .digits mi, .sym ':', .digits sec, .sym '.', .digits ms3] =>
      y.length == 4 && mo.length == 2 && d.length == 2 && w == [' '] &&
      h.length == 2 && mi.length == 2 && sec.length == 2 && ms3.length == 3
  | _ => false

/-- Mode-resolved month of a slash date: first group under US, second
under EU. -/
def resolvedMonth (mode : DateMode) (a b : Str) : Nat :=
  if mode = .us then digitsValD a else digitsValD b

/-- Mode-resolved day of a slash date: second group under US, first
under EU. -/
def resolvedDay (mode : DateMode) (a b : Str) : Nat :=
  if mode = .us then digitsValD b else digitsValD a

/-- The text content of one token. -/
def tokStr : Tok → Str
  | .digits ds => ds
  | .letters ws => ws
  | .ws s => s
  | .sym c => [c]

/-- Concatenated text of a token stream. -/
def toksStr (ts : List Tok) : Str :=
  ts.foldr (fun t acc => tokStr t ++ acc) []

/-- Class discipline of one token. -/
def tokWF : Tok → Bool
  | .digits ds => !ds.isEmpty && ds.all isDigitChar
  | .letters ws => !ws.isEmpty && ws.all (fun c => !isDigitChar c && isAlphaChar c)
  | .ws s => !s.isEmpty && s.all (fun c => !isDigitChar c && !isAlphaChar c && isWsChar c)
  | .sym c => !isDigitChar c && !isAlphaChar c && !isWsChar c

/-! ### Theorems -/

theorem timeClip_valid {t v : Int} (h : timeClip t = some v) :
    v.natAbs ≤ maxTimeValue.toNat := by
  unfold timeClip at h
  split at h
  · cases h
    assumption
  · cases h

theorem timeClip_of_le {t : Int} (h : t.natAbs ≤ maxTimeValue.toNat) :
    timeClip t = some t := by
  unfold timeClip
  exact if_pos h

theorem mkISOTime_valid {y mo d h mi s ms off v : Int}
    (hv : mkISOTime y mo d h mi s ms off = some v) : v.natAbs ≤ maxTimeValue.toNat := by
  unfold mkISOTime at hv
  split at hv
  · exact timeClip_valid hv
  · cases hv

theorem readISOZoneEnd_valid {y mo d h mi s ms v : Int} {toks : List Tok}
    (hv : readISOZoneEnd y mo d h mi s ms toks = some v) :
    v.natAbs ≤ maxTimeValue.toNat := by
  unfold readISOZoneEnd at hv
  split at hv
  · split at hv
    · exact mkISOTime_valid hv
    · cases hv
  · split at hv
    · exact mkISOTime_valid hv
    · cases hv
  · cases hv

theorem readISOFracZone_valid {y mo d h mi s v : Int} {toks : List Tok}
    (hv : readISOFracZone y mo d h mi s toks = some v) :
    v.natAbs ≤ maxTimeValue.toNat := by
  unfold readISOFracZone at hv
  split at hv
  · exact readISOZoneEnd_valid hv
  · exact readISOZoneEnd_valid hv

theorem readISOTail_valid {y mo d h mi v : Int} {toks : List Tok}
    (hv : readISOTail y mo d h mi toks = some v) :
    v.natAbs ≤ maxTimeValue.toNat := by
  unfold readISOTail at hv
  split at hv
  · split at hv
    · exact readISOFracZone_valid hv
    · cases hv
  · exact readISOZoneEnd_valid hv

theorem readISO_valid {s : Str} {v : Int} (hv : readISO s = some v) :
    v.natAbs ≤ maxTimeValue.toNat := by
  unfold readISO at hv
  split at hv
  · split at hv
    · exact readISOTail_valid hv
    · cases hv
  · cases hv

theorem looseToJSVal_some {r : Option Int} {v : Int}
    (h : looseToJSVal r = .date (some v)) : r = some v := by
  cases r with
  | none => exact absurd h (by simp [looseToJSVal])
  | some x =>
    have hx : x = v := by
      simp only [looseToJSVal, JSVal.date.injEq, Option.some.injEq] at h
      exact h
    rw [hx]

theorem jsDateUTC_valid {y mIdx d h mi s v : Int}
    (hv : jsDateUTC y mIdx d h mi s = some v) : v.natAbs ≤ maxTimeValue.toNat := by
  unfold jsDateUTC at hv
  exact timeClip_valid hv

theorem dmyCore_valid {mo d y h mi s : Int} {v : Int}
    (hv : dmyCore mo d y h mi s = .date (some v)) : v.natAbs ≤ maxTimeValue.toNat := by
  unfold dmyCore at hv
  split at hv
  · cases hv
  · split at hv
    · cases hv
      rename_i heq
      exact jsDateUTC_valid heq
    · cases hv

theorem bind_timeClip_valid {o : Option Int} {v : Int}
    (h : o.bind timeClip = some v) : v.natAbs ≤ maxTimeValue.toNat := by
  cases o with
  | none => cases h
  | some u => exact timeClip_valid h

/-- Every parser of the `FORMATS` table yields only representable time
values, provided the host date parser does and `now` is representable. -/
theorem formats_parse_valid (lp : LooseParse)
    (hlp : ∀ s v, lp s = some v → v.natAbs ≤ maxTimeValue.toNat)
    (mode : DateMode) (now : Int) (hnow : now.natAbs ≤ maxTimeValue.toNat) :
    ∀ f ∈ FORMATS lp mode now, ∀ t v, f.parse t = .date (some v) →
      v.natAbs ≤ maxTimeValue.toNat := by
  intro f hf t v hv
  simp only [FORMATS, List.mem_cons, List.not_mem_nil, or_false] at hf
  rcases hf with h | h | h | h | h | h | h | h | h | h | h | h | h | h | h | h | h <;>
      subst h <;> simp only at hv
  · simp only [parseRelativeInput] at hv
    split_ifs at hv
    all_goals
      first
        | (simp only [JSVal.date.injEq, Option.some.injEq] at hv
           first
             | exact timeClip_valid hv
             | (subst hv
                exact hnow)
             | exact hnow)
        | cases hv
        | exact hnow
  · injection hv with h2
    exact bind_timeClip_valid h2
  · injection hv with h2
    exact bind_timeClip_valid h2
  · exact readISO_valid (looseToJSVal_some hv)
  · exact readISO_valid (looseToJSVal_some hv)
  · exact hlp _ _ (looseToJSVal_some hv)
  · exact readISO_valid (looseToJSVal_some hv)
  · injection hv with h2
    exact readISO_valid h2
  · exact readISO_valid (looseToJSVal_some hv)
  · simp only [parseSlashDate] at hv
    split at hv
    · exact dmyCore_valid hv
    · cases hv
  · simp only [parseSlashDateTime] at hv
    split at hv <;> first
      | cases hv
      | (split at hv
         · exact dmyCore_valid hv
         · cases hv)
  · simp only [parseSlashYMD] at hv
    split at hv <;> first
      | cases hv
      | (split at hv
         · exact dmyCore_valid hv
         · cases hv)
  · simp only [parseDotDate] at hv
    split at hv <;> first
      | cases hv
      | (split at hv
         · exact dmyCore_valid hv
         · cases hv)
  · simp only [parseDashDMY] at hv
    split at hv <;> first
      | cases hv
      | (split at hv
         · exact dmyCore_valid hv
         · cases hv)
  · exact hlp _ _ (looseToJSVal_some hv)
  · exact hlp _ _ (looseToJSVal_some hv)
  · simp only [parseTimeOnly] at hv
    split at hv
    · simp only [timeOnlyFinish] at hv
      split at hv
      · cases hv
      · exact readISO_valid (looseToJSVal_some hv)
    · cases hv

theorem runFormats_valid {fs : List FormatRule} {t : Str} {v : Int} {lbl : String}
    (hf : ∀ f ∈ fs, ∀ t v, f.parse t = .date (some v) → v.natAbs ≤ maxTimeValue.toNat)
    (h : runFormats fs t = some (v, lbl)) : v.natAbs ≤ maxTimeValue.toNat := by
  induction fs with
  | nil => cases h
  | cons f fs ih =>
    unfold runFormats at h
    split at h
    · split at h
      · cases h
        rename_i heq
        exact hf f (by simp) t v heq
      · exact ih (fun g hg => hf g (List.mem_cons_of_mem f hg)) h
    · exact ih (fun g hg => hf g (List.mem_cons_of_mem f hg)) h

/-- Claim C2, counterexample: the `'Unix (ms)'` rule's recognizer accepts
`"9007199254740992"` (2^53, sixteen digits, beyond the ±8.64e15 `Date`
range), yet its parser returns an invalid (NaN) `Date` value — neither a
valid instant nor the explicit `null` no-parse signal — which
`parseTimestamp` must re-validate with `isNaN`. -/
theorem unixMs_rule_returns_invalid :
    ∃ f, (FORMATS (fun _ => none) .us 0).get? 1 = some f ∧
      f.name = "Unix (ms)" ∧
      f.test "9007199254740992".toList = true ∧
      f.parse "9007199254740992".toList = JSVal.date none := by
  refine ⟨_, rfl, rfl, ?_, ?_⟩ <;> decide

/-- Claim C2 (amended): a rule's parser may return `null`, a valid
instant, or an invalid (NaN) `Date` value; `parseTimestamp`'s validity
check collapses the latter two failure forms, so every instant a detection
call returns is within the representable `Date` range — provided the host
date parser only produces representable values and `now` is representable. -/
theorem parseTimestamp_valid_instant (lp : LooseParse)
    (hlp : ∀ s v, lp s = some v → v.natAbs ≤ maxTimeValue.toNat)
    (mode : DateMode) (now : Int) (hnow : now.natAbs ≤ maxTimeValue.toNat)
    (input : Str) (v : Int) (lbl : String)
    (h : parseTimestamp lp mode now input = some (v, lbl)) :
    v.natAbs ≤ maxTimeValue.toNat := by
  simp only [parseTimestamp] at h
  split at h
  · cases h
  · exact runFormats_valid (formats_parse_valid lp hlp mode now hnow) h

theorem parseTimestamp_valid_instant_witness :
    (1700000000000 : Int).natAbs ≤ maxTimeValue.toNat :=
  parseTimestamp_valid_instant (fun _ => none) (fun _ v h => Option.noConfusion h)
    .us 0 (by decide) "1700000000".toList 1700000000000 "Unix (s)" (by decide)

/-- Claim C4: `detect("01/02/2024", US)` is 2024-01-02T00:00:00Z
(1704153600000 ms) and `detect("01/02/2024", EU)` is 2024-02-01T00:00:00Z
(1706745600000 ms): the same text yields different instants depending only
on the `dateFormatMode` setting, for any host parser and clock. -/
theorem detect_slashDate_mode_sensitive (lp : LooseParse) (now : Int) :
    parseTimestamp lp .us now "01/02/2024".toList =
      some (1704153600000, "Date (MM/DD/YYYY)") ∧
    parseTimestamp lp .eu now "01/02/2024".toList =
      some (1706745600000, "Date (DD/MM/YYYY)") :=
  ⟨rfl, rfl⟩

theorem fuzzyGo_rem_nil_sublist (t : Str) :
    ∀ (qs : Str) (pc : Option Char) (pm : Bool) (sc : Nat),
      (fuzzyGo t qs pc pm sc).1 = [] → qs.Sublist t := by
  induction t with
  | nil =>
    intro qs pc pm sc h
    simp only [fuzzyGo] at h
    rw [h]
  | cons c ts ih =>
    intro qs pc pm sc h
    cases qs with
    | nil => exact List.nil_sublist _
    | cons q qs' =>
      unfold fuzzyGo at h
      split at h
      · rename_i hcq
        have hq : c = q := by
          simpa using hcq
        rw [← hq]
        exact List.Sublist.cons₂ c (ih qs' _ _ _ h)
      · exact List.Sublist.cons c (ih (q :: qs') _ _ _ h)

/-- Claim C7: `fuzzyScore(query, text)` is positive only when every
character of the lower-cased query occurs, in order, as a subsequence of
the lower-cased text (the greedy scan must consume the whole query);
whenever the query is not such a subsequence the score is 0. -/
theorem fuzzyScore_pos_subsequence (query text : Str) :
    (0 < fuzzyScore query text →
      (query.map toLowerChar).Sublist (text.map toLowerChar)) ∧
    (¬ (query.map toLowerChar).Sublist (text.map toLowerChar) →
      fuzzyScore query text = 0) := by
  have main : 0 < fuzzyScore query text →
      (query.map toLowerChar).Sublist (text.map toLowerChar) := by
    intro h
    simp only [fuzzyScore] at h
    split at h
    · rename_i hemp
      exact fuzzyGo_rem_nil_sublist _ _ _ _ _ (List.isEmpty_iff.mp hemp)
    · omega
  refine ⟨main, fun hns => ?_⟩
  by_contra h0
  exact hns (main (Nat.pos_of_ne_zero h0))

theorem fuzzyScore_pos_subsequence_witness :
    ("ny".toList.map toLowerChar).Sublist ("America/New_York".toList.map toLowerChar) :=
  (fuzzyScore_pos_subsequence "ny".toList "America/New_York".toList).1 (by decide)

theorem natToStringAux_fuel : ∀ f g n, n < f → n < g → natToStringAux f n = natToStringAux g n := by
  intro f
  induction f with
  | zero => omega
  | succ f ih =>
    intro g n hf hg
    obtain ⟨g', rfl⟩ : ∃ g', g = g' + 1 := ⟨g - 1, by omega⟩
    by_cases h : n < 10
    · simp [natToStringAux, h]
    · simp only [natToStringAux, if_neg h]
      rw [ih g' (n / 10) (by omega) (by omega)]

theorem natToString_lt10 {n : Nat} (h : n < 10) : natToString n = [Char.ofNat (48 + n)] := by
  simp [natToString, natToStringAux, h]

theorem natToString_step {n : Nat} (h : 10 ≤ n) :
    natToString n = natToString (n / 10) ++ [Char.ofNat (48 + n % 10)] := by
  show natToStringAux (n + 1) n = _
  obtain ⟨f, rfl⟩ : ∃ f, n = f + 1 := ⟨n - 1, by omega⟩
  rw [show natToStringAux (f + 1 + 1) (f + 1) =
      (if f + 1 < 10 then [Char.ofNat (48 + (f + 1))]
       else natToStringAux (f + 1) ((f + 1) / 10) ++ [Char.ofNat (48 + (f + 1) % 10)]) from rfl]
  rw [if_neg (by omega : ¬ f + 1 < 10)]
  rw [natToStringAux_fuel (f + 1) ((f + 1) / 10 + 1) ((f + 1) / 10) (by omega) (by omega)]
  rfl

theorem natToString_two {n : Nat} (h1 : 10 ≤ n) (h2 : n < 100) :
    natToString n = [Char.ofNat (48 + n / 10), Char.ofNat (48 + n % 10)] := by
  rw [natToString_step h1, natToString_lt10 (by omega : n / 10 < 10)]
  rfl

theorem natToString_three {n : Nat} (h1 : 100 ≤ n) (h2 : n < 1000) :
    natToString n =
      [Char.ofNat (48 + n / 100), Char.ofNat (48 + n / 10 % 10), Char.ofNat (48 + n % 10)] := by
  rw [natToString_step (by omega), natToString_two (by omega : 10 ≤ n / 10) (by omega)]
  have hd : n / 10 / 10 = n / 100 := by omega
  have hm : n / 10 % 10 = n / 10 % 10 := rfl
  rw [hd]
  rfl

theorem natToString_four {n : Nat} (h1 : 1000 ≤ n) (h2 : n < 10000) :
    natToString n =
      [Char.ofNat (48 + n / 1000), Char.ofNat (48 + n / 100 % 10),
       Char.ofNat (48 + n / 10 % 10), Char.ofNat (48 + n % 10)] := by
  rw [natToString_step (by omega), natToString_three (by omega : 100 ≤ n / 10) (by omega)]
  have h3 : n / 10 / 100 = n / 1000 := by omega
  have h4 : n / 10 / 10 % 10 = n / 100 % 10 := by omega
  have h5 : n / 10 % 10 = n / 10 % 10 := rfl
  rw [h3, h4]
  rfl

/-- `String(n).padStart(2, '0')` for `n < 100` is the two-digit rendering. -/
theorem pad2_eq {n : Nat} (h : n < 100) :
    padStart 2 '0' (jsIntToString (n : Int)) =
      [Char.ofNat (48 + n / 10), Char.ofNat (48 + n % 10)] := by
  have hnn : ¬ ((n : Int) < 0) := by omega
  simp only [jsIntToString, if_neg hnn, Int.toNat_natCast]
  by_cases h10 : n < 10
  · rw [natToString_lt10 h10]
    have e1 : n / 10 = 0 := by omega
    have e2 : n % 10 = n := by omega
    rw [e1, e2]
    rfl
  · rw [natToString_two (by omega) h]
    rfl

/-- `String(n).padStart(3, '0')` for `n < 1000` is the three-digit rendering. -/
theorem pad3_eq {n : Nat} (h : n < 1000) :
    padStart 3 '0' (jsIntToString (n : Int)) =
      [Char.ofNat (48 + n / 100), Char.ofNat (48 + n / 10 % 10), Char.ofNat (48 + n % 10)] := by
  have hnn : ¬ ((n : Int) < 0) := by omega
  simp only [jsIntToString, if_neg hnn, Int.toNat_natCast]
  by_cases h10 : n < 10
  · rw [natToString_lt10 h10]
    have e1 : n / 100 = 0 := by omega
    have e2 : n / 10 % 10 = 0 := by omega
    have e3 : n % 10 = n := by omega
    rw [e1, e2, e3]
    rfl
  · by_cases h100 : n < 100
    · rw [natToString_two (by omega) h100]
      have e1 : n / 100 = 0 := by omega
      have e2 : n / 10 % 10 = n / 10 := by omega
      rw [e1, e2]
      rfl
    · rw [natToString_three (by omega) h]
      rfl

/-- `String(n).padStart(4, '0')` for `n < 10000` is the four-digit rendering. -/
theorem pad4_eq {n : Nat} (h : n < 10000) :
    padStart 4 '0' (jsIntToString (n : Int)) =
      [Char.ofNat (48 + n / 1000), Char.ofNat (48 + n / 100 % 10),
       Char.ofNat (48 + n / 10 % 10), Char.ofNat (48 + n % 10)] := by
  have hnn : ¬ ((n : Int) < 0) := by omega
  simp only [jsIntToString, if_neg hnn, Int.toNat_natCast]
  by_cases h10 : n < 10
  · rw [natToString_lt10 h10]
    have e1 : n / 1000 = 0 := by omega
    have e2 : n / 100 % 10 = 0 := by omega
    have e3 : n / 10 % 10 = 0 := by omega
    have e4 : n % 10 = n := by omega
    rw [e1, e2, e3, e4]
    rfl
  · by_cases h100 : n < 100
    · rw [natToString_two (by omega) h100]
      have e1 : n / 1000 = 0 := by omega
      have e2 : n / 100 % 10 = 0 := by omega
      have e3 : n / 10 % 10 = n / 10 := by omega
      rw [e1, e2, e3]
      rfl
    · by_cases h1000 : n < 1000
      · rw [natToString_three (by omega) h1000]
        have e1 : n / 1000 = 0 := by omega
        have e2 : n / 100 % 10 = n / 100 := by omega
        rw [e1, e2]
        rfl
      · rw [natToString_four (by omega) h]
        rfl

theorem digitChar_isDigit {m : Nat} (h : m < 10) :
    isDigitChar (Char.ofNat (48 + m)) = true := by
  interval_cases m <;> decide

theorem digitChar_val {m : Nat} (h : m < 10) : digitVal (Char.ofNat (48 + m)) = m := by
  interval_cases m <;> decide

theorem consTok_digit_merge {c : Char} (hc : isDigitChar c = true) (ds : Str) (r : List Tok) :
    consTok c (.digits ds :: r) = .digits (c :: ds) :: r := by
  simp [consTok, hc]

theorem consTok_digit_new {c : Char} (hc : isDigitChar c = true) (ts : List Tok)
    (ht : tokHeadDigits ts = false) : consTok c ts = .digits [c] :: ts := by
  unfold consTok
  rw [if_pos hc]
  split
  · simp [tokHeadDigits] at ht
  · rfl

theorem consTok_letter_merge {c : Char} (hc2 : isAlphaChar c = true) (ws : Str)
    (r : List Tok) (hc1 : isDigitChar c = false) :
    consTok c (.letters ws :: r) = .letters (c :: ws) :: r := by
  simp [consTok, hc1, hc2]

theorem consTok_letter_new {c : Char} (hc1 : isDigitChar c = false)
    (hc2 : isAlphaChar c = true) (ts : List Tok) (ht : tokHeadLetters ts = false) :
    consTok c ts = .letters [c] :: ts := by
  unfold consTok
  rw [if_neg (by simp [hc1]), if_pos hc2]
  split
  · simp [tokHeadLetters] at ht
  · rfl

theorem consTok_ws_new {c : Char} (hc1 : isDigitChar c = false) (hc2 : isAlphaChar c = false)
    (hc3 : isWsChar c = true) (ts : List Tok) (ht : tokHeadWs ts = false) :
    consTok c ts = .ws [c] :: ts := by
  unfold consTok
  rw [if_neg (by simp [hc1]), if_neg (by simp [hc2]), if_pos hc3]
  split
  · simp [tokHeadWs] at ht
  · rfl

theorem consTok_sym {c : Char} (hc1 : isDigitChar c = false) (hc2 : isAlphaChar c = false)
    (hc3 : isWsChar c = false) (ts : List Tok) : consTok c ts = .sym c :: ts := by
  simp [consTok, hc1, hc2, hc3]

theorem tokHeadDigits_consTok (c : Char) (ts : List Tok) :
    tokHeadDigits (consTok c ts) = isDigitChar c := by
  unfold consTok
  by_cases h1 : isDigitChar c
  · rw [if_pos h1, h1]
    split <;> rfl
  · simp only [Bool.not_eq_true] at h1
    rw [h1]
    rw [if_neg (by simp [h1])]
    by_cases h2 : isAlphaChar c
    · rw [if_pos h2]
      split <;> rfl
    · rw [if_neg h2]
      by_cases h3 : isWsChar c
      · rw [if_pos h3]
        split <;> rfl
      · rw [if_neg h3]
        rfl

theorem tokHeadWs_consTok (c : Char) (ts : List Tok) :
    tokHeadWs (consTok c ts) = (!isDigitChar c && !isAlphaChar c && isWsChar c) := by
  unfold consTok
  by_cases h1 : isDigitChar c
  · rw [if_pos h1, h1]
    split <;> rfl
  · simp only [Bool.not_eq_true] at h1
    rw [h1]
    rw [if_neg (by simp [h1])]
    by_cases h2 : isAlphaChar c
    · rw [if_pos h2, h2]
      split <;> rfl
    · simp only [Bool.not_eq_true] at h2
      rw [h2]
      rw [if_neg (by simp [h2])]
      by_cases h3 : isWsChar c
      · rw [if_pos h3, h3]
        split <;> rfl
      · simp only [Bool.not_eq_true] at h3
        rw [h3]
        rw [if_neg (by simp [h3])]
        rfl

theorem tokHeadLetters_consTok (c : Char) (ts : List Tok) :
    tokHeadLetters (consTok c ts) = (!isDigitChar c && isAlphaChar c) := by
  unfold consTok
  by_cases h1 : isDigitChar c
  · rw [if_pos h1, h1]
    split <;> rfl
  · simp only [Bool.not_eq_true] at h1
    rw [h1]
    rw [if_neg (by simp [h1])]
    by_cases h2 : isAlphaChar c
    · rw [if_pos h2, h2]
      split <;> rfl
    · simp only [Bool.not_eq_true] at h2
      rw [h2]
      rw [if_neg (by simp [h2])]
      by_cases h3 : isWsChar c
      · rw [if_pos h3]
        split <;> rfl
      · rw [if_neg h3]
        rfl

/-- A nonempty all-digit run followed by non-digit-headed text tokenizes
to one digit token. -/
theorem tokenize_digits_append (ds rest : Str) (h1 : ds ≠ [])
    (h2 : ∀ c ∈ ds, isDigitChar c = true)
    (h3 : tokHeadDigits (tokenize rest) = false) :
    tokenize (ds ++ rest) = .digits ds :: tokenize rest := by
  induction ds with
  | nil => exact absurd rfl h1
  | cons c cs ih =>
    cases cs with
    | nil =>
      simp only [List.cons_append, List.nil_append, tokenize]
      exact consTok_digit_new (h2 c (by simp)) _ h3
    | cons c2 cs2 =>
      rw [show (c :: c2 :: cs2) ++ rest = c :: ((c2 :: cs2) ++ rest) from rfl]
      rw [show tokenize (c :: ((c2 :: cs2) ++ rest)) =
        consTok c (tokenize ((c2 :: cs2) ++ rest)) from rfl]
      rw [ih (by simp) (fun x hx => h2 x (List.mem_cons_of_mem c hx))]
      exact consTok_digit_merge (h2 c (by simp)) _ _

/-- A nonempty all-letter run followed by non-letter-headed text tokenizes
to one letter token. -/
theorem tokenize_letters_append (ws rest : Str) (h1 : ws ≠ [])
    (h2 : ∀ c ∈ ws, isDigitChar c = false ∧ isAlphaChar c = true)
    (h3 : tokHeadLetters (tokenize rest) = false) :
    tokenize (ws ++ rest) = .letters ws :: tokenize rest := by
  induction ws with
  | nil => exact absurd rfl h1
  | cons c cs ih =>
    cases cs with
    | nil =>
      simp only [List.cons_append, List.nil_append, tokenize]
      exact consTok_letter_new (h2 c (by simp)).1 (h2 c (by simp)).2 _ h3
    | cons c2 cs2 =>
      rw [show (c :: c2 :: cs2) ++ rest = c :: ((c2 :: cs2) ++ rest) from rfl]
      rw [show tokenize (c :: ((c2 :: cs2) ++ rest)) =
        consTok c (tokenize ((c2 :: cs2) ++ rest)) from rfl]
      rw [ih (by simp) (fun x hx => h2 x (List.mem_cons_of_mem c hx))]
      exact consTok_letter_merge (h2 c (by simp)).2 _ _ (h2 c (by simp)).1

theorem tokenize_sym_cons {c : Char} (hc1 : isDigitChar c = false)
    (hc2 : isAlphaChar c = false) (hc3 : isWsChar c = false) (rest : Str) :
    tokenize (c :: rest) = .sym c :: tokenize rest := by
  simp only [tokenize]
  exact consTok_sym hc1 hc2 hc3 _

theorem tokenize_ws1_cons {c : Char} (hc1 : isDigitChar c = false)
    (hc2 : isAlphaChar c = false) (hc3 : isWsChar c = true) (rest : Str)
    (h3 : tokHeadWs (tokenize rest) = false) :
    tokenize (c :: rest) = .ws [c] :: tokenize rest := by
  simp only [tokenize]
  exact consTok_ws_new hc1 hc2 hc3 _ h3

theorem tokHeadDigits_tokenize_cons (c : Char) (rest : Str) :
    tokHeadDigits (tokenize (c :: rest)) = isDigitChar c := by
  simp only [tokenize]
  exact tokHeadDigits_consTok c _

theorem tokHeadWs_tokenize_cons (c : Char) (rest : Str) :
    tokHeadWs (tokenize (c :: rest)) = (!isDigitChar c && !isAlphaChar c && isWsChar c) := by
  simp only [tokenize]
  exact tokHeadWs_consTok c _

theorem tokHeadLetters_tokenize_cons (c : Char) (rest : Str) :
    tokHeadLetters (tokenize (c :: rest)) = (!isDigitChar c && isAlphaChar c) := by
  simp only [tokenize]
  exact tokHeadLetters_consTok c _

theorem tmod_1000_nonpos {t : Int} (h : t < 0) : t.tmod 1000 ≤ 0 := by
  cases t with
  | ofNat m =>
    have hm : (m : Int) < 0 := h
    omega
  | negSucc m =>
    rw [show (Int.negSucc m).tmod 1000 = -(((m + 1) % 1000 : Nat) : Int) from rfl]
    omega

/-- Claim C10: the millisecond field of `formatISOWithOffset` is exactly
`String(date.getTime() % 1000).padStart(3, '0')` with the truncated
(sign-preserving) JavaScript remainder; for nonnegative instants it is the
zero-padded three-digit value of `instant mod 1000`, while for pre-epoch
instants with a nonzero remainder the minus sign appears inside the
rendered field. -/
theorem formatISOWithOffset_msField (svc : CalendarService) (tz : String) (t : Int) :
    (∃ pre post, formatISOWithOffset svc t tz =
        pre ++ padStart 3 '0' (jsIntToString (t.tmod 1000)) ++ post) ∧
    (0 ≤ t → padStart 3 '0' (jsIntToString (t.tmod 1000)) =
        [Char.ofNat (48 + (t % 1000).toNat / 100),
         Char.ofNat (48 + (t % 1000).toNat / 10 % 10),
         Char.ofNat (48 + (t % 1000).toNat % 10)]) ∧
    (t < 0 → t.tmod 1000 ≠ 0 → '-' ∈ padStart 3 '0' (jsIntToString (t.tmod 1000))) := by
  refine ⟨?_, ?_, ?_⟩
  · refine ⟨padStart 4 '0' (jsIntToString (getPartsInTz svc t tz).year) ++
      '-' :: padStart 2 '0' (jsIntToString (getPartsInTz svc t tz).month) ++
      '-' :: padStart 2 '0' (jsIntToString (getPartsInTz svc t tz).day) ++
      'T' :: padStart 2 '0' (jsIntToString (getPartsInTz svc t tz).hour) ++
      ':' :: padStart 2 '0' (jsIntToString (getPartsInTz svc t tz).minute) ++
      ':' :: padStart 2 '0' (jsIntToString (getPartsInTz svc t tz).second) ++ ['.'],
      formatOffsetHHMM (getOffsetMinutes svc t tz), ?_⟩
    simp [formatISOWithOffset, List.append_assoc]
  · intro h
    rw [Int.tmod_eq_emod h (by norm_num)]
    have hlt : (t % 1000).toNat < 1000 := by omega
    have he : t % 1000 = ((t % 1000).toNat : Int) := by omega
    rw [he]
    exact pad3_eq hlt
  · intro h hne
    have hneg : t.tmod 1000 < 0 := lt_of_le_of_ne (tmod_1000_nonpos h) hne
    simp only [jsIntToString, if_pos hneg, padStart]
    exact List.mem_append_right _ (List.mem_cons_self _ _)

theorem pad2_digits {n : Nat} (h : n < 100) :
    ∀ c ∈ padStart 2 '0' (jsIntToString (n : Int)), isDigitChar c = true := by
  rw [pad2_eq h]
  intro c hc
  simp only [List.mem_cons, List.not_mem_nil, or_false] at hc
  rcases hc with rfl | rfl
  · exact digitChar_isDigit (by omega)
  · exact digitChar_isDigit (by omega)

theorem pad2_len {n : Nat} (h : n < 100) :
    (padStart 2 '0' (jsIntToString (n : Int))).length = 2 := by
  rw [pad2_eq h]
  rfl

theorem pad2_ne_nil {n : Nat} (h : n < 100) :
    padStart 2 '0' (jsIntToString (n : Int)) ≠ [] := by
  rw [pad2_eq h]
  simp

theorem pad3_digits {n : Nat} (h : n < 1000) :
    ∀ c ∈ padStart 3 '0' (jsIntToString (n : Int)), isDigitChar c = true := by
  rw [pad3_eq h]
  intro c hc
  simp only [List.mem_cons, List.not_mem_nil, or_false] at hc
  rcases hc with rfl | rfl | rfl
  · exact digitChar_isDigit (by omega)
  · exact digitChar_isDigit (by omega)
  · exact digitChar_isDigit (by omega)

theorem pad3_len {n : Nat} (h : n < 1000) :
    (padStart 3 '0' (jsIntToString (n : Int))).length = 3 := by
  rw [pad3_eq h]
  rfl

theorem pad3_ne_nil {n : Nat} (h : n < 1000) :
    padStart 3 '0' (jsIntToString (n : Int)) ≠ [] := by
  rw [pad3_eq h]
  simp

theorem pad4_digits {n : Nat} (h : n < 10000) :
    ∀ c ∈ padStart 4 '0' (jsIntToString (n : Int)), isDigitChar c = true := by
  rw [pad4_eq h]
  intro c hc
  simp only [List.mem_cons, List.not_mem_nil, or_false] at hc
  rcases hc with rfl | rfl | rfl | rfl
  · exact digitChar_isDigit (by omega)
  · exact digitChar_isDigit (by omega)
  · exact digitChar_isDigit (by omega)
  · exact digitChar_isDigit (by omega)

theorem pad4_len {n : Nat} (h : n < 10000) :
    (padStart 4 '0' (jsIntToString (n : Int))).length = 4 := by
  rw [pad4_eq h]
  rfl

theorem pad4_ne_nil {n : Nat} (h : n < 10000) :
    padStart 4 '0' (jsIntToString (n : Int)) ≠ [] := by
  rw [pad4_eq h]
  simp

/-- Token stream of a `YYYY-MM-DD hh:mm:ss` text built from digit runs,
followed by arbitrary non-digit-headed text. -/
theorem tokenize_sqlString (y mo d h mi s rest : Str)
    (hy1 : y ≠ []) (hy2 : ∀ c ∈ y, isDigitChar c = true)
    (hmo1 : mo ≠ []) (hmo2 : ∀ c ∈ mo, isDigitChar c = true)
    (hd1 : d ≠ []) (hd2 : ∀ c ∈ d, isDigitChar c = true)
    (hh1 : h ≠ []) (hh2 : ∀ c ∈ h, isDigitChar c = true)
    (hmi1 : mi ≠ []) (hmi2 : ∀ c ∈ mi, isDigitChar c = true)
    (hs1 : s ≠ []) (hs2 : ∀ c ∈ s, isDigitChar c = true)
    (hrest : tokHeadDigits (tokenize rest) = false) :
    tokenize (y ++ '-' :: mo ++ '-' :: d ++ ' ' :: h ++ ':' :: mi ++ ':' :: s ++ rest) =
      .digits y :: .sym '-' :: .digits mo :: .sym '-' :: .digits d :: .ws [' '] ::
      .digits h :: .sym ':' :: .digits mi :: .sym ':' :: .digits s :: tokenize rest := by
  simp only [List.append_assoc, List.cons_append]
  have t1 : tokenize (s ++ rest) = .digits s :: tokenize rest :=
    tokenize_digits_append s rest hs1 hs2 hrest
  have t2 : tokenize (':' :: (s ++ rest)) = .sym ':' :: .digits s :: tokenize rest := by
    rw [tokenize_sym_cons (c := ':') (by decide) (by decide) (by decide), t1]
  have t3 : tokenize (mi ++ ':' :: (s ++ rest)) =
      .digits mi :: .sym ':' :: .digits s :: tokenize rest := by
    rw [tokenize_digits_append mi (':' :: (s ++ rest)) hmi1 hmi2
      (by rw [tokHeadDigits_tokenize_cons]; decide), t2]
  have t4 : tokenize (':' :: (mi ++ ':' :: (s ++ rest))) =
      .sym ':' :: .digits mi :: .sym ':' :: .digits s :: tokenize rest := by
    rw [tokenize_sym_cons (c := ':') (by decide) (by decide) (by decide), t3]
  have t5 : tokenize (h ++ ':' :: (mi ++ ':' :: (s ++ rest))) =
      .digits h :: .sym ':' :: .digits mi :: .sym ':' :: .digits s :: tokenize rest := by
    rw [tokenize_digits_append h (':' :: (mi ++ ':' :: (s ++ rest))) hh1 hh2
      (by rw [tokHeadDigits_tokenize_cons]; decide), t4]
  have t6 : tokenize (' ' :: (h ++ ':' :: (mi ++ ':' :: (s ++ rest)))) =
      .ws [' '] :: .digits h :: .sym ':' :: .digits mi :: .sym ':' :: .digits s ::
        tokenize rest := by
    rw [tokenize_ws1_cons (c := ' ') (by decide) (by decide) (by decide)
      (h ++ ':' :: (mi ++ ':' :: (s ++ rest))) (by rw [t5]; rfl), t5]
  have t7 : tokenize (d ++ ' ' :: (h ++ ':' :: (mi ++ ':' :: (s ++ rest)))) =
      .digits d :: .ws [' '] :: .digits h :: .sym ':' :: .digits mi :: .sym ':' ::
        .digits s :: tokenize rest := by
    rw [tokenize_digits_append d (' ' :: (h ++ ':' :: (mi ++ ':' :: (s ++ rest)))) hd1 hd2
      (by rw [tokHeadDigits_tokenize_cons]; decide), t6]
  have t8 : tokenize ('-' :: (d ++ ' ' :: (h ++ ':' :: (mi ++ ':' :: (s ++ rest))))) =
      .sym '-' :: .digits d :: .ws [' '] :: .digits h :: .sym ':' :: .digits mi ::
        .sym ':' :: .digits s :: tokenize rest := by
    rw [tokenize_sym_cons (c := '-') (by decide) (by decide) (by decide), t7]
  have t9 : tokenize (mo ++ '-' :: (d ++ ' ' :: (h ++ ':' :: (mi ++ ':' :: (s ++ rest))))) =
      .digits mo :: .sym '-' :: .digits d :: .ws [' '] :: .digits h :: .sym ':' ::
        .digits mi :: .sym ':' :: .digits s :: tokenize rest := by
    rw [tokenize_digits_append mo ('-' :: (d ++ ' ' :: (h ++ ':' :: (mi ++ ':' :: (s ++ rest)))))
      hmo1 hmo2 (by rw [tokHeadDigits_tokenize_cons]; decide), t8]
  have t10 : tokenize ('-' :: (mo ++ '-' :: (d ++ ' ' :: (h ++ ':' :: (mi ++ ':' :: (s ++ rest)))))) =
      .sym '-' :: .digits mo :: .sym '-' :: .digits d :: .ws [' '] :: .digits h ::
        .sym ':' :: .digits mi :: .sym ':' :: .digits s :: tokenize rest := by
    rw [tokenize_sym_cons (c := '-') (by decide) (by decide) (by decide), t9]
  have t11 := tokenize_digits_append y
    ('-' :: (mo ++ '-' :: (d ++ ' ' :: (h ++ ':' :: (mi ++ ':' :: (s ++ rest)))))) hy1 hy2
    (by rw [tokHeadDigits_tokenize_cons]; decide)
  exact t11.trans (by rw [t10])

/-- A nonempty all-digit run tokenizes to a single digit token. -/
theorem tokenize_digits_list (ds : Str) (h1 : ds ≠ []) (h2 : ∀ c ∈ ds, isDigitChar c = true) :
    tokenize ds = [.digits ds] := by
  have := tokenize_digits_append ds [] h1 h2 (by rfl)
  rwa [List.append_nil] at this

theorem no_dot_of_digits {l : Str} (h : ∀ c ∈ l, isDigitChar c = true) :
    l.any (fun c => c == '.') = false := by
  induction l with
  | nil => rfl
  | cons c cs ih =>
    have hc := h c (by simp)
    have hcd : (c == '.') = false := by
      cases hcc : c == '.'
      · rfl
      · have hce : c = '.' := eq_of_beq hcc
        rw [hce] at hc
        exact absurd hc (by decide)
    simp [List.any_cons, hcd, ih (fun x hx => h x (by simp [hx]))]

theorem tmod_1000_lt (t : Int) : t.tmod 1000 < 1000 :=
  Int.tmod_lt_of_pos t (by norm_num)

/-- Claim C6 (amended): whenever the Calendar Service returns in-range
civil fields, `formatSQL` has the shape `YYYY-MM-DD hh:mm:ss[.mmm]` and the
fractional part is present exactly when `instant % 1000 > 0` under the
JavaScript truncated remainder: for nonnegative instants that is "the
millisecond component is nonzero", but for negative instants the fraction
is never emitted. -/
theorem formatSQL_shape (svc : CalendarService) (tz : String) (t : Int)
    (hy1 : 0 ≤ (svc t tz).year) (hy2 : (svc t tz).year ≤ 9999)
    (hmo1 : 0 ≤ (svc t tz).month) (hmo2 : (svc t tz).month ≤ 12)
    (hd1 : 0 ≤ (svc t tz).day) (hd2 : (svc t tz).day ≤ 31)
    (hh1 : 0 ≤ (svc t tz).hour)
    (hmi1 : 0 ≤ (svc t tz).minute) (hmi2 : (svc t tz).minute ≤ 59)
    (hs1 : 0 ≤ (svc t tz).second) (hs2 : (svc t tz).second ≤ 59) :
    sqlShapeSpec (formatSQL svc t tz) = true ∧
    ((formatSQL svc t tz).any (fun c => c == '.') = true ↔ 0 < t.tmod 1000) ∧
    (0 ≤ t → (0 < t.tmod 1000 ↔ t % 1000 ≠ 0)) ∧
    (t < 0 → (formatSQL svc t tz).any (fun c => c == '.') = false) := by
  obtain ⟨Y, hY, hYlt⟩ : ∃ n : Nat, (svc t tz).year = (n : Int) ∧ n < 10000 :=
    ⟨(svc t tz).year.toNat, by omega, by omega⟩
  obtain ⟨MO, hMO, hMOlt⟩ : ∃ n : Nat, (svc t tz).month = (n : Int) ∧ n < 100 :=
    ⟨(svc t tz).month.toNat, by omega, by omega⟩
  obtain ⟨D, hD, hDlt⟩ : ∃ n : Nat, (svc t tz).day = (n : Int) ∧ n < 100 :=
    ⟨(svc t tz).day.toNat, by omega, by omega⟩
  obtain ⟨H, hH, hHlt⟩ : ∃ n : Nat, (svc t tz).hour % 24 = (n : Int) ∧ n < 100 :=
    ⟨((svc t tz).hour % 24).toNat, by omega, by omega⟩
  obtain ⟨MI, hMI, hMIlt⟩ : ∃ n : Nat, (svc t tz).minute = (n : Int) ∧ n < 100 :=
    ⟨(svc t tz).minute.toNat, by omega, by omega⟩
  obtain ⟨S, hS, hSlt⟩ : ∃ n : Nat, (svc t tz).second = (n : Int) ∧ n < 100 :=
    ⟨(svc t tz).second.toNat, by omega, by omega⟩
  have hform : formatSQL svc t tz =
      (if 0 < t.tmod 1000 then
        (padStart 4 '0' (jsIntToString (Y : Int)) ++
          '-' :: padStart 2 '0' (jsIntToString (MO : Int)) ++
          '-' :: padStart 2 '0' (jsIntToString (D : Int)) ++
          ' ' :: padStart 2 '0' (jsIntToString (H : Int)) ++
          ':' :: padStart 2 '0' (jsIntToString (MI : Int)) ++
          ':' :: padStart 2 '0' (jsIntToString (S : Int))) ++
          '.' :: padStart 3 '0' (jsIntToString (t.tmod 1000))
      else
        padStart 4 '0' (jsIntToString (Y : Int)) ++
          '-' :: padStart 2 '0' (jsIntToString (MO : Int)) ++
          '-' :: padStart 2 '0' (jsIntToString (D : Int)) ++
          ' ' :: padStart 2 '0' (jsIntToString (H : Int)) ++
          ':' :: padStart 2 '0' (jsIntToString (MI : Int)) ++
          ':' :: padStart 2 '0' (jsIntToString (S : Int))) := by
    simp only [formatSQL, getPartsInTz]
    rw [hY, hMO, hD, hH, hMI, hS]
  have hBtok : ∀ rest : Str, tokHeadDigits (tokenize rest) = false →
      tokenize ((padStart 4 '0' (jsIntToString (Y : Int)) ++
          '-' :: padStart 2 '0' (jsIntToString (MO : Int)) ++
          '-' :: padStart 2 '0' (jsIntToString (D : Int)) ++
          ' ' :: padStart 2 '0' (jsIntToString (H : Int)) ++
          ':' :: padStart 2 '0' (jsIntToString (MI : Int)) ++
          ':' :: padStart 2 '0' (jsIntToString (S : Int))) ++ rest) =
        .digits (padStart 4 '0' (jsIntToString (Y : Int))) ::
        .sym '-' :: .digits (padStart 2 '0' (jsIntToString (MO : Int))) ::
        .sym '-' :: .digits (padStart 2 '0' (jsIntToString (D : Int))) ::
        .ws [' '] :: .digits (padStart 2 '0' (jsIntToString (H : Int))) ::
        .sym ':' :: .digits (padStart 2 '0' (jsIntToString (MI : Int))) ::
        .sym ':' :: .digits (padStart 2 '0' (jsIntToString (S : Int))) ::
        tokenize rest := by
    intro rest hrest
    exact tokenize_sqlString _ _ _ _ _ _ rest
      (pad4_ne_nil hYlt) (pad4_digits hYlt)
      (pad2_ne_nil hMOlt) (pad2_digits hMOlt)
      (pad2_ne_nil hDlt) (pad2_digits hDlt)
      (pad2_ne_nil hHlt) (pad2_digits hHlt)
      (pad2_ne_nil hMIlt) (pad2_digits hMIlt)
      (pad2_ne_nil hSlt) (pad2_digits hSlt) hrest
  have hnodotB : ((padStart 4 '0' (jsIntToString (Y : Int)) ++
      '-' :: padStart 2 '0' (jsIntToString (MO : Int)) ++
      '-' :: padStart 2 '0' (jsIntToString (D : Int)) ++
      ' ' :: padStart 2 '0' (jsIntToString (H : Int)) ++
      ':' :: padStart 2 '0' (jsIntToString (MI : Int)) ++
      ':' :: padStart 2 '0' (jsIntToString (S : Int)))).any (fun c => c == '.') = false := by
    simp only [List.any_append, List.any_cons]
    rw [no_dot_of_digits (pad4_digits hYlt), no_dot_of_digits (pad2_digits hMOlt),
      no_dot_of_digits (pad2_digits hDlt), no_dot_of_digits (pad2_digits hHlt),
      no_dot_of_digits (pad2_digits hMIlt), no_dot_of_digits (pad2_digits hSlt)]
    decide
  refine ⟨?_, ?_, ?_, ?_⟩
  · rw [hform]
    split
    · rename_i hpos
      obtain ⟨MS, hMS, hMSlt⟩ : ∃ n : Nat, t.tmod 1000 = (n : Int) ∧ n < 1000 :=
        ⟨(t.tmod 1000).toNat, by omega, by
          have := tmod_1000_lt t
          omega⟩
      rw [hMS]
      unfold sqlShapeSpec
      rw [hBtok ('.' :: padStart 3 '0' (jsIntToString ((MS : Nat) : Int)))
        (by rw [tokHeadDigits_tokenize_cons]; decide)]
      rw [tokenize_sym_cons (c := '.') (by decide) (by decide) (by decide)]
      rw [tokenize_digits_list _ (pad3_ne_nil hMSlt) (pad3_digits hMSlt)]
      simp [pad4_len hYlt, pad2_len hMOlt, pad2_len hDlt, pad2_len hHlt,
        pad2_len hMIlt, pad2_len hSlt, pad3_len hMSlt]
    · unfold sqlShapeSpec
      rw [show (padStart 4 '0' (jsIntToString (Y : Int)) ++
          '-' :: padStart 2 '0' (jsIntToString (MO : Int)) ++
          '-' :: padStart 2 '0' (jsIntToString (D : Int)) ++
          ' ' :: padStart 2 '0' (jsIntToString (H : Int)) ++
          ':' :: padStart 2 '0' (jsIntToString (MI : Int)) ++
          ':' :: padStart 2 '0' (jsIntToString (S : Int))) =
        (padStart 4 '0' (jsIntToString (Y : Int)) ++
          '-' :: padStart 2 '0' (jsIntToString (MO : Int)) ++
          '-' :: padStart 2 '0' (jsIntToString (D : Int)) ++
          ' ' :: padStart 2 '0' (jsIntToString (H : Int)) ++
          ':' :: padStart 2 '0' (jsIntToString (MI : Int)) ++
          ':' :: padStart 2 '0' (jsIntToString (S : Int))) ++ ([] : Str) by
        rw [List.append_nil]]
      rw [hBtok [] (by rfl)]
      simp [pad4_len hYlt, pad2_len hMOlt, pad2_len hDlt, pad2_len hHlt,
        pad2_len hMIlt, pad2_len hSlt, tokenize]
  · rw [hform]
    split
    · rename_i hpos
      rw [List.any_append, hnodotB]
      simp [hpos]
    · rename_i hneg
      rw [hnodotB]
      simp
      omega
  · intro ht
    rw [Int.tmod_eq_emod ht (by norm_num)]
    omega
  · intro ht
    rw [hform]
    have hnp := tmod_1000_nonpos ht
    rw [if_neg (by omega)]
    exact hnodotB

theorem formatSQL_shape_witness :
    sqlShapeSpec (formatSQL utcCalendarSvc 1705314600123 "UTC") = true :=
  (formatSQL_shape utcCalendarSvc "UTC" 1705314600123 (by decide) (by decide) (by decide)
    (by decide) (by decide) (by decide) (by decide) (by decide) (by decide) (by decide)
    (by decide)).1

/-- Claim C6, counterexample: at the pre-epoch instant −500 ms the
millisecond-of-second component (`t mod 1000`, the floored remainder) is
500, nonzero, yet `formatSQL` emits no fractional part, because the code
tests `date.getTime() % 1000 > 0` with the truncated remainder −500. -/
theorem formatSQL_neg_no_fraction :
    (formatSQL utcCalendarSvc (-500) "UTC").any (fun c => c == '.') = false ∧
    (-500 : Int) % 1000 = 500 ∧ ((-500 : Int) % 1000 ≠ 0) := by
  refine ⟨by decide, by decide, by decide⟩

theorem formatISOWithOffset_msField_witness :
    padStart 3 '0' (jsIntToString ((1705314600123 : Int).tmod 1000)) =
      [Char.ofNat (48 + ((1705314600123 : Int) % 1000).toNat / 100),
       Char.ofNat (48 + ((1705314600123 : Int) % 1000).toNat / 10 % 10),
       Char.ofNat (48 + ((1705314600123 : Int) % 1000).toNat % 10)] ∧
    '-' ∈ padStart 3 '0' (jsIntToString ((-500 : Int).tmod 1000)) :=
  ⟨(formatISOWithOffset_msField utcCalendarSvc "UTC" 1705314600123).2.1 (by decide),
   (formatISOWithOffset_msField utcCalendarSvc "UTC" (-500)).2.2 (by decide) (by decide)⟩

theorem takeWhile_all {p : Char → Bool} {l : Str} (h : ∀ c ∈ l, p c = true) :
    l.takeWhile p = l := by
  induction l with
  | nil => rfl
  | cons c cs ih =>
    simp only [List.takeWhile, h c (by simp)]
    rw [ih (fun x hx => h x (by simp [hx]))]

theorem dropWhile_none {p : Char → Bool} {l : Str} (h : ∀ c ∈ l, p c = false) :
    l.dropWhile p = l := by
  cases l with
  | nil => rfl
  | cons c cs => simp [List.dropWhile, h c (by simp)]

theorem digit_facts {c : Char} (h : isDigitChar c = true) :
    isWsChar c = false ∧ isAlphaChar c = false ∧ c ≠ '-' ∧ c ≠ '+' ∧ 48 ≤ c.toNat ∧
      c.toNat ≤ 57 := by
  simp only [isDigitChar, Bool.and_eq_true, decide_eq_true_eq] at h
  refine ⟨?_, ?_, ?_, ?_, h.1, h.2⟩
  · simp only [isWsChar]
    have : ∀ x : Char, c = x → c.toNat = x.toNat := fun x hx => by rw [hx]
    cases h1 : c == ' '
    · cases h2 : c == '\t'
      · cases h3 : c == '\n'
        · cases h4 : c == '\r'
          · cases h5 : c == Char.ofNat 11
            · cases h6 : c == Char.ofNat 12
              · rfl
              · have := this _ (eq_of_beq h6)
                simp at this
                omega
            · have := this _ (eq_of_beq h5)
              simp at this
              omega
          · have := this _ (eq_of_beq h4)
            simp at this
            omega
        · have := this _ (eq_of_beq h3)
          simp at this
          omega
      · have := this _ (eq_of_beq h2)
        simp at this
        omega
    · have := this _ (eq_of_beq h1)
      simp at this
      omega
  · simp only [isAlphaChar]
    have h65 : ¬ (65 ≤ c.toNat ∧ c.toNat ≤ 90) := by omega
    have h97 : ¬ (97 ≤ c.toNat ∧ c.toNat ≤ 122) := by omega
    simp only [Bool.or_eq_false_iff, Bool.and_eq_false_iff]
    constructor
    · rcases Nat.lt_or_ge c.toNat 65 with h' | h'
      · left
        simpa using by omega
      · right
        simpa using by omega
    · left
      simpa using by omega
  · intro hc
    rw [hc] at h
    simp at h
  · intro hc
    rw [hc] at h
    simp at h

theorem digitVal_le {c : Char} (h : isDigitChar c = true) : digitVal c ≤ 9 := by
  have := (digit_facts h).2.2.2.2
  simp only [digitVal]
  omega

theorem jsParseInt_digits {ds : Str} (h1 : ds ≠ []) (h2 : ∀ c ∈ ds, isDigitChar c = true) :
    jsParseInt ds = some ((digitsValD ds : Nat) : Int) := by
  cases ds with
  | nil => exact absurd rfl h1
  | cons c cs =>
    have hc := digit_facts (h2 c (by simp))
    simp only [jsParseInt]
    rw [dropWhile_none (fun x hx => (digit_facts (h2 x hx)).1)]
    split
    · rename_i r heq
      exact absurd (List.head_eq_of_cons_eq heq) hc.2.2.1
    · rename_i r heq
      exact absurd (List.head_eq_of_cons_eq heq) hc.2.2.2.1
    · simp [digitsVal, takeWhile_all h2, digitsValD]

theorem digitsValD_lt_aux {l : Str} (h : ∀ c ∈ l, isDigitChar c = true) :
    ∀ acc : Nat, l.foldl (fun a c => a * 10 + digitVal c) acc < (acc + 1) * 10 ^ l.length := by
  induction l with
  | nil =>
    intro acc
    simp
  | cons c cs ih =>
    intro acc
    simp only [List.foldl_cons, List.length_cons]
    have hstep := ih (fun x hx => h x (by simp [hx])) (acc * 10 + digitVal c)
    have hdv : digitVal c ≤ 9 := digitVal_le (h c (by simp))
    calc List.foldl (fun a c => a * 10 + digitVal c) (acc * 10 + digitVal c) cs
        < (acc * 10 + digitVal c + 1) * 10 ^ cs.length := hstep
      _ ≤ (acc + 1) * 10 ^ (cs.length + 1) := by
          have : acc * 10 + digitVal c + 1 ≤ (acc + 1) * 10 := by omega
          calc (acc * 10 + digitVal c + 1) * 10 ^ cs.length
              ≤ ((acc + 1) * 10) * 10 ^ cs.length :=
                Nat.mul_le_mul_right _ this
            _ = (acc + 1) * 10 ^ (cs.length + 1) := by ring

theorem digitsValD_lt {l : Str} (h : ∀ c ∈ l, isDigitChar c = true) :
    digitsValD l < 10 ^ l.length := by
  have := digitsValD_lt_aux h 0
  simpa [digitsValD] using this

theorem splitOnChar_single {c : Char} {l : Str} (h : ∀ x ∈ l, (x == c) = false) :
    splitOnChar c l = [l] := by
  induction l with
  | nil => rfl
  | cons a as ih =>
    simp only [splitOnChar, h a (by simp)]
    rw [if_neg (by simp)]
    rw [ih (fun x hx => h x (by simp [hx]))]

theorem splitOnChar_append {c : Char} {pre rest : Str} (h : ∀ x ∈ pre, (x == c) = false) :
    splitOnChar c (pre ++ c :: rest) = pre :: splitOnChar c rest := by
  induction pre with
  | nil =>
    simp only [List.nil_append, splitOnChar, beq_self_eq_true]
    rfl
  | cons a as ih =>
    simp only [List.cons_append, splitOnChar, h a (by simp), List.append_eq]
    rw [if_neg (by simp)]
    rw [ih (fun x hx => h x (by simp [hx]))]

theorem makeFullYear_bounds {y : Int} (h1 : 0 ≤ y) (h2 : y ≤ 9999) :
    0 ≤ makeFullYear y ∧ makeFullYear y ≤ 9999 := by
  unfold makeFullYear
  split <;> omega

theorem utcMsOfFields_bound {y m d h mi s ms : Int}
    (hy1 : 0 ≤ y) (hy2 : y ≤ 9999) (hm1 : 1 ≤ m) (hm2 : m ≤ 12)
    (hd1 : 1 ≤ d) (hd2 : d ≤ 31) (hh1 : 0 ≤ h) (hh2 : h ≤ 99)
    (hmi1 : 0 ≤ mi) (hmi2 : mi ≤ 99) (hs1 : 0 ≤ s) (hs2 : s ≤ 99)
    (hms1 : 0 ≤ ms) (hms2 : ms ≤ 999) :
    (utcMsOfFields y m d h mi s ms).natAbs ≤ maxTimeValue.toNat := by
  simp only [utcMsOfFields, daysFromCivil, maxTimeValue]
  split_ifs <;> omega

theorem jsDateUTC_eq {y mIdx d h mi s : Int}
    (hy1 : 0 ≤ y) (hy2 : y ≤ 9999) (hm1 : 0 ≤ mIdx) (hm2 : mIdx ≤ 11)
    (hd1 : 1 ≤ d) (hd2 : d ≤ 31) (hh1 : 0 ≤ h) (hh2 : h ≤ 99)
    (hmi1 : 0 ≤ mi) (hmi2 : mi ≤ 99) (hs1 : 0 ≤ s) (hs2 : s ≤ 99) :
    jsDateUTC y mIdx d h mi s =
      some (utcMsOfFields (makeFullYear y) (mIdx + 1) d h mi s 0) := by
  have hdiv : mIdx / 12 = 0 := by omega
  have hmod : mIdx % 12 = mIdx := by omega
  simp only [jsDateUTC, hdiv, hmod, Int.add_zero]
  obtain ⟨hf1, hf2⟩ := makeFullYear_bounds hy1 hy2
  exact timeClip_of_le (utcMsOfFields_bound hf1 hf2 (by omega) (by omega) hd1 hd2 hh1 hh2
    hmi1 hmi2 hs1 hs2 (by omega) (by omega))

theorem dmyCore_eq {month day year h mi sec : Int}
    (hy1 : 0 ≤ year) (hy2 : year ≤ 9999) (hh1 : 0 ≤ h) (hh2 : h ≤ 99)
    (hmi1 : 0 ≤ mi) (hmi2 : mi ≤ 99) (hs1 : 0 ≤ sec) (hs2 : sec ≤ 99) :
    dmyCore month day year h mi sec =
      (if month < 1 ∨ 12 < month ∨ day < 1 ∨ 31 < day then JSVal.null
       else .date (some (utcMsOfFields (makeFullYear year) month day h mi sec 0))) := by
  unfold dmyCore
  split
  · rfl
  · rename_i hC
    push_neg at hC
    rw [jsDateUTC_eq hy1 hy2 (by omega) (by omega) (by omega) (by omega)
      hh1 hh2 hmi1 hmi2 hs1 hs2]
    have h2 : month - 1 + 1 = month := by omega
    rw [h2]

/-- Claim C5: for every `N/N/YYYY` slash-date text, `parseSlashDate`
rejects exactly when the mode-resolved month is outside [1,12] or the
mode-resolved day is outside [1,31]; every in-range combination is
accepted — even a day beyond the month's real length — and handed to the
`Date.UTC` instant construction, which rolls the overflow over. -/
theorem parseSlashDate_range (mode : DateMode) (a b y : Str)
    (ha1 : a ≠ []) (ha2 : ∀ c ∈ a, isDigitChar c = true) (ha3 : a.length ≤ 2)
    (hb1 : b ≠ []) (hb2 : ∀ c ∈ b, isDigitChar c = true) (hb3 : b.length ≤ 2)
    (hy1 : y ≠ []) (hy2 : ∀ c ∈ y, isDigitChar c = true) (hy3 : y.length = 4) :
    (parseSlashDate mode (a ++ '/' :: b ++ '/' :: y) = .null ↔
      (resolvedMonth mode a b < 1 ∨ 12 < resolvedMonth mode a b ∨
       resolvedDay mode a b < 1 ∨ 31 < resolvedDay mode a b)) ∧
    ((1 ≤ resolvedMonth mode a b ∧ resolvedMonth mode a b ≤ 12 ∧
      1 ≤ resolvedDay mode a b ∧ resolvedDay mode a b ≤ 31) →
      parseSlashDate mode (a ++ '/' :: b ++ '/' :: y) =
        .date (some (utcMsOfFields (makeFullYear ((digitsValD y : Nat) : Int))
          ((resolvedMonth mode a b : Nat) : Int) ((resolvedDay mode a b : Nat) : Int)
          0 0 0 0))) := by
  have hslash : ∀ x ∈ a, (x == '/') = false := by
    intro x hx
    cases hxc : x == '/'
    · rfl
    · have := eq_of_beq hxc
      rw [this] at hx
      exact absurd (ha2 '/' hx) (by decide)
  have hslashb : ∀ x ∈ b, (x == '/') = false := by
    intro x hx
    cases hxc : x == '/'
    · rfl
    · have := eq_of_beq hxc
      rw [this] at hx
      exact absurd (hb2 '/' hx) (by decide)
  have hslashy : ∀ x ∈ y, (x == '/') = false := by
    intro x hx
    cases hxc : x == '/'
    · rfl
    · have := eq_of_beq hxc
      rw [this] at hx
      exact absurd (hy2 '/' hx) (by decide)
  have hsplit : splitOnChar '/' (a ++ '/' :: b ++ '/' :: y) = [a, b, y] := by
    have h1 : a ++ '/' :: b ++ '/' :: y = a ++ '/' :: (b ++ '/' :: y) := by
      simp [List.append_assoc]
    rw [h1, splitOnChar_append hslash, splitOnChar_append hslashb,
      splitOnChar_single hslashy]
  have hvy : digitsValD y < 10000 := by
    have := digitsValD_lt hy2
    rw [hy3] at this
    norm_num at this
    exact this
  have hva : digitsValD a < 100 := by
    have := digitsValD_lt ha2
    calc digitsValD a < 10 ^ a.length := this
      _ ≤ 10 ^ 2 := Nat.pow_le_pow_right (by norm_num) ha3
      _ = 100 := by norm_num
  have hvb : digitsValD b < 100 := by
    have := digitsValD_lt hb2
    calc digitsValD b < 10 ^ b.length := this
      _ ≤ 10 ^ 2 := Nat.pow_le_pow_right (by norm_num) hb3
      _ = 100 := by norm_num
  have hkey : parseSlashDate mode (a ++ '/' :: b ++ '/' :: y) =
      dmyCore ((resolvedMonth mode a b : Nat) : Int) ((resolvedDay mode a b : Nat) : Int)
        ((digitsValD y : Nat) : Int) 0 0 0 := by
    simp only [parseSlashDate, hsplit, List.getD, List.get?, Option.getD]
    rw [jsParseInt_digits ha1 ha2, jsParseInt_digits hb1 hb2, jsParseInt_digits hy1 hy2]
    cases mode
    · simp [resolvedMonth, resolvedDay]
    · simp [resolvedMonth, resolvedDay]
  rw [hkey, dmyCore_eq (by omega) (by omega) (by omega) (by omega) (by omega) (by omega)
    (by omega) (by omega)]
  constructor
  · split
    · rename_i hC
      constructor
      · intro _
        omega
      · intro _
        rfl
    · rename_i hC
      constructor
      · intro habs
        cases habs
      · intro hcond
        exfalso
        omega
  · intro hin
    rw [if_neg (by omega)]

theorem jsTrim_no_ws {l : Str} (h : ∀ c ∈ l, isWsChar c = false) : jsTrim l = l := by
  unfold jsTrim
  rw [dropWhile_none h]
  rw [dropWhile_none (fun c hc => h c (List.mem_reverse.mp hc))]
  exact List.reverse_reverse l

theorem digitsVal_digits {ds : Str} (h1 : ds ≠ []) (h2 : ∀ c ∈ ds, isDigitChar c = true) :
    digitsVal ds = some (digitsValD ds) := by
  cases ds with
  | nil => exact absurd rfl h1
  | cons c cs =>
    simp [digitsVal, takeWhile_all h2, digitsValD]

theorem jsParseInt_neg_digits {ds : Str} (h1 : ds ≠ [])
    (h2 : ∀ c ∈ ds, isDigitChar c = true) :
    jsParseInt ('-' :: ds) = some (-((digitsValD ds : Nat) : Int)) := by
  simp only [jsParseInt]
  rw [show List.dropWhile isWsChar ('-' :: ds) = '-' :: ds from by
    simp [List.dropWhile, isWsChar]]
  simp [digitsVal_digits h1 h2]

theorem toLowerChar_digit {c : Char} (h : isDigitChar c = true) : toLowerChar c = c := by
  unfold toLowerChar
  rw [if_neg]
  have := (digit_facts h).2.2.2.2
  omega

theorem testRelative_head_false {c : Char} (rest : Str)
    (h1 : toLowerChar c ≠ 'n') (h2 : toLowerChar c ≠ 't') (h3 : toLowerChar c ≠ 'y') :
    testRelative (c :: rest) = false := by
  rw [Bool.eq_false_iff]
  intro h
  simp only [testRelative, List.map_cons, Bool.or_eq_true, beq_iff_eq] at h
  rcases h with ((h | h) | h) | h
  · rw [show "now".toList = 'n' :: "ow".toList from rfl] at h
    exact h1 (List.head_eq_of_cons_eq h)
  · rw [show "today".toList = 't' :: "oday".toList from rfl] at h
    exact h2 (List.head_eq_of_cons_eq h)
  · rw [show "yesterday".toList = 'y' :: "esterday".toList from rfl] at h
    exact h3 (List.head_eq_of_cons_eq h)
  · rw [show "tomorrow".toList = 't' :: "omorrow".toList from rfl] at h
    exact h2 (List.head_eq_of_cons_eq h)

theorem testRelative_digit_head {c : Char} (hc : isDigitChar c = true) (rest : Str) :
    testRelative (c :: rest) = false := by
  have hl := toLowerChar_digit hc
  apply testRelative_head_false
  · rw [hl]
    intro he
    subst he
    exact absurd hc (by decide)
  · rw [hl]
    intro he
    subst he
    exact absurd hc (by decide)
  · rw [hl]
    intro he
    subst he
    exact absurd hc (by decide)

/-- Claim C3, counterexample: `"9007199254740992"` (2^53) is a numeric
text of sixteen digits, yet detection yields NoMatch rather than the
instant 9007199254740992, because that value lies outside the
±8,640,000,000,000,000 ms `Date` range. -/
theorem detect_16_digits_NoMatch :
    parseTimestamp (fun _ => none) .us 0 "9007199254740992".toList = none ∧
    13 ≤ "9007199254740992".toList.length ∧
    "9007199254740992".toList.all isDigitChar = true := by
  refine ⟨by decide, by decide, by decide⟩

theorem detect_unixS_of (lp : LooseParse) (mode : DateMode) (now : Int) (txt : Str) (V : Int)
    (htrim : jsTrim txt = txt) (hne : txt.isEmpty = false)
    (hrel : testRelative txt = false)
    (hms : testUnixMs txt = false)
    (hus : testUnixS txt = true)
    (hpi : jsParseInt txt = some V)
    (hcl : timeClip (V * 1000) = some (V * 1000)) :
    parseTimestamp lp mode now txt = some (V * 1000, "Unix (s)") := by
  simp only [parseTimestamp, htrim, hne, FORMATS, runFormats, hrel, hms, hus]
  simp [hpi, hcl]

theorem detect_unixMs_of (lp : LooseParse) (mode : DateMode) (now : Int) (txt : Str) (V : Int)
    (htrim : jsTrim txt = txt) (hne : txt.isEmpty = false)
    (hrel : testRelative txt = false)
    (hms : testUnixMs txt = true)
    (hpi : jsParseInt txt = some V)
    (hcl : timeClip V = some V) :
    parseTimestamp lp mode now txt = some (V, "Unix (ms)") := by
  simp only [parseTimestamp, htrim, hne, FORMATS, runFormats, hrel, hms]
  simp [hpi, hcl]

/-- Claim C3 (amended): an optionally signed digit text of at most 12
digits always detects as `'Unix (s)'` with instant `value * 1000`; with 13
or more digits it detects as `'Unix (ms)'` with the instant equal to the
value itself provided that value is within the representable `Date` range
(outside it, detection is NoMatch — see the counterexample).  The
seconds/milliseconds boundary sits exactly at digit count 13. -/
theorem detect_numeric_boundary (lp : LooseParse) (mode : DateMode) (now : Int)
    (sign : Bool) (ds : Str) (h1 : ds ≠ []) (h2 : ∀ c ∈ ds, isDigitChar c = true) :
    (ds.length ≤ 12 →
      parseTimestamp lp mode now (if sign then '-' :: ds else ds) =
        some ((if sign then -((digitsValD ds : Nat) : Int) else ((digitsValD ds : Nat) : Int)) * 1000,
          "Unix (s)")) ∧
    (13 ≤ ds.length →
      (if sign then -((digitsValD ds : Nat) : Int) else ((digitsValD ds : Nat) : Int)).natAbs ≤
        maxTimeValue.toNat →
      parseTimestamp lp mode now (if sign then '-' :: ds else ds) =
        some ((if sign then -((digitsValD ds : Nat) : Int) else ((digitsValD ds : Nat) : Int)),
          "Unix (ms)")) := by
  obtain ⟨c, cs, rfl⟩ : ∃ c cs, ds = c :: cs := by
    cases ds with
    | nil => exact absurd rfl h1
    | cons c cs => exact ⟨c, cs, rfl⟩
  have hnws : ∀ x ∈ c :: cs, isWsChar x = false := fun x hx => (digit_facts (h2 x hx)).1
  have htok : tokenize (c :: cs) = [.digits (c :: cs)] := tokenize_digits_list _ h1 h2
  have htokS : tokenize ('-' :: c :: cs) = [.sym '-', .digits (c :: cs)] := by
    rw [tokenize_sym_cons (c := '-') (by decide) (by decide) (by decide), htok]
  have htrim : jsTrim (c :: cs) = c :: cs := jsTrim_no_ws hnws
  have htrimS : jsTrim ('-' :: c :: cs) = '-' :: c :: cs :=
    jsTrim_no_ws (by
      intro x hx
      rcases List.mem_cons.mp hx with rfl | hx2
      · decide
      · exact hnws x hx2)
  have hrel : testRelative (c :: cs) = false := testRelative_digit_head (h2 c (by simp)) cs
  have hrelS : testRelative ('-' :: c :: cs) = false :=
    testRelative_head_false _ (by decide) (by decide) (by decide)
  have hpi : jsParseInt (c :: cs) = some ((digitsValD (c :: cs) : Nat) : Int) :=
    jsParseInt_digits h1 h2
  have hpiS : jsParseInt ('-' :: c :: cs) = some (-((digitsValD (c :: cs) : Nat) : Int)) :=
    jsParseInt_neg_digits h1 h2
  cases sign
  · constructor
    · intro hlen
      have hms : testUnixMs (c :: cs) = false := by
        simp only [testUnixMs, htok, shapeUnixMs, decide_eq_false_iff_not]
        omega
      have hus : testUnixS (c :: cs) = true := by
        simp only [testUnixS, htok, shapeUnixS, Bool.and_eq_true, decide_eq_true_eq]
        constructor
        · simp
        · omega
      have hv : digitsValD (c :: cs) < 10 ^ 12 := by
        calc digitsValD (c :: cs) < 10 ^ (c :: cs).length := digitsValD_lt h2
          _ ≤ 10 ^ 12 := Nat.pow_le_pow_right (by norm_num) hlen
      have hcl : timeClip (((digitsValD (c :: cs) : Nat) : Int) * 1000) =
          some (((digitsValD (c :: cs) : Nat) : Int) * 1000) := by
        apply timeClip_of_le
        simp only [maxTimeValue]
        omega
      exact detect_unixS_of lp mode now _ _ htrim (by simp) hrel hms hus hpi hcl
    · intro hlen hbound
      have hms : testUnixMs (c :: cs) = true := by
        simp only [testUnixMs, htok, shapeUnixMs, decide_eq_true_eq]
        omega
      exact detect_unixMs_of lp mode now _ _ htrim (by simp) hrel hms hpi
        (timeClip_of_le hbound)
  · constructor
    · intro hlen
      have hms : testUnixMs ('-' :: c :: cs) = false := by
        simp only [testUnixMs, htokS, shapeUnixMs, decide_eq_false_iff_not]
        omega
      have hus : testUnixS ('-' :: c :: cs) = true := by
        simp only [testUnixS, htokS, shapeUnixS, Bool.and_eq_true, decide_eq_true_eq]
        constructor
        · simp
        · omega
      have hv : digitsValD (c :: cs) < 10 ^ 12 := by
        calc digitsValD (c :: cs) < 10 ^ (c :: cs).length := digitsValD_lt h2
          _ ≤ 10 ^ 12 := Nat.pow_le_pow_right (by norm_num) hlen
      have hcl : timeClip ((-((digitsValD (c :: cs) : Nat) : Int)) * 1000) =
          some ((-((digitsValD (c :: cs) : Nat) : Int)) * 1000) := by
        apply timeClip_of_le
        simp only [maxTimeValue]
        omega
      exact detect_unixS_of lp mode now _ _ htrimS (by simp) hrelS hms hus hpiS hcl
    · intro hlen hbound
      have hms : testUnixMs ('-' :: c :: cs) = true := by
        simp only [testUnixMs, htokS, shapeUnixMs, decide_eq_true_eq]
        omega
      exact detect_unixMs_of lp mode now _ _ htrimS (by simp) hrelS hms hpiS
        (timeClip_of_le hbound)

theorem detect_numeric_boundary_witness :
    parseTimestamp (fun _ => none) .us 0
        (if false then '-' :: "1700000000".toList else "1700000000".toList) =
      some ((if false then -((digitsValD "1700000000".toList : Nat) : Int)
        else ((digitsValD "1700000000".toList : Nat) : Int)) * 1000, "Unix (s)") ∧
    parseTimestamp (fun _ => none) .us 0
        (if true then '-' :: "1700000000000".toList else "1700000000000".toList) =
      some ((if true then -((digitsValD "1700000000000".toList : Nat) : Int)
        else ((digitsValD "1700000000000".toList : Nat) : Int)), "Unix (ms)") :=
  ⟨(detect_numeric_boundary (fun _ => none) .us 0 false "1700000000".toList
      (by decide) (by decide)).1 (by decide),
   (detect_numeric_boundary (fun _ => none) .us 0 true "1700000000000".toList
      (by decide) (by decide)).2 (by decide) (by decide)⟩

theorem parseSlashDate_range_witness :
    parseSlashDate .us ("02".toList ++ '/' :: "31".toList ++ '/' :: "2024".toList) =
      .date (some (utcMsOfFields (makeFullYear ((digitsValD "2024".toList : Nat) : Int))
        ((resolvedMonth .us "02".toList "31".toList : Nat) : Int)
        ((resolvedDay .us "02".toList "31".toList : Nat) : Int) 0 0 0 0)) :=
  (parseSlashDate_range .us "02".toList "31".toList "2024".toList
    (by decide) (by decide) (by decide) (by decide) (by decide) (by decide)
    (by decide) (by decide) (by decide)).2 (by decide)

theorem fuzzyGo_le (t : Str) : ∀ (q : Str) (pc : Option Char) (pm : Bool) (s : Nat),
    (fuzzyGo t q pc pm s).2 ≤ s + 9 * q.length := by
  induction t with
  | nil => intro q pc pm s; simp [fuzzyGo]
  | cons c ts ih =>
    intro q pc pm s
    cases q with
    | nil => simp [fuzzyGo]
    | cons qc qs =>
      simp only [fuzzyGo]
      split
      · refine le_trans (ih qs _ _ _) ?_
        simp only [List.length_cons]
        split <;> split <;> omega
      · exact ih (qc :: qs) _ _ _

theorem fuzzyScore_le (query text : Str) : fuzzyScore query text ≤ 9 * query.length := by
  have h := fuzzyGo_le (text.map toLowerChar) (query.map toLowerChar) none false 0
  simp only [List.length_map, Nat.zero_add] at h
  simp only [fuzzyScore]
  split
  · exact h
  · exact Nat.zero_le _

theorem foldl_max_le (q : Str) (B : Nat) :
    ∀ (l : List String) (b : Nat), b ≤ B → (∀ a ∈ l, fuzzyScore q a.toList ≤ B) →
      List.foldl (fun b a => max b (fuzzyScore q a.toList)) b l ≤ B := by
  intro l
  induction l with
  | nil => intro b hb _; simpa using hb
  | cons x xs ih =>
    intro b hb hall
    simp only [List.foldl_cons]
    exact ih _ (max_le hb (hall x (by simp))) (fun a ha => hall a (by simp [ha]))

theorem foldl_max_ge_init (q : Str) :
    ∀ (l : List String) (b : Nat),
      b ≤ List.foldl (fun b a => max b (fuzzyScore q a.toList)) b l := by
  intro l
  induction l with
  | nil => intro b; simp
  | cons x xs ih =>
    intro b
    simp only [List.foldl_cons]
    exact le_trans (le_max_left _ _) (ih _)

theorem foldl_max_ge_mem (q : Str) (a : String) :
    ∀ (l : List String) (b : Nat), a ∈ l →
      fuzzyScore q a.toList ≤ List.foldl (fun b a => max b (fuzzyScore q a.toList)) b l := by
  intro l
  induction l with
  | nil => intro b h; cases h
  | cons x xs ih =>
    intro b h
    simp only [List.foldl_cons]
    rcases List.mem_cons.mp h with rfl | h2
    · exact le_trans (le_max_right _ _) (foldl_max_ge_init q xs _)
    · exact ih _ h2

theorem bestScoreFor_le (q : Str) (tz : String) : bestScoreFor q tz ≤ 9 * q.length :=
  foldl_max_le q _ _ _ (fuzzyScore_le q tz.toList) (fun a _ => fuzzyScore_le q a.toList)

theorem bestScoreFor_ge (q : Str) (tz : String) (a : String) (ha : a ∈ tzToAbbrevs tz) :
    fuzzyScore q a.toList ≤ bestScoreFor q tz :=
  foldl_max_ge_mem q a _ _ ha

theorem insertDesc_mem (x y : String × Nat) (l : List (String × Nat)) :
    y ∈ insertDesc x l ↔ y = x ∨ y ∈ l := by
  induction l with
  | nil => simp [insertDesc]
  | cons z zs ih =>
    simp only [insertDesc]
    split
    · simp [List.mem_cons]
    · simp only [List.mem_cons, ih]
      tauto

theorem sortDesc_mem (y : String × Nat) (l : List (String × Nat)) :
    y ∈ sortDesc l ↔ y ∈ l := by
  induction l with
  | nil => simp [sortDesc]
  | cons x xs ih => simp [sortDesc, insertDesc_mem, ih]

theorem insertDesc_pairwise (x : String × Nat) (l : List (String × Nat))
    (h : List.Pairwise (fun a b => b.2 ≤ a.2) l) :
    List.Pairwise (fun a b => b.2 ≤ a.2) (insertDesc x l) := by
  induction l with
  | nil => simp [insertDesc]
  | cons z zs ih =>
    rcases List.pairwise_cons.mp h with ⟨hz, hzs⟩
    simp only [insertDesc]
    split
    · rename_i hle
      refine List.pairwise_cons.mpr ⟨?_, h⟩
      intro b hb
      rcases List.mem_cons.mp hb with rfl | hb2
      · exact hle
      · exact le_trans (hz b hb2) hle
    · rename_i hgt
      push_neg at hgt
      refine List.pairwise_cons.mpr ⟨?_, ih hzs⟩
      intro b hb
      rcases (insertDesc_mem x b zs).mp hb with rfl | hb2
      · exact le_of_lt hgt
      · exact hz b hb2

theorem sortDesc_pairwise (l : List (String × Nat)) :
    List.Pairwise (fun a b => b.2 ≤ a.2) (sortDesc l) := by
  induction l with
  | nil => simp [sortDesc]
  | cons x xs ih => exact insertDesc_pairwise x _ ih

theorem scoredZones_mem (A : List String) (q : Str) (p : String × Nat) :
    p ∈ scoredZones A q ↔ p.1 ∈ A ∧ p.2 = zoneScore q p.1 ∧ 0 < zoneScore q p.1 := by
  simp only [scoredZones, List.mem_filterMap]
  constructor
  · rintro ⟨a, ha, hf⟩
    split at hf
    · rename_i hpos
      injection hf with hf2
      subst hf2
      exact ⟨ha, rfl, hpos⟩
    · exact absurd hf (by simp)
  · rintro ⟨h1, h2, h3⟩
    refine ⟨p.1, h1, ?_⟩
    rw [if_pos h3, ← h2]

theorem zoneScore_assoc (q : Str) (zs : List String) (tz : String)
    (hq : lookupAbbrev q = some zs) (htz : tz ∈ zs) :
    zoneScore q tz = bestScoreFor q tz + 50 := by
  unfold zoneScore
  rw [hq]
  show bestScoreFor q tz + (if zs.contains tz then 50 else 0) = _
  rw [if_pos (List.elem_eq_true_of_mem htz)]

theorem zoneScore_nonassoc (q : Str) (zs : List String) (tz : String)
    (hq : lookupAbbrev q = some zs) (htz : tz ∉ zs) :
    zoneScore q tz = bestScoreFor q tz := by
  have hc : zs.contains tz = false := by
    rw [Bool.eq_false_iff]
    intro h
    exact htz (List.mem_of_elem_eq_true h)
  unfold zoneScore
  rw [hq]
  show bestScoreFor q tz + (if zs.contains tz then 50 else 0) = _
  rw [hc]
  simp

theorem TZ_ABBREVS_key_facts :
    ∀ p ∈ TZ_ABBREVS, lookupAbbrev p.1.toList = some p.2 ∧
      p.1.toList.isEmpty = false ∧
      9 * p.1.toList.length < 50 + fuzzyScore p.1.toList p.1.toList := by decide

/-- Claim C8: when the lower-cased, trimmed query equals a known
abbreviation key, every catalog zone listed for that abbreviation receives
the flat +50 boost on top of its computed fuzzy score (`zoneScore =
bestScoreFor + 50`), appears in the search results, and is ranked strictly
above every zone not listed for that abbreviation. -/
theorem filterTimezones_abbrev_ranking (A : List String) (query : Str)
    (key : String) (zs : List String) (z1 z2 : String)
    (hk : (key, zs) ∈ TZ_ABBREVS)
    (hq : jsTrim (query.map toLowerChar) = key.toList)
    (hz1A : z1 ∈ A) (hz1 : z1 ∈ zs) (hz2 : z2 ∉ zs) :
    zoneScore key.toList z1 = bestScoreFor key.toList z1 + 50 ∧
    z1 ∈ filterTimezones A query ∧
    ∀ (i j : Nat) (hi : i < (filterTimezones A query).length)
      (hj : j < (filterTimezones A query).length),
      (filterTimezones A query).get ⟨i, hi⟩ = z1 →
      (filterTimezones A query).get ⟨j, hj⟩ = z2 → i < j := by
  obtain ⟨hlk, hne, hlt⟩ := TZ_ABBREVS_key_facts (key, zs) hk
  dsimp only at hlk hne hlt
  have hkey_mem : key ∈ tzToAbbrevs z1 := by
    simp only [tzToAbbrevs, List.mem_filterMap]
    exact ⟨(key, zs), hk, by rw [if_pos (List.elem_eq_true_of_mem hz1)]⟩
  have hs1 : zoneScore key.toList z1 = bestScoreFor key.toList z1 + 50 :=
    zoneScore_assoc _ _ _ hlk hz1
  have hself : fuzzyScore key.toList key.toList ≤ bestScoreFor key.toList z1 :=
    bestScoreFor_ge _ _ _ hkey_mem
  have hz2s : zoneScore key.toList z2 = bestScoreFor key.toList z2 :=
    zoneScore_nonassoc _ _ _ hlk hz2
  have hscore_lt : zoneScore key.toList z2 < zoneScore key.toList z1 := by
    rw [hs1, hz2s]
    have hb := bestScoreFor_le key.toList z2
    omega
  have hpos : 0 < zoneScore key.toList z1 := by rw [hs1]; omega
  have hL : filterTimezones A query =
      (sortDesc (scoredZones A key.toList)).map (fun p => p.1) := by
    simp only [filterTimezones, hq, hne]
    simp
  refine ⟨hs1, ?_, ?_⟩
  · rw [hL]
    refine List.mem_map.mpr ⟨(z1, zoneScore key.toList z1), ?_, rfl⟩
    rw [sortDesc_mem]
    rw [scoredZones_mem]
    exact ⟨hz1A, rfl, hpos⟩
  · rw [hL]
    intro i j hi hj h1 h2
    have hi2 : i < (sortDesc (scoredZones A key.toList)).length := by
      simpa using hi
    have hj2 : j < (sortDesc (scoredZones A key.toList)).length := by
      simpa using hj
    rw [List.get_map] at h1 h2
    have hei := (scoredZones_mem A key.toList _).mp
      ((sortDesc_mem _ _).mp (List.get_mem (sortDesc (scoredZones A key.toList)) i hi2))
    have hej := (scoredZones_mem A key.toList _).mp
      ((sortDesc_mem _ _).mp (List.get_mem (sortDesc (scoredZones A key.toList)) j hj2))
    rw [h1] at hei
    rw [h2] at hej
    by_contra hn
    push_neg at hn
    rcases lt_or_eq_of_le hn with hji | hji
    · have hsorted := List.pairwise_iff_get.mp (sortDesc_pairwise (scoredZones A key.toList))
        ⟨j, hj2⟩ ⟨i, hi2⟩ hji
      rw [hei.2.1, hej.2.1] at hsorted
      omega
    · subst hji
      have e12 : z1 = z2 := by rw [← h1, ← h2]
      exact hz2 (e12 ▸ hz1)

theorem filterTimezones_abbrev_ranking_witness :
    zoneScore "aedt".toList "Australia/Sydney" =
      bestScoreFor "aedt".toList "Australia/Sydney" + 50 ∧
    "Australia/Sydney" ∈ filterTimezones
      ["UTC", "Australia/Sydney", "Australia/Perth", "Australia/Melbourne"] "aedt".toList ∧
    ∀ (i j : Nat)
      (hi : i < (filterTimezones
        ["UTC", "Australia/Sydney", "Australia/Perth", "Australia/Melbourne"]
        "aedt".toList).length)
      (hj : j < (filterTimezones
        ["UTC", "Australia/Sydney", "Australia/Perth", "Australia/Melbourne"]
        "aedt".toList).length),
      (filterTimezones ["UTC", "Australia/Sydney", "Australia/Perth", "Australia/Melbourne"]
        "aedt".toList).get ⟨i, hi⟩ = "Australia/Sydney" →
      (filterTimezones ["UTC", "Australia/Sydney", "Australia/Perth", "Australia/Melbourne"]
        "aedt".toList).get ⟨j, hj⟩ = "Australia/Perth" → i < j :=
  filterTimezones_abbrev_ranking
    ["UTC", "Australia/Sydney", "Australia/Perth", "Australia/Melbourne"] "aedt".toList
    "aedt" ["Australia/Sydney", "Australia/Melbourne"] "Australia/Sydney" "Australia/Perth"
    (by decide) (by decide) (by decide) (by decide) (by decide)

theorem charOfNat_toNat {n : Nat} (h : n < 55296) : (Char.ofNat n).toNat = n := by
  unfold Char.ofNat
  rw [dif_pos]
  · rfl
  · constructor
    omega

theorem char_eq_of_toNat_eq {c d : Char} (h : c.toNat = d.toNat) : c = d := by
  have h1 := Char.ofNat_toNat c
  have h2 := Char.ofNat_toNat d
  rw [← h1, ← h2, h]

theorem isWsChar_false_of_ge {c : Char} (h : 33 ≤ c.toNat) : isWsChar c = false := by
  simp only [isWsChar, Bool.or_eq_false_iff]
  refine ⟨⟨⟨⟨⟨?_, ?_⟩, ?_⟩, ?_⟩, ?_⟩, ?_⟩ <;>
    exact beq_eq_false_iff_ne.mpr (fun he => by subst he; exact absurd h (by decide))

theorem toUpperChar_digit {c : Char} (h : isDigitChar c = true) : toUpperChar c = c := by
  have hf := (digit_facts h).2.2.2.2
  unfold toUpperChar
  rw [if_neg]
  omega

theorem toUpperChar_nonalpha {c : Char} (h : isAlphaChar c = false) : toUpperChar c = c := by
  simp only [isAlphaChar, Bool.or_eq_false_iff, Bool.and_eq_false_iff,
    decide_eq_false_iff_not] at h
  unfold toUpperChar
  rw [if_neg]
  rcases h with ⟨h1, h2⟩
  rcases h2 with h2 | h2 <;> omega

theorem toUpperChar_of_toLowerChar {c lo up : Char} (hlo : lo.toNat = up.toNat + 32)
    (hup : 65 ≤ up.toNat) (hup2 : up.toNat ≤ 90)
    (h : toLowerChar c = lo) : toUpperChar c = up := by
  unfold toLowerChar at h
  unfold toUpperChar
  split at h
  · rename_i hr
    have ht : (Char.ofNat (c.toNat + 32)).toNat = c.toNat + 32 :=
      charOfNat_toNat (by omega)
    have hcv : c.toNat = up.toNat := by
      have := congrArg Char.toNat h
      rw [ht] at this
      omega
    rw [if_neg (by omega)]
    exact char_eq_of_toNat_eq hcv
  · rename_i hr
    subst h
    rw [if_pos (by omega)]
    have ht : (Char.ofNat (c.toNat - 32)).toNat = c.toNat - 32 :=
      charOfNat_toNat (by omega)
    refine char_eq_of_toNat_eq ?_
    rw [ht]
    omega

theorem toLowerChar_letter_facts {c lo : Char} (h : toLowerChar c = lo)
    (h97 : 97 ≤ lo.toNat) (h122 : lo.toNat ≤ 122) :
    isDigitChar c = false ∧ isAlphaChar c = true ∧ isWsChar c = false := by
  unfold toLowerChar at h
  split at h
  · rename_i hr
    refine ⟨?_, ?_, isWsChar_false_of_ge (by omega)⟩
    · simp only [isDigitChar, Bool.and_eq_false_iff, decide_eq_false_iff_not]
      omega
    · simp only [isAlphaChar, Bool.or_eq_true, Bool.and_eq_true, decide_eq_true_eq]
      left
      omega
  · subst h
    refine ⟨?_, ?_, isWsChar_false_of_ge (by omega)⟩
    · simp only [isDigitChar, Bool.and_eq_false_iff, decide_eq_false_iff_not]
      omega
    · simp only [isAlphaChar, Bool.or_eq_true, Bool.and_eq_true, decide_eq_true_eq]
      right
      exact ⟨by omega, by omega⟩

theorem listStartsWith_false_head {a b c : Char} (cs : Str) (hne : a ≠ c) :
    listStartsWith [a, b] (c :: cs) = false := by
  simp only [listStartsWith, Bool.and_eq_false_iff]
  left
  exact beq_eq_false_iff_ne.mpr hne

theorem hasSub2_skip {a b : Char} (ha : isAlphaChar a = true) :
    ∀ (pre rest : Str), (∀ c ∈ pre, isAlphaChar c = false) →
      hasSub [a, b] (pre ++ rest) = hasSub [a, b] rest := by
  intro pre
  induction pre with
  | nil => intro rest _; rfl
  | cons c cs ih =>
    intro rest hpre
    simp only [List.cons_append, hasSub]
    have hne : a ≠ c := fun he => by
      rw [he] at ha
      rw [hpre c (by simp)] at ha
      cases ha
    rw [listStartsWith_false_head _ hne]
    simp only [Bool.false_or]
    exact ih rest (fun x hx => hpre x (by simp [hx]))

theorem dropWhile_all_append {p : Char → Bool} (w : Str) (a : Char) (r : Str)
    (hw : ∀ c ∈ w, p c = true) (ha : p a = false) :
    List.dropWhile p (w ++ a :: r) = a :: r := by
  induction w with
  | nil => simp [List.dropWhile, ha]
  | cons c cs ih =>
    simp only [List.cons_append, List.dropWhile, hw c (by simp)]
    exact ih (fun x hx => hw x (by simp [hx]))

theorem amPmAt_none_head {c : Char} (cs : Str) (hws : isWsChar c = false)
    (hca : toLowerChar c ≠ 'a') (hcp : toLowerChar c ≠ 'p') : amPmAt (c :: cs) = none := by
  unfold amPmAt
  rw [show List.dropWhile isWsChar (c :: cs) = c :: cs from by simp [List.dropWhile, hws]]
  cases cs with
  | nil => rfl
  | cons p r =>
    exact if_neg (by
      simp only [Bool.and_eq_true, Bool.or_eq_true, beq_iff_eq]
      intro hcond
      rcases hcond.1 with h | h
      · exact hca h
      · exact hcp h)

theorem amPmAt_match (wsp : Str) (a1 a2 : Char)
    (hwsp : ∀ c ∈ wsp, isWsChar c = true)
    (ha1 : toLowerChar a1 = 'a' ∨ toLowerChar a1 = 'p') (ha2 : toLowerChar a2 = 'm') :
    amPmAt (wsp ++ a1 :: [a2]) = some [] := by
  have hf1 : isWsChar a1 = false := by
    rcases ha1 with h | h
    · exact (toLowerChar_letter_facts h (by decide) (by decide)).2.2
    · exact (toLowerChar_letter_facts h (by decide) (by decide)).2.2
  unfold amPmAt
  rw [dropWhile_all_append wsp a1 [a2] hwsp hf1]
  exact if_pos (by
    simp only [Bool.and_eq_true, Bool.or_eq_true, beq_iff_eq]
    exact ⟨ha1, ha2⟩)

theorem removeAmPm_cons_eq (c : Char) (cs : Str) :
    removeAmPm (c :: cs) =
      match amPmAt (c :: cs) with
      | some rest => rest
      | none => c :: removeAmPm cs := rfl

theorem removeAmPm_concat (pre wsp : Str) (a1 a2 : Char)
    (hpre : ∀ c ∈ pre, isDigitChar c = true ∨ c = ':')
    (hwsp : ∀ c ∈ wsp, isWsChar c = true)
    (ha1 : toLowerChar a1 = 'a' ∨ toLowerChar a1 = 'p') (ha2 : toLowerChar a2 = 'm') :
    removeAmPm (pre ++ (wsp ++ a1 :: [a2])) = pre := by
  induction pre with
  | nil =>
    simp only [List.nil_append]
    cases wsp with
    | nil =>
      have hm := amPmAt_match [] a1 a2 (by simp) ha1 ha2
      simp only [List.nil_append] at hm ⊢
      rw [removeAmPm_cons_eq, hm]
    | cons w ws =>
      have hm := amPmAt_match (w :: ws) a1 a2 hwsp ha1 ha2
      simp only [List.cons_append] at hm
      simp only [List.cons_append]
      rw [removeAmPm_cons_eq, hm]
  | cons c cs ih =>
    have hhead : amPmAt (c :: (cs ++ (wsp ++ a1 :: [a2]))) = none := by
      rcases hpre c (by simp) with hd | hc
      · have hf := digit_facts hd
        refine amPmAt_none_head _ hf.1 ?_ ?_
        · rw [toLowerChar_digit hd]
          intro he
          subst he
          exact absurd hd (by decide)
        · rw [toLowerChar_digit hd]
          intro he
          subst he
          exact absurd hd (by decide)
      · subst hc
        exact amPmAt_none_head _ (by decide) (by decide) (by decide)
    simp only [List.cons_append]
    rw [removeAmPm_cons_eq, hhead]
    rw [ih (fun x hx => hpre x (by simp [hx]))]

theorem jsTrim_eq_self {c d : Char} (mid : Str) (hc : isWsChar c = false)
    (hd : isWsChar d = false) : jsTrim (c :: (mid ++ [d])) = c :: (mid ++ [d]) := by
  unfold jsTrim
  rw [show List.dropWhile isWsChar (c :: (mid ++ [d])) = c :: (mid ++ [d]) from by
    simp [List.dropWhile, hc]]
  rw [show (c :: (mid ++ [d])).reverse = d :: (mid.reverse ++ [c]) from by simp]
  rw [show List.dropWhile isWsChar (d :: (mid.reverse ++ [c])) = d :: (mid.reverse ++ [c])
    from by simp [List.dropWhile, hd]]
  simp

theorem consTok_ws_merge {c : Char} (hc1 : isDigitChar c = false) (hc2 : isAlphaChar c = false)
    (hc3 : isWsChar c = true) (ws : Str) (r : List Tok) :
    consTok c (.ws ws :: r) = .ws (c :: ws) :: r := by
  simp [consTok, hc1, hc2, hc3]

theorem tokenize_ws_append (w rest : Str) (h1 : w ≠ [])
    (h2 : ∀ c ∈ w, isDigitChar c = false ∧ isAlphaChar c = false ∧ isWsChar c = true)
    (h3 : tokHeadWs (tokenize rest) = false) :
    tokenize (w ++ rest) = .ws w :: tokenize rest := by
  induction w with
  | nil => exact absurd rfl h1
  | cons c cs ih =>
    cases cs with
    | nil =>
      simp only [List.cons_append, List.nil_append, tokenize]
      exact consTok_ws_new (h2 c (by simp)).1 (h2 c (by simp)).2.1 (h2 c (by simp)).2.2 _ h3
    | cons c2 cs2 =>
      rw [show (c :: c2 :: cs2) ++ rest = c :: ((c2 :: cs2) ++ rest) from rfl]
      rw [show tokenize (c :: ((c2 :: cs2) ++ rest)) =
        consTok c (tokenize ((c2 :: cs2) ++ rest)) from rfl]
      rw [ih (by simp) (fun x hx => h2 x (List.mem_cons_of_mem c hx))]
      exact consTok_ws_merge (h2 c (by simp)).1 (h2 c (by simp)).2.1 (h2 c (by simp)).2.2 _ _

theorem digitsValD_pad2 {n : Nat} (h : n < 100) :
    digitsValD (padStart 2 '0' (jsIntToString (n : Int))) = n := by
  rw [pad2_eq h]
  simp only [digitsValD, List.foldl_cons, List.foldl_nil]
  rw [show digitVal (Char.ofNat (48 + n / 10)) = n / 10 from digitChar_val (by omega)]
  rw [show digitVal (Char.ofNat (48 + n % 10)) = n % 10 from digitChar_val (by omega)]
  omega

theorem year4_spec {n : Nat} (h1 : 1000 ≤ n) (h2 : n < 10000) :
    jsIntToString (n : Int) ≠ [] ∧ (∀ c ∈ jsIntToString (n : Int), isDigitChar c = true) ∧
      (jsIntToString (n : Int)).length = 4 ∧ digitsValD (jsIntToString (n : Int)) = n := by
  have hnn : ¬ ((n : Int) < 0) := by omega
  simp only [jsIntToString, if_neg hnn, Int.toNat_natCast]
  rw [natToString_four h1 (by omega)]
  refine ⟨by simp, ?_, by simp, ?_⟩
  · intro c hc
    simp only [List.mem_cons, List.not_mem_nil, or_false] at hc
    rcases hc with rfl | rfl | rfl | rfl <;> exact digitChar_isDigit (by omega)
  · simp only [digitsValD, List.foldl_cons, List.foldl_nil]
    rw [show digitVal (Char.ofNat (48 + n / 1000)) = n / 1000 from digitChar_val (by omega)]
    rw [show digitVal (Char.ofNat (48 + n / 100 % 10)) = n / 100 % 10 from
      digitChar_val (by omega)]
    rw [show digitVal (Char.ofNat (48 + n / 10 % 10)) = n / 10 % 10 from
      digitChar_val (by omega)]
    rw [show digitVal (Char.ofNat (48 + n % 10)) = n % 10 from digitChar_val (by omega)]
    omega

theorem daysInMonth_le31 (y mo : Int) : daysInMonth y mo ≤ 31 := by
  unfold daysInMonth
  split_ifs <;> omega

theorem daysInMonth_pos (y mo : Int) : 1 ≤ daysInMonth y mo := by
  unfold daysInMonth
  split_ifs <;> omega

theorem mkISOTime_in_range (y mo d h mi s : Int)
    (hy1 : 1000 ≤ y) (hy2 : y ≤ 9999)
    (hmo1 : 1 ≤ mo) (hmo2 : mo ≤ 12)
    (hd1 : 1 ≤ d) (hd2 : d ≤ daysInMonth y mo)
    (hh1 : 0 ≤ h) (hh2 : h ≤ 23)
    (hmi1 : 0 ≤ mi) (hmi2 : mi ≤ 59)
    (hs1 : 0 ≤ s) (hs2 : s ≤ 59) :
    mkISOTime y mo d h mi s 0 0 = some (utcMsOfFields y mo d h mi s 0) := by
  unfold mkISOTime
  rw [if_pos (by
    simp only [isoFieldsValid, Bool.and_eq_true, Bool.or_eq_true, decide_eq_true_eq,
      beq_iff_eq]
    omega)]
  rw [show utcMsOfFields y mo d h mi s 0 - 0 * 60000 = utcMsOfFields y mo d h mi s 0 from
    by ring]
  exact timeClip_of_le (utcMsOfFields_bound (by omega) (by omega) hmo1 hmo2 hd1
    (le_trans hd2 (daysInMonth_le31 y mo)) hh1 (by omega) hmi1 (by omega) hs1 (by omega)
    (by omega) (by omega))

theorem tokenize_isoString (y mo d h mi s : Str)
    (hy1 : y ≠ []) (hy2 : ∀ c ∈ y, isDigitChar c = true)
    (hmo1 : mo ≠ []) (hmo2 : ∀ c ∈ mo, isDigitChar c = true)
    (hd1 : d ≠ []) (hd2 : ∀ c ∈ d, isDigitChar c = true)
    (hh1 : h ≠ []) (hh2 : ∀ c ∈ h, isDigitChar c = true)
    (hmi1 : mi ≠ []) (hmi2 : ∀ c ∈ mi, isDigitChar c = true)
    (hs1 : s ≠ []) (hs2 : ∀ c ∈ s, isDigitChar c = true) :
    tokenize (y ++ '-' :: mo ++ '-' :: d ++ 'T' :: h ++ ':' :: mi ++ ':' :: s ++ ['Z']) =
      [.digits y, .sym '-', .digits mo, .sym '-', .digits d, .letters ['T'],
       .digits h, .sym ':', .digits mi, .sym ':', .digits s, .letters ['Z']] := by
  simp only [List.append_assoc, List.cons_append]
  have t1 : tokenize (s ++ ['Z']) = .digits s :: [.letters ['Z']] :=
    tokenize_digits_append s ['Z'] hs1 hs2 (by decide)
  have t2 : tokenize (':' :: (s ++ ['Z'])) = .sym ':' :: .digits s :: [.letters ['Z']] := by
    rw [tokenize_sym_cons (c := ':') (by decide) (by decide) (by decide), t1]
  have t3 : tokenize (mi ++ ':' :: (s ++ ['Z'])) =
      .digits mi :: .sym ':' :: .digits s :: [.letters ['Z']] := by
    rw [tokenize_digits_append mi (':' :: (s ++ ['Z'])) hmi1 hmi2
      (by rw [tokHeadDigits_tokenize_cons]; decide), t2]
  have t4 : tokenize (':' :: (mi ++ ':' :: (s ++ ['Z']))) =
      .sym ':' :: .digits mi :: .sym ':' :: .digits s :: [.letters ['Z']] := by
    rw [tokenize_sym_cons (c := ':') (by decide) (by decide) (by decide), t3]
  have t5 : tokenize (h ++ ':' :: (mi ++ ':' :: (s ++ ['Z']))) =
      .digits h :: .sym ':' :: .digits mi :: .sym ':' :: .digits s :: [.letters ['Z']] := by
    rw [tokenize_digits_append h (':' :: (mi ++ ':' :: (s ++ ['Z']))) hh1 hh2
      (by rw [tokHeadDigits_tokenize_cons]; decide), t4]
  have t6 : tokenize ('T' :: (h ++ ':' :: (mi ++ ':' :: (s ++ ['Z'])))) =
      .letters ['T'] :: .digits h :: .sym ':' :: .digits mi :: .sym ':' :: .digits s ::
        [.letters ['Z']] := by
    have := tokenize_letters_append ['T'] (h ++ ':' :: (mi ++ ':' :: (s ++ ['Z'])))
      (by simp) (by intro c hc; simp at hc; subst hc; exact ⟨by decide, by decide⟩)
      (by rw [t5]; rfl)
    simp only [List.cons_append, List.nil_append] at this
    rw [this, t5]
  have t7 : tokenize (d ++ 'T' :: (h ++ ':' :: (mi ++ ':' :: (s ++ ['Z'])))) =
      .digits d :: .letters ['T'] :: .digits h :: .sym ':' :: .digits mi :: .sym ':' ::
        .digits s :: [.letters ['Z']] := by
    rw [tokenize_digits_append d ('T' :: (h ++ ':' :: (mi ++ ':' :: (s ++ ['Z'])))) hd1 hd2
      (by rw [tokHeadDigits_tokenize_cons]; decide), t6]
  have t8 : tokenize ('-' :: (d ++ 'T' :: (h ++ ':' :: (mi ++ ':' :: (s ++ ['Z']))))) =
      .sym '-' :: .digits d :: .letters ['T'] :: .digits h :: .sym ':' :: .digits mi ::
        .sym ':' :: .digits s :: [.letters ['Z']] := by
    rw [tokenize_sym_cons (c := '-') (by decide) (by decide) (by decide), t7]
  have t9 : tokenize (mo ++ '-' :: (d ++ 'T' :: (h ++ ':' :: (mi ++ ':' :: (s ++ ['Z']))))) =
      .digits mo :: .sym '-' :: .digits d :: .letters ['T'] :: .digits h :: .sym ':' ::
        .digits mi :: .sym ':' :: .digits s :: [.letters ['Z']] := by
    rw [tokenize_digits_append mo
      ('-' :: (d ++ 'T' :: (h ++ ':' :: (mi ++ ':' :: (s ++ ['Z'])))))
      hmo1 hmo2 (by rw [tokHeadDigits_tokenize_cons]; decide), t8]
  have t10 : tokenize ('-' :: (mo ++ '-' :: (d ++ 'T' :: (h ++ ':' :: (mi ++ ':' ::
      (s ++ ['Z'])))))) =
      .sym '-' :: .digits mo :: .sym '-' :: .digits d :: .letters ['T'] :: .digits h ::
        .sym ':' :: .digits mi :: .sym ':' :: .digits s :: [.letters ['Z']] := by
    rw [tokenize_sym_cons (c := '-') (by decide) (by decide) (by decide), t9]
  have t11 := tokenize_digits_append y
    ('-' :: (mo ++ '-' :: (d ++ 'T' :: (h ++ ':' :: (mi ++ ':' :: (s ++ ['Z'])))))) hy1 hy2
    (by rw [tokHeadDigits_tokenize_cons]; decide)
  exact t11.trans (by rw [t10])

theorem readISO_full (y mo d h mi s : Int)
    (hy1 : 1000 ≤ y) (hy2 : y ≤ 9999)
    (hmo1 : 1 ≤ mo) (hmo2 : mo ≤ 12)
    (hd1 : 1 ≤ d) (hd2 : d ≤ daysInMonth y mo)
    (hh1 : 0 ≤ h) (hh2 : h ≤ 23)
    (hmi1 : 0 ≤ mi) (hmi2 : mi ≤ 59)
    (hs1 : 0 ≤ s) (hs2 : s ≤ 59) :
    readISO (jsIntToString y ++ '-' :: padStart 2 '0' (jsIntToString mo) ++
        '-' :: padStart 2 '0' (jsIntToString d) ++ 'T' :: padStart 2 '0' (jsIntToString h) ++
        ':' :: padStart 2 '0' (jsIntToString mi) ++ ':' :: padStart 2 '0' (jsIntToString s) ++
        ['Z']) =
      some (utcMsOfFields y mo d h mi s 0) := by
  obtain ⟨ny, rfl⟩ : ∃ n : Nat, y = (n : Int) := ⟨y.toNat, by omega⟩
  obtain ⟨nmo, rfl⟩ : ∃ n : Nat, mo = (n : Int) := ⟨mo.toNat, by omega⟩
  obtain ⟨nd, rfl⟩ : ∃ n : Nat, d = (n : Int) := ⟨d.toNat, by omega⟩
  obtain ⟨nh, rfl⟩ : ∃ n : Nat, h = (n : Int) := ⟨h.toNat, by omega⟩
  obtain ⟨nmi, rfl⟩ : ∃ n : Nat, mi = (n : Int) := ⟨mi.toNat, by omega⟩
  obtain ⟨ns, rfl⟩ : ∃ n : Nat, s = (n : Int) := ⟨s.toNat, by omega⟩
  have hyN : 1000 ≤ ny ∧ ny < 10000 := by omega
  have hmoN : nmo < 100 := by omega
  have hdN : nd < 100 := by
    have := daysInMonth_le31 (ny : Int) (nmo : Int)
    omega
  have hhN : nh < 100 := by omega
  have hmiN : nmi < 100 := by omega
  have hsN : ns < 100 := by omega
  obtain ⟨hy_ne, hy_dig, hy_len, hy_val⟩ := year4_spec hyN.1 hyN.2
  have htok := tokenize_isoString (jsIntToString (ny : Int))
    (padStart 2 '0' (jsIntToString (nmo : Int))) (padStart 2 '0' (jsIntToString (nd : Int)))
    (padStart 2 '0' (jsIntToString (nh : Int))) (padStart 2 '0' (jsIntToString (nmi : Int)))
    (padStart 2 '0' (jsIntToString (ns : Int)))
    hy_ne hy_dig
    (pad2_ne_nil hmoN) (pad2_digits hmoN)
    (pad2_ne_nil hdN) (pad2_digits hdN)
    (pad2_ne_nil hhN) (pad2_digits hhN)
    (pad2_ne_nil hmiN) (pad2_digits hmiN)
    (pad2_ne_nil hsN) (pad2_digits hsN)
  simp only [readISO, htok]
  rw [if_pos (by
    refine ⟨hy_len, pad2_len hmoN, pad2_len hdN, by decide, pad2_len hhN, pad2_len hmiN⟩)]
  simp only [readISOTail]
  rw [if_pos (pad2_len hsN)]
  simp only [readISOFracZone, readISOZoneEnd]
  rw [if_pos (by decide)]
  rw [hy_val, digitsValD_pad2 hmoN, digitsValD_pad2 hdN, digitsValD_pad2 hhN,
    digitsValD_pad2 hmiN, digitsValD_pad2 hsN]
  exact mkISOTime_in_range _ _ _ _ _ _ (by omega) (by omega) hmo1 hmo2 hd1 hd2 hh1 hh2
    hmi1 hmi2 hs1 hs2

theorem digit_ne_colon {c : Char} (h : isDigitChar c = true) : (c == ':') = false :=
  beq_eq_false_iff_ne.mpr (fun he => by subst he; exact absurd h (by decide))

theorem parseTimeOnly_eval (now : Int) (hh mm : Str) (secPart : Option Str) (wsp : Str)
    (a1 a2 : Char) (pm : Bool)
    (hhh1 : hh ≠ []) (hhh2 : ∀ c ∈ hh, isDigitChar c = true)
    (hmm1 : mm.length = 2) (hmm2 : ∀ c ∈ mm, isDigitChar c = true)
    (hss : ∀ ss, secPart = some ss → ss.length = 2 ∧ ∀ c ∈ ss, isDigitChar c = true)
    (hwsp : ∀ c ∈ wsp, isDigitChar c = false ∧ isAlphaChar c = false ∧ isWsChar c = true)
    (ha1 : toLowerChar a1 = (if pm then 'p' else 'a')) (ha2 : toLowerChar a2 = 'm') :
    parseTimeOnly now (hh ++ ':' :: (mm ++
        ((match secPart with | some ss => ':' :: ss | none => []) ++ (wsp ++ [a1, a2])))) =
      timeOnlyFinish (jsIntToString (utcFieldsOfTime now).year ++
          '-' :: padStart 2 '0' (jsIntToString (utcFieldsOfTime now).month) ++
          '-' :: padStart 2 '0' (jsIntToString (utcFieldsOfTime now).day))
        (adjustAmPm (!pm) pm ((digitsValD hh : Nat) : Int))
        ((digitsValD mm : Nat) : Int)
        (((match secPart with | some ss => digitsValD ss | none => 0) : Nat) : Int) := by
  have hmm0 : mm ≠ [] := by
    intro he
    rw [he] at hmm1
    simp at hmm1
  have ha1d : toLowerChar a1 = 'a' ∨ toLowerChar a1 = 'p' := by
    cases pm
    · exact Or.inl ha1
    · exact Or.inr ha1
  have hu1 : toUpperChar a1 = (if pm then 'P' else 'A') := by
    cases pm
    · exact toUpperChar_of_toLowerChar (by decide) (by decide) (by decide) ha1
    · exact toUpperChar_of_toLowerChar (by decide) (by decide) (by decide) ha1
  have hu2 : toUpperChar a2 = 'M' :=
    toUpperChar_of_toLowerChar (by decide) (by decide) (by decide) ha2
  have hPM : hasSub ['P', 'M'] [toUpperChar a1, toUpperChar a2] = pm := by
    rw [hu1, hu2]
    cases pm <;> decide
  have hAM : hasSub ['A', 'M'] [toUpperChar a1, toUpperChar a2] = !pm := by
    rw [hu1, hu2]
    cases pm <;> decide
  have hwsW : ∀ c ∈ wsp, isWsChar c = true := fun c hc => (hwsp c hc).2.2
  cases secPart with
  | none =>
    have hpre2 : ∀ c ∈ hh ++ ':' :: mm, isDigitChar c = true ∨ c = ':' := by
      intro c hc
      rcases List.mem_append.mp hc with hc2 | hc2
      · exact Or.inl (hhh2 c hc2)
      · rcases List.mem_cons.mp hc2 with rfl | hc3
        · exact Or.inr rfl
        · exact Or.inl (hmm2 c hc3)
    have hnonalpha : ∀ x ∈ (hh ++ ':' :: mm ++ wsp).map toUpperChar,
        isAlphaChar x = false := by
      intro x hx
      obtain ⟨c, hc, rfl⟩ := List.mem_map.mp hx
      simp only [List.append_assoc, List.mem_append, List.cons_append, List.mem_cons] at hc
      have hcna : isAlphaChar c = false := by
        rcases hc with hc2 | rfl | hc3 | hc4
        · exact (digit_facts (hhh2 c hc2)).2.1
        · decide
        · exact (digit_facts (hmm2 c hc3)).2.1
        · exact (hwsp c hc4).2.1
      rw [toUpperChar_nonalpha hcna]
      exact hcna
    have hmapsplit : (hh ++ ':' :: (mm ++ ([] ++ (wsp ++ [a1, a2])))).map toUpperChar =
        ((hh ++ ':' :: mm ++ wsp).map toUpperChar) ++ [toUpperChar a1, toUpperChar a2] := by
      simp only [List.map_append, List.map_cons, List.map_nil, List.nil_append,
        List.append_assoc, List.cons_append]
    have hrem : removeAmPm (hh ++ ':' :: (mm ++ ([] ++ (wsp ++ [a1, a2])))) =
        hh ++ ':' :: mm := by
      rw [show hh ++ ':' :: (mm ++ ([] ++ (wsp ++ [a1, a2]))) =
        (hh ++ ':' :: mm) ++ (wsp ++ a1 :: [a2]) from by simp]
      exact removeAmPm_concat _ _ _ _ hpre2 hwsW ha1d ha2
    have htrim : jsTrim (hh ++ ':' :: mm) = hh ++ ':' :: mm := by
      refine jsTrim_no_ws ?_
      intro c hc
      rcases hpre2 c hc with hd | hc2
      · exact (digit_facts hd).1
      · subst hc2
        decide
    have hsplit : splitOnChar ':' (hh ++ ':' :: mm) = [hh, mm] := by
      rw [splitOnChar_append (fun x hx => digit_ne_colon (hhh2 x hx))]
      rw [splitOnChar_single (fun x hx => digit_ne_colon (hmm2 x hx))]
    simp only [parseTimeOnly, hmapsplit, hrem, htrim, hsplit]
    rw [show hasSub "PM".toList
        (((hh ++ ':' :: mm ++ wsp).map toUpperChar) ++ [toUpperChar a1, toUpperChar a2]) =
        pm from by
      rw [show "PM".toList = ['P', 'M'] from rfl]
      rw [hasSub2_skip (by decide) _ _ hnonalpha]
      exact hPM]
    rw [show hasSub "AM".toList
        (((hh ++ ':' :: mm ++ wsp).map toUpperChar) ++ [toUpperChar a1, toUpperChar a2]) =
        !pm from by
      rw [show "AM".toList = ['A', 'M'] from rfl]
      rw [hasSub2_skip (by decide) _ _ hnonalpha]
      exact hAM]
    simp only [List.getD, List.get?, Option.getD_some]
    rw [jsParseInt_digits hhh1 hhh2, jsParseInt_digits hmm0 hmm2]
    rfl
  | some ss =>
    obtain ⟨s1, s2, rfl⟩ : ∃ u v, ss = [u, v] :=
      List.length_eq_two.mp (hss ss rfl).1
    have hssd : ∀ c ∈ [s1, s2], isDigitChar c = true := (hss [s1, s2] rfl).2
    have hpre2 : ∀ c ∈ hh ++ ':' :: (mm ++ ':' :: [s1, s2]), isDigitChar c = true ∨ c = ':' := by
      intro c hc
      rcases List.mem_append.mp hc with hc2 | hc2
      · exact Or.inl (hhh2 c hc2)
      · rcases List.mem_cons.mp hc2 with rfl | hc3
        · exact Or.inr rfl
        · rcases List.mem_append.mp hc3 with hc4 | hc4
          · exact Or.inl (hmm2 c hc4)
          · rcases List.mem_cons.mp hc4 with rfl | hc5
            · exact Or.inr rfl
            · exact Or.inl (hssd c hc5)
    have hnonalpha : ∀ x ∈ (hh ++ ':' :: (mm ++ ':' :: [s1, s2]) ++ wsp).map toUpperChar,
        isAlphaChar x = false := by
      intro x hx
      obtain ⟨c, hc, rfl⟩ := List.mem_map.mp hx
      have hcna : isAlphaChar c = false := by
        rcases List.mem_append.mp hc with hc2 | hc2
        · rcases hpre2 c hc2 with hd | hcol
          · exact (digit_facts hd).2.1
          · subst hcol
            decide
        · exact (hwsp c hc2).2.1
      rw [toUpperChar_nonalpha hcna]
      exact hcna
    have hmapsplit : (hh ++ ':' :: (mm ++ (':' :: [s1, s2] ++ (wsp ++ [a1, a2])))).map
          toUpperChar =
        ((hh ++ ':' :: (mm ++ ':' :: [s1, s2]) ++ wsp).map toUpperChar) ++
          [toUpperChar a1, toUpperChar a2] := by
      simp only [List.map_append, List.map_cons, List.map_nil, List.nil_append,
        List.append_assoc, List.cons_append]
    have hrem : removeAmPm (hh ++ ':' :: (mm ++ (':' :: [s1, s2] ++ (wsp ++ [a1, a2])))) =
        hh ++ ':' :: (mm ++ ':' :: [s1, s2]) := by
      rw [show hh ++ ':' :: (mm ++ (':' :: [s1, s2] ++ (wsp ++ [a1, a2]))) =
        (hh ++ ':' :: (mm ++ ':' :: [s1, s2])) ++ (wsp ++ a1 :: [a2]) from by simp]
      exact removeAmPm_concat _ _ _ _ hpre2 hwsW ha1d ha2
    have htrim : jsTrim (hh ++ ':' :: (mm ++ ':' :: [s1, s2])) =
        hh ++ ':' :: (mm ++ ':' :: [s1, s2]) := by
      refine jsTrim_no_ws ?_
      intro c hc
      rcases hpre2 c hc with hd | hc2
      · exact (digit_facts hd).1
      · subst hc2
        decide
    have hsplit : splitOnChar ':' (hh ++ ':' :: (mm ++ ':' :: [s1, s2])) =
        [hh, mm, [s1, s2]] := by
      rw [splitOnChar_append (fun x hx => digit_ne_colon (hhh2 x hx))]
      rw [splitOnChar_append (fun x hx => digit_ne_colon (hmm2 x hx))]
      rw [splitOnChar_single (fun x hx => digit_ne_colon (hssd x hx))]
    simp only [parseTimeOnly, hmapsplit, hrem, htrim, hsplit]
    rw [show hasSub "PM".toList
        (((hh ++ ':' :: (mm ++ ':' :: [s1, s2]) ++ wsp).map toUpperChar) ++
          [toUpperChar a1, toUpperChar a2]) = pm from by
      rw [show "PM".toList = ['P', 'M'] from rfl]
      rw [hasSub2_skip (by decide) _ _ hnonalpha]
      exact hPM]
    rw [show hasSub "AM".toList
        (((hh ++ ':' :: (mm ++ ':' :: [s1, s2]) ++ wsp).map toUpperChar) ++
          [toUpperChar a1, toUpperChar a2]) = !pm from by
      rw [show "AM".toList = ['A', 'M'] from rfl]
      rw [hasSub2_skip (by decide) _ _ hnonalpha]
      exact hAM]
    simp only [List.getD, List.get?, Option.getD_some]
    rw [jsParseInt_digits hhh1 hhh2, jsParseInt_digits hmm0 hmm2,
      jsParseInt_digits (by simp) hssd]

theorem timeOnlyFinish_in_range (y mo d h m sec : Int)
    (hy1 : 1000 ≤ y) (hy2 : y ≤ 9999) (hmo1 : 1 ≤ mo) (hmo2 : mo ≤ 12)
    (hd1 : 1 ≤ d) (hd2 : d ≤ daysInMonth y mo)
    (hh1 : 0 ≤ h) (hh2 : h ≤ 23) (hm1 : 0 ≤ m) (hm2 : m ≤ 59)
    (hs1 : 0 ≤ sec) (hs2 : sec ≤ 59) :
    timeOnlyFinish (jsIntToString y ++ '-' :: padStart 2 '0' (jsIntToString mo) ++
        '-' :: padStart 2 '0' (jsIntToString d)) h m sec =
      .date (some (utcMsOfFields y mo d h m sec 0)) := by
  unfold timeOnlyFinish
  rw [if_neg (by omega)]
  rw [readISO_full y mo d h m sec hy1 hy2 hmo1 hmo2 hd1 hd2 hh1 hh2 hm1 hm2 hs1 hs2]
  rfl

theorem timeOnlyFinish_out_of_range (dateStr : Str) (h m sec : Int)
    (hout : 23 < h ∨ 59 < m ∨ 59 < sec ∨ h < 0 ∨ m < 0 ∨ sec < 0) :
    timeOnlyFinish dateStr h m sec = .null := by
  unfold timeOnlyFinish
  rw [if_pos (by omega)]

theorem detect_timeOnly_some (lp : LooseParse) (mode : DateMode) (now : Int) (txt : Str)
    (v : Int)
    (htrim : jsTrim txt = txt) (hne : txt.isEmpty = false)
    (hrel : testRelative txt = false)
    (t1 : testUnixMs txt = false) (t2 : testUnixS txt = false) (t3 : testISO txt = false)
    (t4 : testCompactISO txt = false) (t5 : testRFC txt = false) (t6 : testSQL txt = false)
    (t7 : testDateISO txt = false) (t8 : testCompactDate txt = false)
    (t9 : testSlashDate txt = false) (t10 : testSlashDateTime txt = false)
    (t11 : testSlashYMD txt = false) (t12 : testDotDate txt = false)
    (t13 : testDashDMY txt = false) (t14 : testDayMonYear txt = false)
    (t15 : testMonDD txt = false) (t16 : testTimeOnly txt = true)
    (hp : parseTimeOnly now txt = .date (some v)) :
    parseTimestamp lp mode now txt = some (v, "Time only") := by
  simp only [parseTimestamp, htrim, hne, FORMATS, runFormats, hrel, t1, t2, t3, t4, t5, t6,
    t7, t8, t9, t10, t11, t12, t13, t14, t15, t16]
  simp [hp]

theorem detect_timeOnly_none (lp : LooseParse) (mode : DateMode) (now : Int) (txt : Str)
    (htrim : jsTrim txt = txt) (hne : txt.isEmpty = false)
    (hrel : testRelative txt = false)
    (t1 : testUnixMs txt = false) (t2 : testUnixS txt = false) (t3 : testISO txt = false)
    (t4 : testCompactISO txt = false) (t5 : testRFC txt = false) (t6 : testSQL txt = false)
    (t7 : testDateISO txt = false) (t8 : testCompactDate txt = false)
    (t9 : testSlashDate txt = false) (t10 : testSlashDateTime txt = false)
    (t11 : testSlashYMD txt = false) (t12 : testDotDate txt = false)
    (t13 : testDashDMY txt = false) (t14 : testDayMonYear txt = false)
    (t15 : testMonDD txt = false) (t16 : testTimeOnly txt = true)
    (hp : parseTimeOnly now txt = .null) :
    parseTimestamp lp mode now txt = none := by
  simp only [parseTimestamp, htrim, hne, FORMATS, runFormats, hrel, t1, t2, t3, t4, t5, t6,
    t7, t8, t9, t10, t11, t12, t13, t14, t15, t16]
  simp [hp]

theorem shape_excls_colon (a : Str) (R : List Tok) :
    shapeUnixMs (.digits a :: .sym ':' :: R) = false ∧
    shapeUnixS (.digits a :: .sym ':' :: R) = false ∧
    shapeISO (.digits a :: .sym ':' :: R) = false ∧
    shapeCompactISO (.digits a :: .sym ':' :: R) = false ∧
    shapeRFC (.digits a :: .sym ':' :: R) = false ∧
    shapeSQL (.digits a :: .sym ':' :: R) = false ∧
    shapeDateISO (.digits a :: .sym ':' :: R) = false ∧
    shapeCompactDate (.digits a :: .sym ':' :: R) = false ∧
    shapeSlashDate (.digits a :: .sym ':' :: R) = false ∧
    shapeSlashDateTime (.digits a :: .sym ':' :: R) = false ∧
    shapeSlashYMD (.digits a :: .sym ':' :: R) = false ∧
    shapeDotDate (.digits a :: .sym ':' :: R) = false ∧
    shapeDashDMY (.digits a :: .sym ':' :: R) = false ∧
    shapeDayMonYear (.digits a :: .sym ':' :: R) = false ∧
    shapeMonDD (.digits a :: .sym ':' :: R) = false :=
  ⟨rfl, rfl, rfl, rfl, rfl, rfl, rfl, rfl, rfl, rfl, rfl, rfl, rfl, rfl, rfl⟩

/-- Claim C9: a time-only input `hh:mm[:ss]` carrying an AM/PM designator
(case-insensitively, optionally preceded by whitespace) is detected by the
`Time only` rule with hour 12 + AM mapped to 0, hour 12 + PM kept as 12,
and 12 added to any other hour under PM; whenever the resulting 24-hour
fields leave `hour ≤ 23`, `minute ≤ 59`, `second ≤ 59`, detection returns
NoMatch instead of wrapping. -/
theorem detect_timeOnly_ampm (lp : LooseParse) (mode : DateMode) (now : Int)
    (hh mm : Str) (secPart : Option Str) (wsp : Str) (a1 a2 : Char) (pm : Bool)
    (h0 m sec hr : Int)
    (hhh1 : hh ≠ []) (hhh1b : hh.length ≤ 2) (hhh2 : ∀ c ∈ hh, isDigitChar c = true)
    (hmm1 : mm.length = 2) (hmm2 : ∀ c ∈ mm, isDigitChar c = true)
    (hss : ∀ ss, secPart = some ss → ss.length = 2 ∧ ∀ c ∈ ss, isDigitChar c = true)
    (hwsp : ∀ c ∈ wsp, isDigitChar c = false ∧ isAlphaChar c = false ∧ isWsChar c = true)
    (ha1 : toLowerChar a1 = (if pm then 'p' else 'a')) (ha2 : toLowerChar a2 = 'm')
    (hyr1 : 1000 ≤ (utcFieldsOfTime now).year) (hyr2 : (utcFieldsOfTime now).year ≤ 9999)
    (hmo1 : 1 ≤ (utcFieldsOfTime now).month) (hmo2 : (utcFieldsOfTime now).month ≤ 12)
    (hdy1 : 1 ≤ (utcFieldsOfTime now).day)
    (hdy2 : (utcFieldsOfTime now).day ≤
      daysInMonth (utcFieldsOfTime now).year (utcFieldsOfTime now).month)
    (hv1 : h0 = ((digitsValD hh : Nat) : Int))
    (hv2 : m = ((digitsValD mm : Nat) : Int))
    (hv3 : sec = ((match secPart with
      | some ss => ((digitsValD ss : Nat) : Int)
      | none => 0) : Int))
    (hv4 : hr = if pm = false ∧ h0 = 12 then 0
      else if pm = true ∧ h0 ≠ 12 then h0 + 12 else h0) :
    (hr ≤ 23 → m ≤ 59 → sec ≤ 59 →
      parseTimestamp lp mode now (hh ++ ':' :: (mm ++
          ((match secPart with | some ss => ':' :: ss | none => []) ++ (wsp ++ [a1, a2])))) =
        some (utcMsOfFields (utcFieldsOfTime now).year (utcFieldsOfTime now).month
          (utcFieldsOfTime now).day hr m sec 0, "Time only")) ∧
    (23 < hr ∨ 59 < m ∨ 59 < sec →
      parseTimestamp lp mode now (hh ++ ':' :: (mm ++
          ((match secPart with | some ss => ':' :: ss | none => []) ++ (wsp ++ [a1, a2])))) =
        none) := by
  obtain ⟨c0, hh2, rfl⟩ : ∃ c0 t, hh = c0 :: t := by
    cases hh with
    | nil => exact absurd rfl hhh1
    | cons a b => exact ⟨a, b, rfl⟩
  have hc0 : isDigitChar c0 = true := hhh2 c0 (by simp)
  have hmm0 : mm ≠ [] := by
    intro he
    rw [he] at hmm1
    simp at hmm1
  have hlenhh : (c0 :: hh2).length ≤ 2 := hhh1b
  have ha1d : toLowerChar a1 = 'a' ∨ toLowerChar a1 = 'p' := by
    cases pm
    · exact Or.inl ha1
    · exact Or.inr ha1
  have hfa1 : isDigitChar a1 = false ∧ isAlphaChar a1 = true ∧ isWsChar a1 = false := by
    rcases ha1d with h | h
    · exact toLowerChar_letter_facts h (by decide) (by decide)
    · exact toLowerChar_letter_facts h (by decide) (by decide)
  have hfa2 : isDigitChar a2 = false ∧ isAlphaChar a2 = true ∧ isWsChar a2 = false :=
    toLowerChar_letter_facts ha2 (by decide) (by decide)
  have hlet : tokenize [a1, a2] = [.letters [a1, a2]] := by
    have := tokenize_letters_append [a1, a2] [] (by simp)
      (by
        intro c hc
        simp only [List.mem_cons, List.not_mem_nil, or_false] at hc
        rcases hc with rfl | rfl
        · exact ⟨hfa1.1, hfa1.2.1⟩
        · exact ⟨hfa2.1, hfa2.2.1⟩)
      (by rfl)
    simpa using this
  have htail2 : tokenize (wsp ++ [a1, a2]) = [.letters [a1, a2]] ∨
      tokenize (wsp ++ [a1, a2]) = [.ws wsp, .letters [a1, a2]] := by
    cases wsp with
    | nil =>
      left
      simpa using hlet
    | cons w ws =>
      right
      rw [tokenize_ws_append (w :: ws) [a1, a2] (by simp) hwsp (by rw [hlet]; rfl), hlet]
  have hndtail2 : tokHeadDigits (tokenize (wsp ++ [a1, a2])) = false := by
    rcases htail2 with h | h <;> rw [h] <;> rfl
  have hlowmap : List.map toLowerChar [a1, a2] = (if pm then "pm".toList else "am".toList) := by
    rw [show List.map toLowerChar [a1, a2] = [toLowerChar a1, toLowerChar a2] from rfl,
      ha1, ha2]
    cases pm <;> rfl
  have hAmPmLetters : shapeAmPm [Tok.letters [a1, a2]] = true := by
    show (List.map toLowerChar [a1, a2] == "am".toList ||
      List.map toLowerChar [a1, a2] == "pm".toList) = true
    rw [hlowmap]
    cases pm <;> decide
  have hAmPmWs : shapeAmPm [Tok.ws wsp, Tok.letters [a1, a2]] = true := by
    show (List.map toLowerChar [a1, a2] == "am".toList ||
      List.map toLowerChar [a1, a2] == "pm".toList) = true
    rw [hlowmap]
    cases pm <;> decide
  have hAmPmTail : shapeAmPm (tokenize (wsp ++ [a1, a2])) = true := by
    rcases htail2 with h | h <;> rw [h]
    · exact hAmPmLetters
    · exact hAmPmWs
  have hsecTail : shapeSecAmPm (tokenize (wsp ++ [a1, a2])) = true := by
    rcases htail2 with h | h <;> rw [h]
    · exact hAmPmLetters
    · exact hAmPmWs
  have h00 : 0 ≤ h0 := by
    rw [hv1]
    exact Int.natCast_nonneg _
  have hm0 : 0 ≤ m := by
    rw [hv2]
    exact Int.natCast_nonneg _
  have hr0 : 0 ≤ hr := by
    rw [hv4]
    split_ifs <;> omega
  have hadj : adjustAmPm (!pm) pm ((digitsValD (c0 :: hh2) : Nat) : Int) = hr := by
    rw [hv4, hv1]
    unfold adjustAmPm
    cases pm <;> simp
  cases secPart with
  | none =>
    have hsec0 : sec = 0 := hv3
    have htokmm : tokenize (mm ++ (wsp ++ [a1, a2])) =
        .digits mm :: tokenize (wsp ++ [a1, a2]) :=
      tokenize_digits_append _ _ hmm0 hmm2 hndtail2
    have htokc : tokenize (':' :: (mm ++ (wsp ++ [a1, a2]))) =
        .sym ':' :: .digits mm :: tokenize (wsp ++ [a1, a2]) := by
      rw [tokenize_sym_cons (c := ':') (by decide) (by decide) (by decide), htokmm]
    have htok : tokenize ((c0 :: hh2) ++ ':' :: (mm ++ (wsp ++ [a1, a2]))) =
        .digits (c0 :: hh2) :: .sym ':' :: .digits mm :: tokenize (wsp ++ [a1, a2]) := by
      rw [tokenize_digits_append (c0 :: hh2) _ (by simp) hhh2 (by rw [htokc]; rfl), htokc]
    have htrim : jsTrim ((c0 :: hh2) ++ ':' :: (mm ++ (wsp ++ [a1, a2]))) =
        (c0 :: hh2) ++ ':' :: (mm ++ (wsp ++ [a1, a2])) := by
      rw [show (c0 :: hh2) ++ ':' :: (mm ++ (wsp ++ [a1, a2])) =
        c0 :: ((hh2 ++ ':' :: (mm ++ (wsp ++ [a1]))) ++ [a2]) from by simp]
      exact jsTrim_eq_self _ (digit_facts hc0).1 hfa2.2.2
    have hne2 : ((c0 :: hh2) ++ ':' :: (mm ++ (wsp ++ [a1, a2]))).isEmpty = false := rfl
    have hrel : testRelative ((c0 :: hh2) ++ ':' :: (mm ++ (wsp ++ [a1, a2]))) = false := by
      rw [List.cons_append]
      exact testRelative_digit_head hc0 _
    obtain ⟨e1, e2, e3, e4, e5, e6, e7, e8, e9, e10, e11, e12, e13, e14, e15⟩ :=
      shape_excls_colon (c0 :: hh2) (.digits mm :: tokenize (wsp ++ [a1, a2]))
    have T1 : testUnixMs ((c0 :: hh2) ++ ':' :: (mm ++ (wsp ++ [a1, a2]))) = false := by
      simp only [testUnixMs, htok]
      exact e1
    have T2 : testUnixS ((c0 :: hh2) ++ ':' :: (mm ++ (wsp ++ [a1, a2]))) = false := by
      simp only [testUnixS, htok]
      exact e2
    have T3 : testISO ((c0 :: hh2) ++ ':' :: (mm ++ (wsp ++ [a1, a2]))) = false := by
      simp only [testISO, htok]
      exact e3
    have T4 : testCompactISO ((c0 :: hh2) ++ ':' :: (mm ++ (wsp ++ [a1, a2]))) = false := by
      simp only [testCompactISO, htok]
      exact e4
    have T5 : testRFC ((c0 :: hh2) ++ ':' :: (mm ++ (wsp ++ [a1, a2]))) = false := by
      simp only [testRFC, htok]
      exact e5
    have T6 : testSQL ((c0 :: hh2) ++ ':' :: (mm ++ (wsp ++ [a1, a2]))) = false := by
      simp only [testSQL, htok]
      exact e6
    have T7 : testDateISO ((c0 :: hh2) ++ ':' :: (mm ++ (wsp ++ [a1, a2]))) = false := by
      simp only [testDateISO, htok]
      exact e7
    have T8 : testCompactDate ((c0 :: hh2) ++ ':' :: (mm ++ (wsp ++ [a1, a2]))) = false := by
      simp only [testCompactDate, htok]
      exact e8
    have T9 : testSlashDate ((c0 :: hh2) ++ ':' :: (mm ++ (wsp ++ [a1, a2]))) = false := by
      simp only [testSlashDate, htok]
      exact e9
    have T10 : testSlashDateTime ((c0 :: hh2) ++ ':' :: (mm ++ (wsp ++ [a1, a2]))) = false := by
      simp only [testSlashDateTime, htok]
      exact e10
    have T11 : testSlashYMD ((c0 :: hh2) ++ ':' :: (mm ++ (wsp ++ [a1, a2]))) = false := by
      simp only [testSlashYMD, htok]
      exact e11
    have T12 : testDotDate ((c0 :: hh2) ++ ':' :: (mm ++ (wsp ++ [a1, a2]))) = false := by
      simp only [testDotDate, htok]
      exact e12
    have T13 : testDashDMY ((c0 :: hh2) ++ ':' :: (mm ++ (wsp ++ [a1, a2]))) = false := by
      simp only [testDashDMY, htok]
      exact e13
    have T14 : testDayMonYear ((c0 :: hh2) ++ ':' :: (mm ++ (wsp ++ [a1, a2]))) = false := by
      simp only [testDayMonYear, htok]
      exact e14
    have T15 : testMonDD ((c0 :: hh2) ++ ':' :: (mm ++ (wsp ++ [a1, a2]))) = false := by
      simp only [testMonDD, htok]
      exact e15
    have hlen2 : hh2.length + 1 ≤ 2 := by
      have := hlenhh
      simp only [List.length_cons] at this
      exact this
    have T16 : testTimeOnly ((c0 :: hh2) ++ ':' :: (mm ++ (wsp ++ [a1, a2]))) = true := by
      simp only [testTimeOnly, htok, shapeTimeOnly, hsecTail, hmm1, Bool.and_eq_true,
        decide_eq_true_eq, beq_self_eq_true, and_true, List.length_cons]
      omega
    have hpv2 : parseTimeOnly now ((c0 :: hh2) ++ ':' :: (mm ++ (wsp ++ [a1, a2]))) =
        timeOnlyFinish (jsIntToString (utcFieldsOfTime now).year ++
            '-' :: padStart 2 '0' (jsIntToString (utcFieldsOfTime now).month) ++
            '-' :: padStart 2 '0' (jsIntToString (utcFieldsOfTime now).day))
          (adjustAmPm (!pm) pm ((digitsValD (c0 :: hh2) : Nat) : Int))
          ((digitsValD mm : Nat) : Int) 0 :=
      parseTimeOnly_eval now (c0 :: hh2) mm none wsp a1 a2 pm (by simp) hhh2 hmm1 hmm2
        (by intro ss h; cases h) hwsp ha1 ha2
    rw [hadj, ← hv2, ← hsec0] at hpv2
    constructor
    · intro hin1 hin2 hin3
      have hfin := timeOnlyFinish_in_range (utcFieldsOfTime now).year
        (utcFieldsOfTime now).month (utcFieldsOfTime now).day hr m sec
        hyr1 hyr2 hmo1 hmo2 hdy1 hdy2 hr0 hin1 hm0 hin2 (by omega) hin3
      exact detect_timeOnly_some lp mode now _ _ htrim hne2 hrel T1 T2 T3 T4 T5 T6 T7 T8
        T9 T10 T11 T12 T13 T14 T15 T16 (hpv2.trans hfin)
    · intro hout
      have hfin := timeOnlyFinish_out_of_range (jsIntToString (utcFieldsOfTime now).year ++
          '-' :: padStart 2 '0' (jsIntToString (utcFieldsOfTime now).month) ++
          '-' :: padStart 2 '0' (jsIntToString (utcFieldsOfTime now).day)) hr m sec
        (by omega)
      exact detect_timeOnly_none lp mode now _ htrim hne2 hrel T1 T2 T3 T4 T5 T6 T7 T8
        T9 T10 T11 T12 T13 T14 T15 T16 (hpv2.trans hfin)
  | some ss =>
    obtain ⟨s1, s2, rfl⟩ : ∃ u v, ss = [u, v] := List.length_eq_two.mp (hss ss rfl).1
    have hssd : ∀ c ∈ [s1, s2], isDigitChar c = true := (hss [s1, s2] rfl).2
    have hsecv : sec = ((digitsValD [s1, s2] : Nat) : Int) := hv3
    have hsec00 : 0 ≤ sec := by
      rw [hsecv]
      exact Int.natCast_nonneg _
    have htokss : tokenize ([s1, s2] ++ (wsp ++ [a1, a2])) =
        .digits [s1, s2] :: tokenize (wsp ++ [a1, a2]) :=
      tokenize_digits_append _ _ (by simp) hssd hndtail2
    have htokc2 : tokenize (':' :: ([s1, s2] ++ (wsp ++ [a1, a2]))) =
        .sym ':' :: .digits [s1, s2] :: tokenize (wsp ++ [a1, a2]) := by
      rw [tokenize_sym_cons (c := ':') (by decide) (by decide) (by decide), htokss]
    have htokmm : tokenize (mm ++ (':' :: ([s1, s2] ++ (wsp ++ [a1, a2])))) =
        .digits mm :: .sym ':' :: .digits [s1, s2] :: tokenize (wsp ++ [a1, a2]) := by
      rw [tokenize_digits_append mm _ hmm0 hmm2 (by rw [htokc2]; rfl), htokc2]
    have htokc : tokenize (':' :: (mm ++ (':' :: ([s1, s2] ++ (wsp ++ [a1, a2]))))) =
        .sym ':' :: .digits mm :: .sym ':' :: .digits [s1, s2] ::
          tokenize (wsp ++ [a1, a2]) := by
      rw [tokenize_sym_cons (c := ':') (by decide) (by decide) (by decide), htokmm]
    have htok : tokenize ((c0 :: hh2) ++ ':' :: (mm ++ (':' :: ([s1, s2] ++
        (wsp ++ [a1, a2]))))) =
        .digits (c0 :: hh2) :: .sym ':' :: .digits mm :: .sym ':' :: .digits [s1, s2] ::
          tokenize (wsp ++ [a1, a2]) := by
      rw [tokenize_digits_append (c0 :: hh2) _ (by simp) hhh2 (by rw [htokc]; rfl), htokc]
    have htrim : jsTrim ((c0 :: hh2) ++ ':' :: (mm ++ (':' :: ([s1, s2] ++
        (wsp ++ [a1, a2]))))) =
        (c0 :: hh2) ++ ':' :: (mm ++ (':' :: ([s1, s2] ++ (wsp ++ [a1, a2])))) := by
      rw [show (c0 :: hh2) ++ ':' :: (mm ++ (':' :: ([s1, s2] ++ (wsp ++ [a1, a2])))) =
        c0 :: ((hh2 ++ ':' :: (mm ++ (':' :: ([s1, s2] ++ (wsp ++ [a1]))))) ++ [a2])
        from by simp]
      exact jsTrim_eq_self _ (digit_facts hc0).1 hfa2.2.2
    have hne2 : ((c0 :: hh2) ++ ':' :: (mm ++ (':' :: ([s1, s2] ++
        (wsp ++ [a1, a2]))))).isEmpty = false := rfl
    have hrel : testRelative ((c0 :: hh2) ++ ':' :: (mm ++ (':' :: ([s1, s2] ++
        (wsp ++ [a1, a2]))))) = false := by
      rw [List.cons_append]
      exact testRelative_digit_head hc0 _
    obtain ⟨e1, e2, e3, e4, e5, e6, e7, e8, e9, e10, e11, e12, e13, e14, e15⟩ :=
      shape_excls_colon (c0 :: hh2) (.digits mm :: .sym ':' :: .digits [s1, s2] ::
        tokenize (wsp ++ [a1, a2]))
    have T1 : testUnixMs ((c0 :: hh2) ++ ':' :: (mm ++ (':' :: ([s1, s2] ++
        (wsp ++ [a1, a2]))))) = false := by
      simp only [testUnixMs, htok]
      exact e1
    have T2 : testUnixS ((c0 :: hh2) ++ ':' :: (mm ++ (':' :: ([s1, s2] ++
        (wsp ++ [a1, a2]))))) = false := by
      simp only [testUnixS, htok]
      exact e2
    have T3 : testISO ((c0 :: hh2) ++ ':' :: (mm ++ (':' :: ([s1, s2] ++
        (wsp ++ [a1, a2]))))) = false := by
      simp only [testISO, htok]
      exact e3
    have T4 : testCompactISO ((c0 :: hh2) ++ ':' :: (mm ++ (':' :: ([s1, s2] ++
        (wsp ++ [a1, a2]))))) = false := by
      simp only [testCompactISO, htok]
      exact e4
    have T5 : testRFC ((c0 :: hh2) ++ ':' :: (mm ++ (':' :: ([s1, s2] ++
        (wsp ++ [a1, a2]))))) = false := by
      simp only [testRFC, htok]
      exact e5
    have T6 : testSQL ((c0 :: hh2) ++ ':' :: (mm ++ (':' :: ([s1, s2] ++
        (wsp ++ [a1, a2]))))) = false := by
      simp only [testSQL, htok]
      exact e6
    have T7 : testDateISO ((c0 :: hh2) ++ ':' :: (mm ++ (':' :: ([s1, s2] ++
        (wsp ++ [a1, a2]))))) = false := by
      simp only [testDateISO, htok]
      exact e7
    have T8 : testCompactDate ((c0 :: hh2) ++ ':' :: (mm ++ (':' :: ([s1, s2] ++
        (wsp ++ [a1, a2]))))) = false := by
      simp only [testCompactDate, htok]
      exact e8
    have T9 : testSlashDate ((c0 :: hh2) ++ ':' :: (mm ++ (':' :: ([s1, s2] ++
        (wsp ++ [a1, a2]))))) = false := by
      simp only [testSlashDate, htok]
      exact e9
    have T10 : testSlashDateTime ((c0 :: hh2) ++ ':' :: (mm ++ (':' :: ([s1, s2] ++
        (wsp ++ [a1, a2]))))) = false := by
      simp only [testSlashDateTime, htok]
      exact e10
    have T11 : testSlashYMD ((c0 :: hh2) ++ ':' :: (mm ++ (':' :: ([s1, s2] ++
        (wsp ++ [a1, a2]))))) = false := by
      simp only [testSlashYMD, htok]
      exact e11
    have T12 : testDotDate ((c0 :: hh2) ++ ':' :: (mm ++ (':' :: ([s1, s2] ++
        (wsp ++ [a1, a2]))))) = false := by
      simp only [testDotDate, htok]
      exact e12
    have T13 : testDashDMY ((c0 :: hh2) ++ ':' :: (mm ++ (':' :: ([s1, s2] ++
        (wsp ++ [a1, a2]))))) = false := by
      simp only [testDashDMY, htok]
      exact e13
    have T14 : testDayMonYear ((c0 :: hh2) ++ ':' :: (mm ++ (':' :: ([s1, s2] ++
        (wsp ++ [a1, a2]))))) = false := by
      simp only [testDayMonYear, htok]
      exact e14
    have T15 : testMonDD ((c0 :: hh2) ++ ':' :: (mm ++ (':' :: ([s1, s2] ++
        (wsp ++ [a1, a2]))))) = false := by
      simp only [testMonDD, htok]
      exact e15
    have hsecTail2 : shapeSecAmPm (.sym ':' :: .digits [s1, s2] ::
        tokenize (wsp ++ [a1, a2])) = true := by
      show ((List.length [s1, s2] == 2) && shapeAmPm (tokenize (wsp ++ [a1, a2]))) = true
      rw [hAmPmTail]
      simp
    have T16 : testTimeOnly ((c0 :: hh2) ++ ':' :: (mm ++ (':' :: ([s1, s2] ++
        (wsp ++ [a1, a2]))))) = true := by
      simp only [testTimeOnly, htok, shapeTimeOnly, hsecTail2, hmm1, Bool.and_eq_true,
        decide_eq_true_eq, beq_self_eq_true, and_true, List.length_cons]
      have := hlenhh
      simp only [List.length_cons] at this
      omega
    have hpv2 : parseTimeOnly now ((c0 :: hh2) ++ ':' :: (mm ++ (':' :: ([s1, s2] ++
        (wsp ++ [a1, a2]))))) =
        timeOnlyFinish (jsIntToString (utcFieldsOfTime now).year ++
            '-' :: padStart 2 '0' (jsIntToString (utcFieldsOfTime now).month) ++
            '-' :: padStart 2 '0' (jsIntToString (utcFieldsOfTime now).day))
          (adjustAmPm (!pm) pm ((digitsValD (c0 :: hh2) : Nat) : Int))
          ((digitsValD mm : Nat) : Int) ((digitsValD [s1, s2] : Nat) : Int) :=
      parseTimeOnly_eval now (c0 :: hh2) mm (some [s1, s2]) wsp a1 a2 pm (by simp) hhh2
        hmm1 hmm2 hss hwsp ha1 ha2
    rw [hadj, ← hv2, ← hsecv] at hpv2
    constructor
    · intro hin1 hin2 hin3
      have hfin := timeOnlyFinish_in_range (utcFieldsOfTime now).year
        (utcFieldsOfTime now).month (utcFieldsOfTime now).day hr m sec
        hyr1 hyr2 hmo1 hmo2 hdy1 hdy2 hr0 hin1 hm0 hin2 hsec00 hin3
      exact detect_timeOnly_some lp mode now _ _ htrim hne2 hrel T1 T2 T3 T4 T5 T6 T7 T8
        T9 T10 T11 T12 T13 T14 T15 T16 (hpv2.trans hfin)
    · intro hout
      have hfin := timeOnlyFinish_out_of_range (jsIntToString (utcFieldsOfTime now).year ++
          '-' :: padStart 2 '0' (jsIntToString (utcFieldsOfTime now).month) ++
          '-' :: padStart 2 '0' (jsIntToString (utcFieldsOfTime now).day)) hr m sec
        (by omega)
      exact detect_timeOnly_none lp mode now _ htrim hne2 hrel T1 T2 T3 T4 T5 T6 T7 T8
        T9 T10 T11 T12 T13 T14 T15 T16 (hpv2.trans hfin)

theorem detect_timeOnly_ampm_witness :
    parseTimestamp (fun _ => none) .us 1705314600000
        ("10".toList ++ ':' :: ("30".toList ++ ([] ++ ([' '] ++ ['P', 'M'])))) =
      some (utcMsOfFields (utcFieldsOfTime 1705314600000).year
        (utcFieldsOfTime 1705314600000).month (utcFieldsOfTime 1705314600000).day
        22 30 0 0, "Time only") :=
  (detect_timeOnly_ampm (fun _ => none) .us 1705314600000 "10".toList "30".toList none
    [' '] 'P' 'M' true 10 30 0 22
    (by decide) (by decide) (by decide) (by decide) (by decide)
    (by intro ss h; cases h) (by decide) (by decide) (by decide)
    (by decide) (by decide) (by decide) (by decide) (by decide) (by decide)
    (by decide) (by decide) (by decide) (by decide)).1 (by decide) (by decide) (by decide)

theorem runFormats_skip (f : FormatRule) (fs : List FormatRule) (t : Str)
    (h : f.test t = false) : runFormats (f :: fs) t = runFormats fs t := by
  simp only [runFormats, h]
  simp

theorem runFormats_fail (f : FormatRule) (fs : List FormatRule) (t : Str)
    (hp : ∀ v, f.parse t ≠ .date (some v)) :
    runFormats (f :: fs) t = runFormats fs t := by
  simp only [runFormats]
  by_cases h : f.test t = true
  · rw [if_pos h]
  · rw [if_neg h]

theorem toksStr_consTok (c : Char) (ts : List Tok) :
    toksStr (consTok c ts) = c :: toksStr ts := by
  unfold consTok
  split_ifs with h1 h2 h3
  · split
    · simp [toksStr, tokStr]
    · simp [toksStr, tokStr]
  · split
    · simp [toksStr, tokStr]
    · simp [toksStr, tokStr]
  · split
    · simp [toksStr, tokStr]
    · simp [toksStr, tokStr]
  · simp [toksStr, tokStr]

theorem toksStr_tokenize (t : Str) : toksStr (tokenize t) = t := by
  induction t with
  | nil => rfl
  | cons c cs ih =>
    simp only [tokenize, toksStr_consTok, ih]

theorem tokWF_consTok (c : Char) (ts : List Tok) (h : ts.all tokWF = true) :
    (consTok c ts).all tokWF = true := by
  unfold consTok
  split_ifs with h1 h2 h3
  · split
    · simp_all [tokWF]
    · simp only [List.all_cons, Bool.and_eq_true]
      refine ⟨?_, h⟩
      simp [tokWF, h1]
  · have h1f : isDigitChar c = false := by simpa using h1
    split
    · simp_all [tokWF]
    · simp only [List.all_cons, Bool.and_eq_true]
      refine ⟨?_, h⟩
      simp [tokWF, h1f, h2]
  · have h1f : isDigitChar c = false := by simpa using h1
    have h2f : isAlphaChar c = false := by simpa using h2
    split
    · simp_all [tokWF]
    · simp only [List.all_cons, Bool.and_eq_true]
      refine ⟨?_, h⟩
      simp [tokWF, h1f, h2f, h3]
  · have h1f : isDigitChar c = false := by simpa using h1
    have h2f : isAlphaChar c = false := by simpa using h2
    have h3f : isWsChar c = false := by simpa using h3
    simp only [List.all_cons, Bool.and_eq_true]
    refine ⟨?_, h⟩
    simp [tokWF, h1f, h2f, h3f]

theorem tokWF_tokenize (t : Str) : (tokenize t).all tokWF = true := by
  induction t with
  | nil => rfl
  | cons c cs ih => exact tokWF_consTok c _ ih

theorem tokenize_digits_only {t : Str} {ds : Str} (h : tokenize t = [.digits ds]) :
    t = ds ∧ ds ≠ [] ∧ ∀ c ∈ ds, isDigitChar c = true := by
  have hflat := toksStr_tokenize t
  rw [h] at hflat
  have hwf := tokWF_tokenize t
  rw [h] at hwf
  simp only [List.all_cons, List.all_nil, Bool.and_true] at hwf
  simp only [tokWF, Bool.and_eq_true, List.all_eq_true] at hwf
  refine ⟨?_, ?_, hwf.2⟩
  · rw [← hflat]
    simp [toksStr, tokStr]
  · intro he
    rw [he] at hwf
    simp at hwf

theorem tokenize_neg_digits_only {t : Str} {ds : Str}
    (h : tokenize t = [.sym '-', .digits ds]) :
    t = '-' :: ds ∧ ds ≠ [] ∧ ∀ c ∈ ds, isDigitChar c = true := by
  have hflat := toksStr_tokenize t
  rw [h] at hflat
  have hwf := tokWF_tokenize t
  rw [h] at hwf
  simp only [List.all_cons, List.all_nil, Bool.and_true, Bool.and_eq_true] at hwf
  have hwf2 := hwf.2
  simp only [tokWF, Bool.and_eq_true, List.all_eq_true] at hwf2
  refine ⟨?_, ?_, hwf2.2⟩
  · rw [← hflat]
    simp [toksStr, tokStr]
  · intro he
    rw [he] at hwf2
    simp at hwf2

theorem shapeUnixMs_inv {ts : List Tok} (h : shapeUnixMs ts = true) :
    ∃ ds, 13 ≤ ds.length ∧ (ts = [.digits ds] ∨ ts = [.sym '-', .digits ds]) := by
  unfold shapeUnixMs at h
  split at h
  · rename_i ds
    exact ⟨ds, by simpa using h, Or.inl rfl⟩
  · rename_i ds
    exact ⟨ds, by simpa using h, Or.inr rfl⟩
  · cases h

theorem shapeUnixS_inv {ts : List Tok} (h : shapeUnixS ts = true) :
    ∃ ds, 1 ≤ ds.length ∧ ds.length ≤ 12 ∧
      (ts = [.digits ds] ∨ ts = [.sym '-', .digits ds]) := by
  unfold shapeUnixS at h
  split at h
  · rename_i ds
    simp only [Bool.and_eq_true, decide_eq_true_eq] at h
    exact ⟨ds, h.1, h.2, Or.inl rfl⟩
  · rename_i ds
    simp only [Bool.and_eq_true, decide_eq_true_eq] at h
    exact ⟨ds, h.1, h.2, Or.inr rfl⟩
  · cases h

theorem shapeISO_inv {ts : List Tok} (h : shapeISO ts = true) :
    ∃ y mo d t2 r, ts = .digits y :: .sym '-' :: .digits mo :: .sym '-' :: .digits d ::
      .letters t2 :: r := by
  unfold shapeISO at h
  split at h
  · rename_i y mo d t2 h5 mi r
    exact ⟨y, mo, d, t2, _, rfl⟩
  · cases h

theorem shapeCompactISO_inv {ts : List Tok} (h : shapeCompactISO ts = true) :
    ∃ a t2 b, ts = [.digits a, .letters t2, .digits b] := by
  unfold shapeCompactISO at h
  split at h
  · rename_i a t2 b
    exact ⟨a, t2, b, rfl⟩
  · cases h

theorem shapeRFCBody_inv {r : List Tok} (h : shapeRFCBody r = true) :
    ∃ d w2 mon R, r = .digits d :: .ws w2 :: .letters mon :: R := by
  unfold shapeRFCBody at h
  split at h
  · rename_i d w2 mon w3 y w4 h7 mi R
    exact ⟨d, w2, mon, _, rfl⟩
  · cases h

theorem shapeRFC_inv {ts : List Tok} (h : shapeRFC ts = true) :
    (∃ dow r, ts = .letters dow :: .sym ',' :: r) ∨
    (∃ dow w d w2 mon R, ts = .letters dow :: .ws w :: .digits d :: .ws w2 ::
      .letters mon :: R) := by
  unfold shapeRFC at h
  split at h
  · rename_i dow w r
    exact Or.inl ⟨dow, _, rfl⟩
  · rename_i dow w r
    simp only [Bool.and_eq_true] at h
    obtain ⟨d, w2, mon, R, hr⟩ := shapeRFCBody_inv h.2
    exact Or.inr ⟨dow, w, d, w2, mon, R, by rw [hr]⟩
  · cases h

theorem shapeSQL_inv {ts : List Tok} (h : shapeSQL ts = true) :
    ∃ y mo d w r, ts = .digits y :: .sym '-' :: .digits mo :: .sym '-' :: .digits d ::
      .ws w :: r ∧ y.length = 4 := by
  unfold shapeSQL at h
  split at h
  · rename_i y mo d w h7 mi r
    simp only [Bool.and_eq_true, beq_iff_eq] at h
    exact ⟨y, mo, d, w, _, rfl, h.1.1.1.1.1⟩
  · cases h

theorem shapeDateISO_inv {ts : List Tok} (h : shapeDateISO ts = true) :
    ∃ y mo d, ts = [.digits y, .sym '-', .digits mo, .sym '-', .digits d] ∧
      y.length = 4 := by
  unfold shapeDateISO at h
  split at h
  · rename_i y mo d
    simp only [Bool.and_eq_true, beq_iff_eq] at h
    exact ⟨y, mo, d, rfl, h.1.1⟩
  · cases h

theorem shapeCompactDate_inv {ts : List Tok} (h : shapeCompactDate ts = true) :
    ∃ ds, ts = [.digits ds] ∧ ds.length = 8 := by
  unfold shapeCompactDate at h
  split at h
  · rename_i ds
    simp only [beq_iff_eq] at h
    exact ⟨ds, rfl, h⟩
  · cases h

theorem shapeSlashDate_inv {ts : List Tok} (h : shapeSlashDate ts = true) :
    ∃ a b y, ts = [.digits a, .sym '/', .digits b, .sym '/', .digits y] ∧
      a.length ≤ 2 := by
  unfold shapeSlashDate at h
  split at h
  · rename_i a b y
    simp only [Bool.and_eq_true, decide_eq_true_eq, beq_iff_eq] at h
    exact ⟨a, b, y, rfl, h.1.1.1.2⟩
  · cases h

theorem shapeSlashDateTime_inv {ts : List Tok} (h : shapeSlashDateTime ts = true) :
    ∃ a b y w r, ts = .digits a :: .sym '/' :: .digits b :: .sym '/' :: .digits y ::
      .ws w :: r ∧ a.length ≤ 2 := by
  unfold shapeSlashDateTime at h
  split at h
  · rename_i a b y w h7 mi r
    simp only [Bool.and_eq_true, decide_eq_true_eq, beq_iff_eq] at h
    exact ⟨a, b, y, w, _, rfl, h.1.1.1.1.1.1.1.2⟩
  · cases h

theorem shapeSlashYMD_inv {ts : List Tok} (h : shapeSlashYMD ts = true) :
    ∃ y r, ts = .digits y :: .sym '/' :: r := by
  unfold shapeSlashYMD at h
  split at h
  · rename_i y a b r
    exact ⟨y, _, rfl⟩
  · cases h

theorem shapeDotDate_inv {ts : List Tok} (h : shapeDotDate ts = true) :
    ∃ a r, ts = .digits a :: .sym '.' :: r := by
  unfold shapeDotDate at h
  split at h
  · rename_i a b y r
    exact ⟨a, _, rfl⟩
  · cases h

theorem shapeDashDMY_inv {ts : List Tok} (h : shapeDashDMY ts = true) :
    ∃ a r, ts = .digits a :: .sym '-' :: r := by
  unfold shapeDashDMY at h
  split at h
  · rename_i a b y r
    exact ⟨a, _, rfl⟩
  · cases h

theorem shapeDayMonYear_inv {ts : List Tok} (h : shapeDayMonYear ts = true) :
    ∃ d w r, ts = .digits d :: .ws w :: r := by
  unfold shapeDayMonYear at h
  split at h
  · rename_i d w mon w2 y
    exact ⟨d, w, _, rfl⟩
  · cases h

theorem shapeMonDD_inv {ts : List Tok} (h : shapeMonDD ts = true) :
    ∃ mon r, ts = .letters mon :: r := by
  unfold shapeMonDD at h
  split at h
  · rename_i mon w d r
    exact ⟨mon, _, rfl⟩
  · cases h

theorem shapeTimeOnly_inv {ts : List Tok} (h : shapeTimeOnly ts = true) :
    ∃ a r, ts = .digits a :: .sym ':' :: r := by
  unfold shapeTimeOnly at h
  split at h
  · rename_i a mi r
    exact ⟨a, _, rfl⟩
  · cases h

theorem excls_after_letters (w : Str) :
    shapeUnixMs [.letters w] = false ∧ shapeUnixS [.letters w] = false ∧
    shapeISO [.letters w] = false ∧ shapeCompactISO [.letters w] = false ∧
    shapeRFC [.letters w] = false ∧ shapeSQL [.letters w] = false ∧
    shapeDateISO [.letters w] = false ∧ shapeCompactDate [.letters w] = false ∧
    shapeSlashDate [.letters w] = false ∧ shapeSlashDateTime [.letters w] = false ∧
    shapeSlashYMD [.letters w] = false ∧ shapeDotDate [.letters w] = false ∧
    shapeDashDMY [.letters w] = false ∧ shapeDayMonYear [.letters w] = false ∧
    shapeMonDD [.letters w] = false ∧ shapeTimeOnly [.letters w] = false :=
  ⟨rfl, rfl, rfl, rfl, rfl, rfl, rfl, rfl, rfl, rfl, rfl, rfl, rfl, rfl, rfl, rfl⟩

theorem excls_after_digits (ds : Str) (h13 : 13 ≤ ds.length) :
    shapeUnixS [.digits ds] = false ∧
    shapeISO [.digits ds] = false ∧ shapeCompactISO [.digits ds] = false ∧
    shapeRFC [.digits ds] = false ∧ shapeSQL [.digits ds] = false ∧
    shapeDateISO [.digits ds] = false ∧ shapeCompactDate [.digits ds] = false ∧
    shapeSlashDate [.digits ds] = false ∧ shapeSlashDateTime [.digits ds] = false ∧
    shapeSlashYMD [.digits ds] = false ∧ shapeDotDate [.digits ds] = false ∧
    shapeDashDMY [.digits ds] = false ∧ shapeDayMonYear [.digits ds] = false ∧
    shapeMonDD [.digits ds] = false ∧ shapeTimeOnly [.digits ds] = false := by
  refine ⟨?_, rfl, rfl, rfl, rfl, rfl, ?_, rfl, rfl, rfl, rfl, rfl, rfl, rfl, rfl⟩
  · simp only [shapeUnixS, Bool.and_eq_false_iff, decide_eq_false_iff_not]
    omega
  · simp only [shapeCompactDate, beq_eq_false_iff_ne, ne_eq]
    omega

theorem excls_after_negdigits (ds : Str) (h13 : 13 ≤ ds.length) :
    shapeUnixS [.sym '-', .digits ds] = false ∧
    shapeISO [.sym '-', .digits ds] = false ∧
    shapeCompactISO [.sym '-', .digits ds] = false ∧
    shapeRFC [.sym '-', .digits ds] = false ∧ shapeSQL [.sym '-', .digits ds] = false ∧
    shapeDateISO [.sym '-', .digits ds] = false ∧
    shapeCompactDate [.sym '-', .digits ds] = false ∧
    shapeSlashDate [.sym '-', .digits ds] = false ∧
    shapeSlashDateTime [.sym '-', .digits ds] = false ∧
    shapeSlashYMD [.sym '-', .digits ds] = false ∧
    shapeDotDate [.sym '-', .digits ds] = false ∧
    shapeDashDMY [.sym '-', .digits ds] = false ∧
    shapeDayMonYear [.sym '-', .digits ds] = false ∧
    shapeMonDD [.sym '-', .digits ds] = false ∧
    shapeTimeOnly [.sym '-', .digits ds] = false := by
  refine ⟨?_, rfl, rfl, rfl, rfl, rfl, rfl, rfl, rfl, rfl, rfl, rfl, rfl, rfl, rfl⟩
  simp only [shapeUnixS, Bool.and_eq_false_iff, decide_eq_false_iff_not]
  omega

theorem excls_after_iso (y mo d t2 : Str) (r : List Tok) :
    shapeCompactISO (.digits y :: .sym '-' :: .digits mo :: .sym '-' :: .digits d ::
      .letters t2 :: r) = false ∧
    shapeRFC (.digits y :: .sym '-' :: .digits mo :: .sym '-' :: .digits d ::
      .letters t2 :: r) = false ∧
    shapeSQL (.digits y :: .sym '-' :: .digits mo :: .sym '-' :: .digits d ::
      .letters t2 :: r) = false ∧
    shapeDateISO (.digits y :: .sym '-' :: .digits mo :: .sym '-' :: .digits d ::
      .letters t2 :: r) = false ∧
    shapeCompactDate (.digits y :: .sym '-' :: .digits mo :: .sym '-' :: .digits d ::
      .letters t2 :: r) = false ∧
    shapeSlashDate (.digits y :: .sym '-' :: .digits mo :: .sym '-' :: .digits d ::
      .letters t2 :: r) = false ∧
    shapeSlashDateTime (.digits y :: .sym '-' :: .digits mo :: .sym '-' :: .digits d ::
      .letters t2 :: r) = false ∧
    shapeSlashYMD (.digits y :: .sym '-' :: .digits mo :: .sym '-' :: .digits d ::
      .letters t2 :: r) = false ∧
    shapeDotDate (.digits y :: .sym '-' :: .digits mo :: .sym '-' :: .digits d ::
      .letters t2 :: r) = false ∧
    shapeDashDMY (.digits y :: .sym '-' :: .digits mo :: .sym '-' :: .digits d ::
      .letters t2 :: r) = false ∧
    shapeDayMonYear (.digits y :: .sym '-' :: .digits mo :: .sym '-' :: .digits d ::
      .letters t2 :: r) = false ∧
    shapeMonDD (.digits y :: .sym '-' :: .digits mo :: .sym '-' :: .digits d ::
      .letters t2 :: r) = false ∧
    shapeTimeOnly (.digits y :: .sym '-' :: .digits mo :: .sym '-' :: .digits d ::
      .letters t2 :: r) = false := by
  refine ⟨rfl, rfl, rfl, rfl, rfl, rfl, rfl, rfl, rfl, ?_, rfl, rfl, rfl⟩
  have hopt : shapeOptTime (Tok.letters t2 :: r) = false := rfl
  simp [shapeDashDMY, hopt]

theorem excls_after_compactISO (a t2 b : Str) :
    shapeRFC [.digits a, .letters t2, .digits b] = false ∧
    shapeSQL [.digits a, .letters t2, .digits b] = false ∧
    shapeDateISO [.digits a, .letters t2, .digits b] = false ∧
    shapeCompactDate [.digits a, .letters t2, .digits b] = false ∧
    shapeSlashDate [.digits a, .letters t2, .digits b] = false ∧
    shapeSlashDateTime [.digits a, .letters t2, .digits b] = false ∧
    shapeSlashYMD [.digits a, .letters t2, .digits b] = false ∧
    shapeDotDate [.digits a, .letters t2, .digits b] = false ∧
    shapeDashDMY [.digits a, .letters t2, .digits b] = false ∧
    shapeDayMonYear [.digits a, .letters t2, .digits b] = false ∧
    shapeMonDD [.digits a, .letters t2, .digits b] = false ∧
    shapeTimeOnly [.digits a, .letters t2, .digits b] = false :=
  ⟨rfl, rfl, rfl, rfl, rfl, rfl, rfl, rfl, rfl, rfl, rfl, rfl⟩

theorem excls_after_rfc_comma (dow : Str) (r : List Tok) :
    shapeSQL (.letters dow :: .sym ',' :: r) = false ∧
    shapeDateISO (.letters dow :: .sym ',' :: r) = false ∧
    shapeCompactDate (.letters dow :: .sym ',' :: r) = false ∧
    shapeSlashDate (.letters dow :: .sym ',' :: r) = false ∧
    shapeSlashDateTime (.letters dow :: .sym ',' :: r) = false ∧
    shapeSlashYMD (.letters dow :: .sym ',' :: r) = false ∧
    shapeDotDate (.letters dow :: .sym ',' :: r) = false ∧
    shapeDashDMY (.letters dow :: .sym ',' :: r) = false ∧
    shapeDayMonYear (.letters dow :: .sym ',' :: r) = false ∧
    shapeMonDD (.letters dow :: .sym ',' :: r) = false ∧
    shapeTimeOnly (.letters dow :: .sym ',' :: r) = false :=
  ⟨rfl, rfl, rfl, rfl, rfl, rfl, rfl, rfl, rfl, rfl, rfl⟩

theorem excls_after_rfc_ws (dow w d w2 mon : Str) (R : List Tok) :
    shapeSQL (.letters dow :: .ws w :: .digits d :: .ws w2 :: .letters mon :: R) = false ∧
    shapeDateISO (.letters dow :: .ws w :: .digits d :: .ws w2 :: .letters mon :: R) =
      false ∧
    shapeCompactDate (.letters dow :: .ws w :: .digits d :: .ws w2 :: .letters mon :: R) =
      false ∧
    shapeSlashDate (.letters dow :: .ws w :: .digits d :: .ws w2 :: .letters mon :: R) =
      false ∧
    shapeSlashDateTime (.letters dow :: .ws w :: .digits d :: .ws w2 ::
      .letters mon :: R) = false ∧
    shapeSlashYMD (.letters dow :: .ws w :: .digits d :: .ws w2 :: .letters mon :: R) =
      false ∧
    shapeDotDate (.letters dow :: .ws w :: .digits d :: .ws w2 :: .letters mon :: R) =
      false ∧
    shapeDashDMY (.letters dow :: .ws w :: .digits d :: .ws w2 :: .letters mon :: R) =
      false ∧
    shapeDayMonYear (.letters dow :: .ws w :: .digits d :: .ws w2 :: .letters mon :: R) =
      false ∧
    shapeMonDD (.letters dow :: .ws w :: .digits d :: .ws w2 :: .letters mon :: R) =
      false ∧
    shapeTimeOnly (.letters dow :: .ws w :: .digits d :: .ws w2 :: .letters mon :: R) =
      false := by
  refine ⟨rfl, rfl, rfl, rfl, rfl, rfl, rfl, rfl, rfl, ?_, rfl⟩
  have hmdy : shapeMonDDYear (Tok.ws w2 :: Tok.letters mon :: R) = false := rfl
  simp [shapeMonDD, hmdy]

theorem excls_after_sql (y mo d w : Str) (r : List Tok) (hy4 : y.length = 4) :
    shapeDateISO (.digits y :: .sym '-' :: .digits mo :: .sym '-' :: .digits d ::
      .ws w :: r) = false ∧
    shapeCompactDate (.digits y :: .sym '-' :: .digits mo :: .sym '-' :: .digits d ::
      .ws w :: r) = false ∧
    shapeSlashDate (.digits y :: .sym '-' :: .digits mo :: .sym '-' :: .digits d ::
      .ws w :: r) = false ∧
    shapeSlashDateTime (.digits y :: .sym '-' :: .digits mo :: .sym '-' :: .digits d ::
      .ws w :: r) = false ∧
    shapeSlashYMD (.digits y :: .sym '-' :: .digits mo :: .sym '-' :: .digits d ::
      .ws w :: r) = false ∧
    shapeDotDate (.digits y :: .sym '-' :: .digits mo :: .sym '-' :: .digits d ::
      .ws w :: r) = false ∧
    shapeDashDMY (.digits y :: .sym '-' :: .digits mo :: .sym '-' :: .digits d ::
      .ws w :: r) = false ∧
    shapeDayMonYear (.digits y :: .sym '-' :: .digits mo :: .sym '-' :: .digits d ::
      .ws w :: r) = false ∧
    shapeMonDD (.digits y :: .sym '-' :: .digits mo :: .sym '-' :: .digits d ::
      .ws w :: r) = false ∧
    shapeTimeOnly (.digits y :: .sym '-' :: .digits mo :: .sym '-' :: .digits d ::
      .ws w :: r) = false := by
  refine ⟨rfl, rfl, rfl, rfl, rfl, rfl, ?_, rfl, rfl, rfl⟩
  simp [shapeDashDMY, hy4]

theorem excls_after_dateISO (y mo d : Str) (hy4 : y.length = 4) :
    shapeCompactDate [.digits y, .sym '-', .digits mo, .sym '-', .digits d] = false ∧
    shapeSlashDate [.digits y, .sym '-', .digits mo, .sym '-', .digits d] = false ∧
    shapeSlashDateTime [.digits y, .sym '-', .digits mo, .sym '-', .digits d] = false ∧
    shapeSlashYMD [.digits y, .sym '-', .digits mo, .sym '-', .digits d] = false ∧
    shapeDotDate [.digits y, .sym '-', .digits mo, .sym '-', .digits d] = false ∧
    shapeDashDMY [.digits y, .sym '-', .digits mo, .sym '-', .digits d] = false ∧
    shapeDayMonYear [.digits y, .sym '-', .digits mo, .sym '-', .digits d] = false ∧
    shapeMonDD [.digits y, .sym '-', .digits mo, .sym '-', .digits d] = false ∧
    shapeTimeOnly [.digits y, .sym '-', .digits mo, .sym '-', .digits d] = false := by
  refine ⟨rfl, rfl, rfl, rfl, rfl, ?_, rfl, rfl, rfl⟩
  simp [shapeDashDMY, hy4]

theorem excls_after_slashDate (a b y : Str) (ha2 : a.length ≤ 2) :
    shapeSlashDateTime [.digits a, .sym '/', .digits b, .sym '/', .digits y] = false ∧
    shapeSlashYMD [.digits a, .sym '/', .digits b, .sym '/', .digits y] = false ∧
    shapeDotDate [.digits a, .sym '/', .digits b, .sym '/', .digits y] = false ∧
    shapeDashDMY [.digits a, .sym '/', .digits b, .sym '/', .digits y] = false ∧
    shapeDayMonYear [.digits a, .sym '/', .digits b, .sym '/', .digits y] = false ∧
    shapeMonDD [.digits a, .sym '/', .digits b, .sym '/', .digits y] = false ∧
    shapeTimeOnly [.digits a, .sym '/', .digits b, .sym '/', .digits y] = false := by
  refine ⟨rfl, ?_, rfl, rfl, rfl, rfl, rfl⟩
  have hbeq : (a.length == 4) = false := by
    rw [Bool.eq_false_iff]
    intro hb
    rw [beq_iff_eq] at hb
    omega
  simp [shapeSlashYMD, hbeq]

theorem excls_after_slashDateTime (a b y w : Str) (r : List Tok) (ha2 : a.length ≤ 2) :
    shapeSlashYMD (.digits a :: .sym '/' :: .digits b :: .sym '/' :: .digits y ::
      .ws w :: r) = false ∧
    shapeDotDate (.digits a :: .sym '/' :: .digits b :: .sym '/' :: .digits y ::
      .ws w :: r) = false ∧
    shapeDashDMY (.digits a :: .sym '/' :: .digits b :: .sym '/' :: .digits y ::
      .ws w :: r) = false ∧
    shapeDayMonYear (.digits a :: .sym '/' :: .digits b :: .sym '/' :: .digits y ::
      .ws w :: r) = false ∧
    shapeMonDD (.digits a :: .sym '/' :: .digits b :: .sym '/' :: .digits y ::
      .ws w :: r) = false ∧
    shapeTimeOnly (.digits a :: .sym '/' :: .digits b :: .sym '/' :: .digits y ::
      .ws w :: r) = false := by
  refine ⟨?_, rfl, rfl, rfl, rfl, rfl⟩
  have hbeq : (a.length == 4) = false := by
    rw [Bool.eq_false_iff]
    intro hb
    rw [beq_iff_eq] at hb
    omega
  simp [shapeSlashYMD, hbeq]

theorem excls_after_slashYMD (y : Str) (r : List Tok) :
    shapeDotDate (.digits y :: .sym '/' :: r) = false ∧
    shapeDashDMY (.digits y :: .sym '/' :: r) = false ∧
    shapeDayMonYear (.digits y :: .sym '/' :: r) = false ∧
    shapeMonDD (.digits y :: .sym '/' :: r) = false ∧
    shapeTimeOnly (.digits y :: .sym '/' :: r) = false :=
  ⟨rfl, rfl, rfl, rfl, rfl⟩

theorem excls_after_dotDate (a : Str) (r : List Tok) :
    shapeDashDMY (.digits a :: .sym '.' :: r) = false ∧
    shapeDayMonYear (.digits a :: .sym '.' :: r) = false ∧
    shapeMonDD (.digits a :: .sym '.' :: r) = false ∧
    shapeTimeOnly (.digits a :: .sym '.' :: r) = false :=
  ⟨rfl, rfl, rfl, rfl⟩

theorem excls_after_dashDMY (a : Str) (r : List Tok) :
    shapeDayMonYear (.digits a :: .sym '-' :: r) = false ∧
    shapeMonDD (.digits a :: .sym '-' :: r) = false ∧
    shapeTimeOnly (.digits a :: .sym '-' :: r) = false :=
  ⟨rfl, rfl, rfl⟩

theorem excls_after_dayMonYear (d w : Str) (r : List Tok) :
    shapeMonDD (.digits d :: .ws w :: r) = false ∧
    shapeTimeOnly (.digits d :: .ws w :: r) = false :=
  ⟨rfl, rfl⟩

theorem excls_after_monDD (mon : Str) (r : List Tok) :
    shapeTimeOnly (.letters mon :: r) = false :=
  rfl

theorem runFormats_none_of (fs : List FormatRule) (t : Str)
    (h : ∀ j (hj : j < fs.length), (fs.get ⟨j, hj⟩).test t = false ∨
      ∀ v, (fs.get ⟨j, hj⟩).parse t ≠ .date (some v)) :
    runFormats fs t = none := by
  induction fs with
  | nil => rfl
  | cons f fs ih =>
    rcases h 0 (by simp) with h0 | h0
    · rw [runFormats_skip f fs t h0]
      exact ih (fun j hj => h (j + 1) (by simpa using Nat.succ_lt_succ hj))
    · rw [runFormats_fail f fs t h0]
      exact ih (fun j hj => h (j + 1) (by simpa using Nat.succ_lt_succ hj))

theorem relative_all_letters {t : Str} (h : testRelative t = true) :
    t ≠ [] ∧ ∀ c ∈ t, isDigitChar c = false ∧ isAlphaChar c = true := by
  simp only [testRelative, Bool.or_eq_true, beq_iff_eq] at h
  have key : ∀ (w : Str), w ≠ [] → List.map toLowerChar t = w →
      (∀ lo ∈ w, 97 ≤ lo.toNat ∧ lo.toNat ≤ 122) →
      t ≠ [] ∧ ∀ c ∈ t, isDigitChar c = false ∧ isAlphaChar c = true := by
    intro w hwne hw hall
    constructor
    · intro he
      rw [he] at hw
      exact hwne hw.symm
    · intro c hc
      have hmem : toLowerChar c ∈ w := by
        rw [← hw]
        exact List.mem_map_of_mem _ hc
      have hb := hall _ hmem
      have hf := toLowerChar_letter_facts (rfl : toLowerChar c = toLowerChar c) hb.1 hb.2
      exact ⟨hf.1, hf.2.1⟩
  rcases h with ((h | h) | h) | h
  · exact key _ (by decide) h (by decide)
  · exact key _ (by decide) h (by decide)
  · exact key _ (by decide) h (by decide)
  · exact key _ (by decide) h (by decide)

/-- Claim C1: whenever the first recognizer-accepted rule for the trimmed
text has a parser that fails on it, the whole detection call returns
NoMatch; no later rule of the priority list ever supplies a result for
that input. -/
theorem detect_no_fallthrough (lp : LooseParse) (mode : DateMode) (now : Int) (input : Str)
    (i : Nat) (hi : i < (FORMATS lp mode now).length)
    (hacc : ((FORMATS lp mode now).get ⟨i, hi⟩).test (jsTrim input) = true)
    (hleast : ∀ j (hj : j < i),
      ((FORMATS lp mode now).get ⟨j, Nat.lt_trans hj hi⟩).test (jsTrim input) = false)
    (hfail : ∀ v, ((FORMATS lp mode now).get ⟨i, hi⟩).parse (jsTrim input) ≠
      JSVal.date (some v)) :
    parseTimestamp lp mode now input = none := by
  simp only [parseTimestamp]
  split
  · rfl
  · have hi17 : i < 17 := hi
    interval_cases i
    · have hacc0 : testRelative (jsTrim input) = true := hacc
      obtain ⟨hne0, hch⟩ := relative_all_letters hacc0
      have htk : tokenize (jsTrim input) = [.letters (jsTrim input)] := by
        have := tokenize_letters_append (jsTrim input) [] hne0 hch (by rfl)
        simpa using this
      obtain ⟨c1, c2, c3, c4, c5, c6, c7, c8, c9, c10, c11, c12, c13, c14, c15, c16⟩ :=
        excls_after_letters (jsTrim input)
      apply runFormats_none_of
      intro j hj
      have hj17 : j < 17 := hj
      interval_cases j
      · exact Or.inr hfail
      · exact Or.inl (show testUnixMs (jsTrim input) = false by simp only [testUnixMs]; rw [htk]; exact c1)
      · exact Or.inl (show testUnixS (jsTrim input) = false by simp only [testUnixS]; rw [htk]; exact c2)
      · exact Or.inl (show testISO (jsTrim input) = false by simp only [testISO]; rw [htk]; exact c3)
      · exact Or.inl (show testCompactISO (jsTrim input) = false by simp only [testCompactISO]; rw [htk]; exact c4)
      · exact Or.inl (show testRFC (jsTrim input) = false by simp only [testRFC]; rw [htk]; exact c5)
      · exact Or.inl (show testSQL (jsTrim input) = false by simp only [testSQL]; rw [htk]; exact c6)
      · exact Or.inl (show testDateISO (jsTrim input) = false by simp only [testDateISO]; rw [htk]; exact c7)
      · exact Or.inl (show testCompactDate (jsTrim input) = false by simp only [testCompactDate]; rw [htk]; exact c8)
      · exact Or.inl (show testSlashDate (jsTrim input) = false by simp only [testSlashDate]; rw [htk]; exact c9)
      · exact Or.inl (show testSlashDateTime (jsTrim input) = false by simp only [testSlashDateTime]; rw [htk]; exact c10)
      · exact Or.inl (show testSlashYMD (jsTrim input) = false by simp only [testSlashYMD]; rw [htk]; exact c11)
      · exact Or.inl (show testDotDate (jsTrim input) = false by simp only [testDotDate]; rw [htk]; exact c12)
      · exact Or.inl (show testDashDMY (jsTrim input) = false by simp only [testDashDMY]; rw [htk]; exact c13)
      · exact Or.inl (show testDayMonYear (jsTrim input) = false by simp only [testDayMonYear]; rw [htk]; exact c14)
      · exact Or.inl (show testMonDD (jsTrim input) = false by simp only [testMonDD]; rw [htk]; exact c15)
      · exact Or.inl (show testTimeOnly (jsTrim input) = false by simp only [testTimeOnly]; rw [htk]; exact c16)
    · have hacc1 : shapeUnixMs (tokenize (jsTrim input)) = true := hacc
      obtain ⟨ds, h13, hcase⟩ := shapeUnixMs_inv hacc1
      rcases hcase with htk | htk
      · obtain ⟨c2, c3, c4, c5, c6, c7, c8, c9, c10, c11, c12, c13, c14, c15, c16⟩ :=
          excls_after_digits ds h13
        apply runFormats_none_of
        intro j hj
        have hj17 : j < 17 := hj
        interval_cases j
        · exact Or.inl (hleast 0 (by omega))
        · exact Or.inr hfail
        · exact Or.inl (show testUnixS (jsTrim input) = false by simp only [testUnixS]; rw [htk]; exact c2)
        · exact Or.inl (show testISO (jsTrim input) = false by simp only [testISO]; rw [htk]; exact c3)
        · exact Or.inl (show testCompactISO (jsTrim input) = false by simp only [testCompactISO]; rw [htk]; exact c4)
        · exact Or.inl (show testRFC (jsTrim input) = false by simp only [testRFC]; rw [htk]; exact c5)
        · exact Or.inl (show testSQL (jsTrim input) = false by simp only [testSQL]; rw [htk]; exact c6)
        · exact Or.inl (show testDateISO (jsTrim input) = false by simp only [testDateISO]; rw [htk]; exact c7)
        · exact Or.inl (show testCompactDate (jsTrim input) = false by simp only [testCompactDate]; rw [htk]; exact c8)
        · exact Or.inl (show testSlashDate (jsTrim input) = false by simp only [testSlashDate]; rw [htk]; exact c9)
        · exact Or.inl (show testSlashDateTime (jsTrim input) = false by simp only [testSlashDateTime]; rw [htk]; exact c10)
        · exact Or.inl (show testSlashYMD (jsTrim input) = false by simp only [testSlashYMD]; rw [htk]; exact c11)
        · exact Or.inl (show testDotDate (jsTrim input) = false by simp only [testDotDate]; rw [htk]; exact c12)
        · exact Or.inl (show testDashDMY (jsTrim input) = false by simp only [testDashDMY]; rw [htk]; exact c13)
        · exact Or.inl (show testDayMonYear (jsTrim input) = false by simp only [testDayMonYear]; rw [htk]; exact c14)
        · exact Or.inl (show testMonDD (jsTrim input) = false by simp only [testMonDD]; rw [htk]; exact c15)
        · exact Or.inl (show testTimeOnly (jsTrim input) = false by simp only [testTimeOnly]; rw [htk]; exact c16)
      · obtain ⟨c2, c3, c4, c5, c6, c7, c8, c9, c10, c11, c12, c13, c14, c15, c16⟩ :=
          excls_after_negdigits ds h13
        apply runFormats_none_of
        intro j hj
        have hj17 : j < 17 := hj
        interval_cases j
        · exact Or.inl (hleast 0 (by omega))
        · exact Or.inr hfail
        · exact Or.inl (show testUnixS (jsTrim input) = false by simp only [testUnixS]; rw [htk]; exact c2)
        · exact Or.inl (show testISO (jsTrim input) = false by simp only [testISO]; rw [htk]; exact c3)
        · exact Or.inl (show testCompactISO (jsTrim input) = false by simp only [testCompactISO]; rw [htk]; exact c4)
        · exact Or.inl (show testRFC (jsTrim input) = false by simp only [testRFC]; rw [htk]; exact c5)
        · exact Or.inl (show testSQL (jsTrim input) = false by simp only [testSQL]; rw [htk]; exact c6)
        · exact Or.inl (show testDateISO (jsTrim input) = false by simp only [testDateISO]; rw [htk]; exact c7)
        · exact Or.inl (show testCompactDate (jsTrim input) = false by simp only [testCompactDate]; rw [htk]; exact c8)
        · exact Or.inl (show testSlashDate (jsTrim input) = false by simp only [testSlashDate]; rw [htk]; exact c9)
        · exact Or.inl (show testSlashDateTime (jsTrim input) = false by simp only [testSlashDateTime]; rw [htk]; exact c10)
        · exact Or.inl (show testSlashYMD (jsTrim input) = false by simp only [testSlashYMD]; rw [htk]; exact c11)
        · exact Or.inl (show testDotDate (jsTrim input) = false by simp only [testDotDate]; rw [htk]; exact c12)
        · exact Or.inl (show testDashDMY (jsTrim input) = false by simp only [testDashDMY]; rw [htk]; exact c13)
        · exact Or.inl (show testDayMonYear (jsTrim input) = false by simp only [testDayMonYear]; rw [htk]; exact c14)
        · exact Or.inl (show testMonDD (jsTrim input) = false by simp only [testMonDD]; rw [htk]; exact c15)
        · exact Or.inl (show testTimeOnly (jsTrim input) = false by simp only [testTimeOnly]; rw [htk]; exact c16)
    · have hacc2 : shapeUnixS (tokenize (jsTrim input)) = true := hacc
      obtain ⟨ds, h1, h12, hcase⟩ := shapeUnixS_inv hacc2
      exfalso
      rcases hcase with htk | htk
      · obtain ⟨hteq, hdsne, hdsdig⟩ := tokenize_digits_only htk
        have hvb : digitsValD ds < 10 ^ 12 :=
          lt_of_lt_of_le (digitsValD_lt hdsdig) (Nat.pow_le_pow_right (by norm_num) h12)
        apply hfail (((digitsValD ds : Nat) : Int) * 1000)
        show JSVal.date (((jsParseInt (jsTrim input)).map (fun x => x * 1000)).bind
            timeClip) = JSVal.date (some (((digitsValD ds : Nat) : Int) * 1000))
        rw [hteq, jsParseInt_digits hdsne hdsdig]
        have hcl : timeClip (((digitsValD ds : Nat) : Int) * 1000) =
            some (((digitsValD ds : Nat) : Int) * 1000) := by
          apply timeClip_of_le
          simp only [maxTimeValue]
          omega
        simp [hcl]
      · obtain ⟨hteq, hdsne, hdsdig⟩ := tokenize_neg_digits_only htk
        have hvb : digitsValD ds < 10 ^ 12 :=
          lt_of_lt_of_le (digitsValD_lt hdsdig) (Nat.pow_le_pow_right (by norm_num) h12)
        apply hfail (-(((digitsValD ds : Nat) : Int) * 1000))
        show JSVal.date (((jsParseInt (jsTrim input)).map (fun x => x * 1000)).bind
            timeClip) = JSVal.date (some (-(((digitsValD ds : Nat) : Int) * 1000)))
        rw [hteq, jsParseInt_neg_digits hdsne hdsdig]
        have hcl : timeClip (-(((digitsValD ds : Nat) : Int) * 1000)) =
            some (-(((digitsValD ds : Nat) : Int) * 1000)) := by
          apply timeClip_of_le
          simp only [maxTimeValue]
          omega
        simp [hcl]
    · have hacc3 : shapeISO (tokenize (jsTrim input)) = true := hacc
      obtain ⟨y, mo, d, t2, r, htk⟩ := shapeISO_inv hacc3
      obtain ⟨c4, c5, c6, c7, c8, c9, c10, c11, c12, c13, c14, c15, c16⟩ :=
        excls_after_iso y mo d t2 r
      apply runFormats_none_of
      intro j hj
      have hj17 : j < 17 := hj
      interval_cases j
      · exact Or.inl (hleast 0 (by omega))
      · exact Or.inl (hleast 1 (by omega))
      · exact Or.inl (hleast 2 (by omega))
      · exact Or.inr hfail
      · exact Or.inl (show testCompactISO (jsTrim input) = false by simp only [testCompactISO]; rw [htk]; exact c4)
      · exact Or.inl (show testRFC (jsTrim input) = false by simp only [testRFC]; rw [htk]; exact c5)
      · exact Or.inl (show testSQL (jsTrim input) = false by simp only [testSQL]; rw [htk]; exact c6)
      · exact Or.inl (show testDateISO (jsTrim input) = false by simp only [testDateISO]; rw [htk]; exact c7)
      · exact Or.inl (show testCompactDate (jsTrim input) = false by simp only [testCompactDate]; rw [htk]; exact c8)
      · exact Or.inl (show testSlashDate (jsTrim input) = false by simp only [testSlashDate]; rw [htk]; exact c9)
      · exact Or.inl (show testSlashDateTime (jsTrim input) = false by simp only [testSlashDateTime]; rw [htk]; exact c10)
      · exact Or.inl (show testSlashYMD (jsTrim input) = false by simp only [testSlashYMD]; rw [htk]; exact c11)
      · exact Or.inl (show testDotDate (jsTrim input) = false by simp only [testDotDate]; rw [htk]; exact c12)
      · exact Or.inl (show testDashDMY (jsTrim input) = false by simp only [testDashDMY]; rw [htk]; exact c13)
      · exact Or.inl (show testDayMonYear (jsTrim input) = false by simp only [testDayMonYear]; rw [htk]; exact c14)
      · exact Or.inl (show testMonDD (jsTrim input) = false by simp only [testMonDD]; rw [htk]; exact c15)
      · exact Or.inl (show testTimeOnly (jsTrim input) = false by simp only [testTimeOnly]; rw [htk]; exact c16)
    · have hacc4 : shapeCompactISO (tokenize (jsTrim input)) = true := hacc
      obtain ⟨a, t2, b, htk⟩ := shapeCompactISO_inv hacc4
      obtain ⟨c5, c6, c7, c8, c9, c10, c11, c12, c13, c14, c15, c16⟩ :=
        excls_after_compactISO a t2 b
      apply runFormats_none_of
      intro j hj
      have hj17 : j < 17 := hj
      interval_cases j
      · exact Or.inl (hleast 0 (by omega))
      · exact Or.inl (hleast 1 (by omega))
      · exact Or.inl (hleast 2 (by omega))
      · exact Or.inl (hleast 3 (by omega))
      · exact Or.inr hfail
      · exact Or.inl (show testRFC (jsTrim input) = false by simp only [testRFC]; rw [htk]; exact c5)
      · exact Or.inl (show testSQL (jsTrim input) = false by simp only [testSQL]; rw [htk]; exact c6)
      · exact Or.inl (show testDateISO (jsTrim input) = false by simp only [testDateISO]; rw [htk]; exact c7)
      · exact Or.inl (show testCompactDate (jsTrim input) = false by simp only [testCompactDate]; rw [htk]; exact c8)
      · exact Or.inl (show testSlashDate (jsTrim input) = false by simp only [testSlashDate]; rw [htk]; exact c9)
      · exact Or.inl (show testSlashDateTime (jsTrim input) = false by simp only [testSlashDateTime]; rw [htk]; exact c10)
      · exact Or.inl (show testSlashYMD (jsTrim input) = false by simp only [testSlashYMD]; rw [htk]; exact c11)
      · exact Or.inl (show testDotDate (jsTrim input) = false by simp only [testDotDate]; rw [htk]; exact c12)
      · exact Or.inl (show testDashDMY (jsTrim input) = false by simp only [testDashDMY]; rw [htk]; exact c13)
      · exact Or.inl (show testDayMonYear (jsTrim input) = false by simp only [testDayMonYear]; rw [htk]; exact c14)
      · exact Or.inl (show testMonDD (jsTrim input) = false by simp only [testMonDD]; rw [htk]; exact c15)
      · exact Or.inl (show testTimeOnly (jsTrim input) = false by simp only [testTimeOnly]; rw [htk]; exact c16)
    · have hacc5 : shapeRFC (tokenize (jsTrim input)) = true := hacc
      rcases shapeRFC_inv hacc5 with ⟨dow, r, htk⟩ | ⟨dow, w, d, w2, mon, R, htk⟩
      · obtain ⟨c6, c7, c8, c9, c10, c11, c12, c13, c14, c15, c16⟩ :=
          excls_after_rfc_comma dow r
        apply runFormats_none_of
        intro j hj
        have hj17 : j < 17 := hj
        interval_cases j
        · exact Or.inl (hleast 0 (by omega))
        · exact Or.inl (hleast 1 (by omega))
        · exact Or.inl (hleast 2 (by omega))
        · exact Or.inl (hleast 3 (by omega))
        · exact Or.inl (hleast 4 (by omega))
        · exact Or.inr hfail
        · exact Or.inl (show testSQL (jsTrim input) = false by simp only [testSQL]; rw [htk]; exact c6)
        · exact Or.inl (show testDateISO (jsTrim input) = false by simp only [testDateISO]; rw [htk]; exact c7)
        · exact Or.inl (show testCompactDate (jsTrim input) = false by simp only [testCompactDate]; rw [htk]; exact c8)
        · exact Or.inl (show testSlashDate (jsTrim input) = false by simp only [testSlashDate]; rw [htk]; exact c9)
        · exact Or.inl (show testSlashDateTime (jsTrim input) = false by simp only [testSlashDateTime]; rw [htk]; exact c10)
        · exact Or.inl (show testSlashYMD (jsTrim input) = false by simp only [testSlashYMD]; rw [htk]; exact c11)
        · exact Or.inl (show testDotDate (jsTrim input) = false by simp only [testDotDate]; rw [htk]; exact c12)
        · exact Or.inl (show testDashDMY (jsTrim input) = false by simp only [testDashDMY]; rw [htk]; exact c13)
        · exact Or.inl (show testDayMonYear (jsTrim input) = false by simp only [testDayMonYear]; rw [htk]; exact c14)
        · exact Or.inl (show testMonDD (jsTrim input) = false by simp only [testMonDD]; rw [htk]; exact c15)
        · exact Or.inl (show testTimeOnly (jsTrim input) = false by simp only [testTimeOnly]; rw [htk]; exact c16)
      · obtain ⟨c6, c7, c8, c9, c10, c11, c12, c13, c14, c15, c16⟩ :=
          excls_after_rfc_ws dow w d w2 mon R
        apply runFormats_none_of
        intro j hj
        have hj17 : j < 17 := hj
        interval_cases j
        · exact Or.inl (hleast 0 (by omega))
        · exact Or.inl (hleast 1 (by omega))
        · exact Or.inl (hleast 2 (by omega))
        · exact Or.inl (hleast 3 (by omega))
        · exact Or.inl (hleast 4 (by omega))
        · exact Or.inr hfail
        · exact Or.inl (show testSQL (jsTrim input) = false by simp only [testSQL]; rw [htk]; exact c6)
        · exact Or.inl (show testDateISO (jsTrim input) = false by simp only [testDateISO]; rw [htk]; exact c7)
        · exact Or.inl (show testCompactDate (jsTrim input) = false by simp only [testCompactDate]; rw [htk]; exact c8)
        · exact Or.inl (show testSlashDate (jsTrim input) = false by simp only [testSlashDate]; rw [htk]; exact c9)
        · exact Or.inl (show testSlashDateTime (jsTrim input) = false by simp only [testSlashDateTime]; rw [htk]; exact c10)
        · exact Or.inl (show testSlashYMD (jsTrim input) = false by simp only [testSlashYMD]; rw [htk]; exact c11)
        · exact Or.inl (show testDotDate (jsTrim input) = false by simp only [testDotDate]; rw [htk]; exact c12)
        · exact Or.inl (show testDashDMY (jsTrim input) = false by simp only [testDashDMY]; rw [htk]; exact c13)
        · exact Or.inl (show testDayMonYear (jsTrim input) = false by simp only [testDayMonYear]; rw [htk]; exact c14)
        · exact Or.inl (show testMonDD (jsTrim input) = false by simp only [testMonDD]; rw [htk]; exact c15)
        · exact Or.inl (show testTimeOnly (jsTrim input) = false by simp only [testTimeOnly]; rw [htk]; exact c16)
    · have hacc6 : shapeSQL (tokenize (jsTrim input)) = true := hacc
      obtain ⟨y, mo, d, w, r, htk, hy4⟩ := shapeSQL_inv hacc6
      obtain ⟨c7, c8, c9, c10, c11, c12, c13, c14, c15, c16⟩ :=
        excls_after_sql y mo d w r hy4
      apply runFormats_none_of
      intro j hj
      have hj17 : j < 17 := hj
      interval_cases j
      · exact Or.inl (hleast 0 (by omega))
      · exact Or.inl (hleast 1 (by omega))
      · exact Or.inl (hleast 2 (by omega))
      · exact Or.inl (hleast 3 (by omega))
      · exact Or.inl (hleast 4 (by omega))
      · exact Or.inl (hleast 5 (by omega))
      · exact Or.inr hfail
      · exact Or.inl (show testDateISO (jsTrim input) = false by simp only [testDateISO]; rw [htk]; exact c7)
      · exact Or.inl (show testCompactDate (jsTrim input) = false by simp only [testCompactDate]; rw [htk]; exact c8)
      · exact Or.inl (show testSlashDate (jsTrim input) = false by simp only [testSlashDate]; rw [htk]; exact c9)
      · exact Or.inl (show testSlashDateTime (jsTrim input) = false by simp only [testSlashDateTime]; rw [htk]; exact c10)
      · exact Or.inl (show testSlashYMD (jsTrim input) = false by simp only [testSlashYMD]; rw [htk]; exact c11)
      · exact Or.inl (show testDotDate (jsTrim input) = false by simp only [testDotDate]; rw [htk]; exact c12)
      · exact Or.inl (show testDashDMY (jsTrim input) = false by simp only [testDashDMY]; rw [htk]; exact c13)
      · exact Or.inl (show testDayMonYear (jsTrim input) = false by simp only [testDayMonYear]; rw [htk]; exact c14)
      · exact Or.inl (show testMonDD (jsTrim input) = false by simp only [testMonDD]; rw [htk]; exact c15)
      · exact Or.inl (show testTimeOnly (jsTrim input) = false by simp only [testTimeOnly]; rw [htk]; exact c16)
    · have hacc7 : shapeDateISO (tokenize (jsTrim input)) = true := hacc
      obtain ⟨y, mo, d, htk, hy4⟩ := shapeDateISO_inv hacc7
      obtain ⟨c8, c9, c10, c11, c12, c13, c14, c15, c16⟩ :=
        excls_after_dateISO y mo d hy4
      apply runFormats_none_of
      intro j hj
      have hj17 : j < 17 := hj
      interval_cases j
      · exact Or.inl (hleast 0 (by omega))
      · exact Or.inl (hleast 1 (by omega))
      · exact Or.inl (hleast 2 (by omega))
      · exact Or.inl (hleast 3 (by omega))
      · exact Or.inl (hleast 4 (by omega))
      · exact Or.inl (hleast 5 (by omega))
      · exact Or.inl (hleast 6 (by omega))
      · exact Or.inr hfail
      · exact Or.inl (show testCompactDate (jsTrim input) = false by simp only [testCompactDate]; rw [htk]; exact c8)
      · exact Or.inl (show testSlashDate (jsTrim input) = false by simp only [testSlashDate]; rw [htk]; exact c9)
      · exact Or.inl (show testSlashDateTime (jsTrim input) = false by simp only [testSlashDateTime]; rw [htk]; exact c10)
      · exact Or.inl (show testSlashYMD (jsTrim input) = false by simp only [testSlashYMD]; rw [htk]; exact c11)
      · exact Or.inl (show testDotDate (jsTrim input) = false by simp only [testDotDate]; rw [htk]; exact c12)
      · exact Or.inl (show testDashDMY (jsTrim input) = false by simp only [testDashDMY]; rw [htk]; exact c13)
      · exact Or.inl (show testDayMonYear (jsTrim input) = false by simp only [testDayMonYear]; rw [htk]; exact c14)
      · exact Or.inl (show testMonDD (jsTrim input) = false by simp only [testMonDD]; rw [htk]; exact c15)
      · exact Or.inl (show testTimeOnly (jsTrim input) = false by simp only [testTimeOnly]; rw [htk]; exact c16)
    · exfalso
      have hacc8 : shapeCompactDate (tokenize (jsTrim input)) = true := hacc
      obtain ⟨ds, htk, hlen8⟩ := shapeCompactDate_inv hacc8
      have h2f : testUnixS (jsTrim input) = false := hleast 2 (by omega)
      have h2t : testUnixS (jsTrim input) = true := by
        simp only [testUnixS]
        rw [htk]
        simp only [shapeUnixS, Bool.and_eq_true, decide_eq_true_eq]
        omega
      rw [h2f] at h2t
      exact absurd h2t (by decide)
    · have hacc9 : shapeSlashDate (tokenize (jsTrim input)) = true := hacc
      obtain ⟨a, b, y, htk, ha2⟩ := shapeSlashDate_inv hacc9
      obtain ⟨c10, c11, c12, c13, c14, c15, c16⟩ :=
        excls_after_slashDate a b y ha2
      apply runFormats_none_of
      intro j hj
      have hj17 : j < 17 := hj
      interval_cases j
      · exact Or.inl (hleast 0 (by omega))
      · exact Or.inl (hleast 1 (by omega))
      · exact Or.inl (hleast 2 (by omega))
      · exact Or.inl (hleast 3 (by omega))
      · exact Or.inl (hleast 4 (by omega))
      · exact Or.inl (hleast 5 (by omega))
      · exact Or.inl (hleast 6 (by omega))
      · exact Or.inl (hleast 7 (by omega))
      · exact Or.inl (hleast 8 (by omega))
      · exact Or.inr hfail
      · exact Or.inl (show testSlashDateTime (jsTrim input) = false by simp only [testSlashDateTime]; rw [htk]; exact c10)
      · exact Or.inl (show testSlashYMD (jsTrim input) = false by simp only [testSlashYMD]; rw [htk]; exact c11)
      · exact Or.inl (show testDotDate (jsTrim input) = false by simp only [testDotDate]; rw [htk]; exact c12)
      · exact Or.inl (show testDashDMY (jsTrim input) = false by simp only [testDashDMY]; rw [htk]; exact c13)
      · exact Or.inl (show testDayMonYear (jsTrim input) = false by simp only [testDayMonYear]; rw [htk]; exact c14)
      · exact Or.inl (show testMonDD (jsTrim input) = false by simp only [testMonDD]; rw [htk]; exact c15)
      · exact Or.inl (show testTimeOnly (jsTrim input) = false by simp only [testTimeOnly]; rw [htk]; exact c16)
    · have hacc10 : shapeSlashDateTime (tokenize (jsTrim input)) = true := hacc
      obtain ⟨a, b, y, w, r, htk, ha2⟩ := shapeSlashDateTime_inv hacc10
      obtain ⟨c11, c12, c13, c14, c15, c16⟩ :=
        excls_after_slashDateTime a b y w r ha2
      apply runFormats_none_of
      intro j hj
      have hj17 : j < 17 := hj
      interval_cases j
      · exact Or.inl (hleast 0 (by omega))
      · exact Or.inl (hleast 1 (by omega))
      · exact Or.inl (hleast 2 (by omega))
      · exact Or.inl (hleast 3 (by omega))
      · exact Or.inl (hleast 4 (by omega))
      · exact Or.inl (hleast 5 (by omega))
      · exact Or.inl (hleast 6 (by omega))
      · exact Or.inl (hleast 7 (by omega))
      · exact Or.inl (hleast 8 (by omega))
      · exact Or.inl (hleast 9 (by omega))
      · exact Or.inr hfail
      · exact Or.inl (show testSlashYMD (jsTrim input) = false by simp only [testSlashYMD]; rw [htk]; exact c11)
      · exact Or.inl (show testDotDate (jsTrim input) = false by simp only [testDotDate]; rw [htk]; exact c12)
      · exact Or.inl (show testDashDMY (jsTrim input) = false by simp only [testDashDMY]; rw [htk]; exact c13)
      · exact Or.inl (show testDayMonYear (jsTrim input) = false by simp only [testDayMonYear]; rw [htk]; exact c14)
      · exact Or.inl (show testMonDD (jsTrim input) = false by simp only [testMonDD]; rw [htk]; exact c15)
      · exact Or.inl (show testTimeOnly (jsTrim input) = false by simp only [testTimeOnly]; rw [htk]; exact c16)
    · have hacc11 : shapeSlashYMD (tokenize (jsTrim input)) = true := hacc
      obtain ⟨y, r, htk⟩ := shapeSlashYMD_inv hacc11
      obtain ⟨c12, c13, c14, c15, c16⟩ := excls_after_slashYMD y r
      apply runFormats_none_of
      intro j hj
      have hj17 : j < 17 := hj
      interval_cases j
      · exact Or.inl (hleast 0 (by omega))
      · exact Or.inl (hleast 1 (by omega))
      · exact Or.inl (hleast 2 (by omega))
      · exact Or.inl (hleast 3 (by omega))
      · exact Or.inl (hleast 4 (by omega))
      · exact Or.inl (hleast 5 (by omega))
      · exact Or.inl (hleast 6 (by omega))
      · exact Or.inl (hleast 7 (by omega))
      · exact Or.inl (hleast 8 (by omega))
      · exact Or.inl (hleast 9 (by omega))
      · exact Or.inl (hleast 10 (by omega))
      · exact Or.inr hfail
      · exact Or.inl (show testDotDate (jsTrim input) = false by simp only [testDotDate]; rw [htk]; exact c12)
      · exact Or.inl (show testDashDMY (jsTrim input) = false by simp only [testDashDMY]; rw [htk]; exact c13)
      · exact Or.inl (show testDayMonYear (jsTrim input) = false by simp only [testDayMonYear]; rw [htk]; exact c14)
      · exact Or.inl (show testMonDD (jsTrim input) = false by simp only [testMonDD]; rw [htk]; exact c15)
      · exact Or.inl (show testTimeOnly (jsTrim input) = false by simp only [testTimeOnly]; rw [htk]; exact c16)
    · have hacc12 : shapeDotDate (tokenize (jsTrim input)) = true := hacc
      obtain ⟨a, r, htk⟩ := shapeDotDate_inv hacc12
      obtain ⟨c13, c14, c15, c16⟩ := excls_after_dotDate a r
      apply runFormats_none_of
      intro j hj
      have hj17 : j < 17 := hj
      interval_cases j
      · exact Or.inl (hleast 0 (by omega))
      · exact Or.inl (hleast 1 (by omega))
      · exact Or.inl (hleast 2 (by omega))
      · exact Or.inl (hleast 3 (by omega))
      · exact Or.inl (hleast 4 (by omega))
      · exact Or.inl (hleast 5 (by omega))
      · exact Or.inl (hleast 6 (by omega))
      · exact Or.inl (hleast 7 (by omega))
      · exact Or.inl (hleast 8 (by omega))
      · exact Or.inl (hleast 9 (by omega))
      · exact Or.inl (hleast 10 (by omega))
      · exact Or.inl (hleast 11 (by omega))
      · exact Or.inr hfail
      · exact Or.inl (show testDashDMY (jsTrim input) = false by simp only [testDashDMY]; rw [htk]; exact c13)
      · exact Or.inl (show testDayMonYear (jsTrim input) = false by simp only [testDayMonYear]; rw [htk]; exact c14)
      · exact Or.inl (show testMonDD (jsTrim input) = false by simp only [testMonDD]; rw [htk]; exact c15)
      · exact Or.inl (show testTimeOnly (jsTrim input) = false by simp only [testTimeOnly]; rw [htk]; exact c16)
    · have hacc13 : shapeDashDMY (tokenize (jsTrim input)) = true := hacc
      obtain ⟨a, r, htk⟩ := shapeDashDMY_inv hacc13
      obtain ⟨c14, c15, c16⟩ := excls_after_dashDMY a r
      apply runFormats_none_of
      intro j hj
      have hj17 : j < 17 := hj
      interval_cases j
      · exact Or.inl (hleast 0 (by omega))
      · exact Or.inl (hleast 1 (by omega))
      · exact Or.inl (hleast 2 (by omega))
      · exact Or.inl (hleast 3 (by omega))
      · exact Or.inl (hleast 4 (by omega))
      · exact Or.inl (hleast 5 (by omega))
      · exact Or.inl (hleast 6 (by omega))
      · exact Or.inl (hleast 7 (by omega))
      · exact Or.inl (hleast 8 (by omega))
      · exact Or.inl (hleast 9 (by omega))
      · exact Or.inl (hleast 10 (by omega))
      · exact Or.inl (hleast 11 (by omega))
      · exact Or.inl (hleast 12 (by omega))
      · exact Or.inr hfail
      · exact Or.inl (show testDayMonYear (jsTrim input) = false by simp only [testDayMonYear]; rw [htk]; exact c14)
      · exact Or.inl (show testMonDD (jsTrim input) = false by simp only [testMonDD]; rw [htk]; exact c15)
      · exact Or.inl (show testTimeOnly (jsTrim input) = false by simp only [testTimeOnly]; rw [htk]; exact c16)
    · have hacc14 : shapeDayMonYear (tokenize (jsTrim input)) = true := hacc
      obtain ⟨d, w, r, htk⟩ := shapeDayMonYear_inv hacc14
      obtain ⟨c15, c16⟩ := excls_after_dayMonYear d w r
      apply runFormats_none_of
      intro j hj
      have hj17 : j < 17 := hj
      interval_cases j
      · exact Or.inl (hleast 0 (by omega))
      · exact Or.inl (hleast 1 (by omega))
      · exact Or.inl (hleast 2 (by omega))
      · exact Or.inl (hleast 3 (by omega))
      · exact Or.inl (hleast 4 (by omega))
      · exact Or.inl (hleast 5 (by omega))
      · exact Or.inl (hleast 6 (by omega))
      · exact Or.inl (hleast 7 (by omega))
      · exact Or.inl (hleast 8 (by omega))
      · exact Or.inl (hleast 9 (by omega))
      · exact Or.inl (hleast 10 (by omega))
      · exact Or.inl (hleast 11 (by omega))
      · exact Or.inl (hleast 12 (by omega))
      · exact Or.inl (hleast 13 (by omega))
      · exact Or.inr hfail
      · exact Or.inl (show testMonDD (jsTrim input) = false by simp only [testMonDD]; rw [htk]; exact c15)
      · exact Or.inl (show testTimeOnly (jsTrim input) = false by simp only [testTimeOnly]; rw [htk]; exact c16)
    · have hacc15 : shapeMonDD (tokenize (jsTrim input)) = true := hacc
      obtain ⟨mon, r, htk⟩ := shapeMonDD_inv hacc15
      have c16 := excls_after_monDD mon r
      apply runFormats_none_of
      intro j hj
      have hj17 : j < 17 := hj
      interval_cases j
      · exact Or.inl (hleast 0 (by omega))
      · exact Or.inl (hleast 1 (by omega))
      · exact Or.inl (hleast 2 (by omega))
      · exact Or.inl (hleast 3 (by omega))
      · exact Or.inl (hleast 4 (by omega))
      · exact Or.inl (hleast 5 (by omega))
      · exact Or.inl (hleast 6 (by omega))
      · exact Or.inl (hleast 7 (by omega))
      · exact Or.inl (hleast 8 (by omega))
      · exact Or.inl (hleast 9 (by omega))
      · exact Or.inl (hleast 10 (by omega))
      · exact Or.inl (hleast 11 (by omega))
      · exact Or.inl (hleast 12 (by omega))
      · exact Or.inl (hleast 13 (by omega))
      · exact Or.inl (hleast 14 (by omega))
      · exact Or.inr hfail
      · exact Or.inl (show testTimeOnly (jsTrim input) = false by simp only [testTimeOnly]; rw [htk]; exact c16)
    · apply runFormats_none_of
      intro j hj
      have hj17 : j < 17 := hj
      interval_cases j
      · exact Or.inl (hleast 0 (by omega))
      · exact Or.inl (hleast 1 (by omega))
      · exact Or.inl (hleast 2 (by omega))
      · exact Or.inl (hleast 3 (by omega))
      · exact Or.inl (hleast 4 (by omega))
      · exact Or.inl (hleast 5 (by omega))
      · exact Or.inl (hleast 6 (by omega))
      · exact Or.inl (hleast 7 (by omega))
      · exact Or.inl (hleast 8 (by omega))
      · exact Or.inl (hleast 9 (by omega))
      · exact Or.inl (hleast 10 (by omega))
      · exact Or.inl (hleast 11 (by omega))
      · exact Or.inl (hleast 12 (by omega))
      · exact Or.inl (hleast 13 (by omega))
      · exact Or.inl (hleast 14 (by omega))
      · exact Or.inl (hleast 15 (by omega))
      · exact Or.inr hfail

theorem detect_no_fallthrough_witness :
    parseTimestamp (fun _ => none) .us 0 "31/12/2024".toList = none :=
  detect_no_fallthrough (fun _ => none) .us 0 "31/12/2024".toList 9
    (by decide) (by decide) (by decide)
    (fun v h => by
      rw [show ((FORMATS (fun _ => none) DateMode.us 0).get ⟨9, by decide⟩).parse
          (jsTrim "31/12/2024".toList) = JSVal.null from by decide] at h
      cases h)

end App
